import Mathlib

/-!
# OXRS digital I/O firmware: pin roles, type classifier, command dispatch

A shallow embedding of `src/main.cpp`.

* `uint8_t` / `uint16_t` / `uint32_t` values are natural numbers; the places
  where the width matters (the 16-bit result word, the 32-bit input register,
  ArduinoJson's range-checked `as<uint8_t>()`) carry the bound explicitly.
* A `const char *` argument is a `String` holding the characters before the
  terminating NUL, so `strcmp(a, b) == 0` is `a = b`.
* The global tables (`gpioTypes`), the pins and the two handler objects
  (`oxrsInput`, `oxrsOutput`) are fields of an explicit `State`; every call the
  firmware makes on a collaborator is appended to `State.log`.
* A function whose C execution has no defined result (a null pointer handed to
  `strcmp`, a 32-bit value shifted by 32 or more) returns `none`.
-/

namespace DigitalIO

/-! ## Constants of the firmware -/

/-- The two boards the firmware is built for (`#if defined(OXRS_ESP32)` /
`#elif defined(OXRS_LILYGO)`). -/
inductive Board where
  | OXRS_ESP32
  | OXRS_LILYGO
  deriving DecidableEq, Repr

/-- The pin table `GPIO_PINS[]` of each build. -/
def GPIO_PINS : Board → List Nat
  | .OXRS_ESP32 => [2, 4, 5, 13, 14, 15, 16, 17, 18, 19, 21, 22, 23, 25, 26, 27]
  | .OXRS_LILYGO => [2, 4, 12, 14, 15, 16, 32, 33, 34, 35, 36, 39]

/-- The constant `GPIO_COUNT = sizeof(GPIO_PINS)`. -/
def GPIO_COUNT (b : Board) : Nat := (GPIO_PINS b).length

/-- Table lookup `GPIO_PINS[index]` (only ever used with `index < GPIO_COUNT`). -/
def gpioPin (b : Board) (index : Nat) : Nat := (GPIO_PINS b).getD index 0

def INVALID_GPIO_PIN : Nat := 99
def INVALID_GPIO_TYPE : Nat := 99
def INVALID_INPUT_TYPE : Nat := 99
def INVALID_OUTPUT_TYPE : Nat := 99

/-- The enumerator `GPIO_INPUT` of `enum gpioType_t { GPIO_INPUT, GPIO_OUTPUT }`. -/
def GPIO_INPUT : Nat := 0
/-- The enumerator `GPIO_OUTPUT` of `enum gpioType_t`. -/
def GPIO_OUTPUT : Nat := 1

/-- What `main.cpp` takes from libraries outside `src/`: the macro constants of
the headers `OXRS_Input.h` and `OXRS_Output.h`, and ArduinoJson's reading of a
JSON string as a `uint8_t` (`parseNumber`). They are a parameter of every
definition that mentions them. -/
structure Lib where
  parseNumber : String → Nat
  BUTTON : Nat
  CONTACT : Nat
  PRESS : Nat
  ROTARY : Nat
  SECURITY : Nat
  SWITCH : Nat
  TOGGLE : Nat
  LOW_EVENT : Nat
  HIGH_EVENT : Nat
  HOLD_EVENT : Nat
  TAMPER_EVENT : Nat
  SHORT_EVENT : Nat
  FAULT_EVENT : Nat
  RELAY : Nat
  MOTOR : Nat
  TIMER : Nat
  RELAY_ON : Nat
  RELAY_OFF : Nat
  DEFAULT_TIMER_SECS : Nat

/-- The seven input type codes, in the order of the vocabulary. -/
def Lib.inputTypes (L : Lib) : List Nat :=
  [L.BUTTON, L.CONTACT, L.PRESS, L.ROTARY, L.SECURITY, L.SWITCH, L.TOGGLE]

/-- The three output type codes, in the order of the vocabulary. -/
def Lib.outputTypes (L : Lib) : List Nat := [L.RELAY, L.MOTOR, L.TIMER]

/-- What a C compiler demands of the constants for the `switch` statements of
`getInputType`, `getInputEventType`, `getOutputType` and `getOutputEventType`
to be accepted: the labels of one `switch` are pairwise different. -/
def Lib.LabelsDistinct (L : Lib) : Prop :=
  L.inputTypes.Nodup ∧
  [L.HOLD_EVENT, 1, 2, 3, 4, 5].Nodup ∧
  L.LOW_EVENT ≠ L.HIGH_EVENT ∧
  [L.HIGH_EVENT, L.LOW_EVENT, L.TAMPER_EVENT, L.SHORT_EVENT, L.FAULT_EVENT].Nodup ∧
  L.outputTypes.Nodup ∧
  L.RELAY_ON ≠ L.RELAY_OFF

instance (L : Lib) : Decidable L.LabelsDistinct := by
  unfold Lib.LabelsDistinct; infer_instance

/-- No type code of the library collides with the value 99 that the parsers
return on failure. -/
def Lib.CodesBelowSentinel (L : Lib) : Prop :=
  (∀ c ∈ L.inputTypes, c ≠ INVALID_INPUT_TYPE) ∧
  (∀ c ∈ L.outputTypes, c ≠ INVALID_OUTPUT_TYPE)

instance (L : Lib) : Decidable L.CodesBelowSentinel := by
  unfold Lib.CodesBelowSentinel; infer_instance

/-- The values the OXRS I/O handler headers give the constants; used where a
theorem is evaluated on a concrete input. `RELAY_ON` / `RELAY_OFF` follow the
comment in `outputEvent` ("turn the relay on/off (LOW/HIGH)"); `parseNumber`
reads plain decimal numerals. -/
def oxrsLib : Lib where
  parseNumber := fun s => if s.toNat?.getD 0 < 256 then s.toNat?.getD 0 else 0
  BUTTON := 0
  CONTACT := 1
  PRESS := 2
  ROTARY := 3
  SECURITY := 4
  SWITCH := 5
  TOGGLE := 6
  LOW_EVENT := 10
  HIGH_EVENT := 11
  HOLD_EVENT := 12
  TAMPER_EVENT := 13
  SHORT_EVENT := 14
  FAULT_EVENT := 15
  RELAY := 0
  MOTOR := 1
  TIMER := 2
  RELAY_ON := 0
  RELAY_OFF := 1
  DEFAULT_TIMER_SECS := 60

/-! ## Pin registry -/

/-- The scan of `getIndexFromGpio`: `pins` is what is left of the table and
`index` the loop counter. -/
def getIndexFromGpioLoop (gpio : Nat) : List Nat → Nat → Nat
  | [], _ => INVALID_GPIO_PIN
  | p :: rest, index => if gpio = p then index else getIndexFromGpioLoop gpio rest (index + 1)

/-- The function `getIndexFromGpio`: convert a GPIO pin to its 0-based index. -/
def getIndexFromGpio (b : Board) (gpio : Nat) : Nat :=
  getIndexFromGpioLoop gpio (GPIO_PINS b) 0

/-! ## Type classifier -/

/-- The two pin modes the firmware selects with `pinMode`. -/
inductive PinMode where
  | INPUT_PULLUP
  | OUTPUT
  deriving DecidableEq, Repr

/-- The published status record (the `StaticJsonDocument` built by the two
publishers). -/
structure StatusRecord where
  gpio : Nat
  type : String
  event : String
  deriving DecidableEq, Repr

/-- Everything the firmware does to the outside: diagnostics, pin operations,
publish attempts and calls on the two handler objects. -/
inductive Effect where
  | println (msg : String)
  | print (msg : String)
  | serializeJson (r : StatusRecord)
  | pinMode (gpio : Nat) (mode : PinMode)
  | digitalWrite (gpio : Nat) (val : Nat)
  | publishStatus (r : StatusRecord) (delivered : Bool)
  | inputSetType (index type : Nat)
  | inputSetInvert (index : Nat) (invert : Bool)
  | inputSetDisabled (index : Nat) (disabled : Bool)
  | outputSetType (index type : Nat)
  | outputSetTimer (index secs : Nat)
  | outputSetInterlock (index interlock : Nat)
  | outputHandleCommand (id index command : Nat)
  deriving DecidableEq, Repr

/-- The function `parseGpioType`: the code, and the diagnostics it prints. -/
def parseGpioType (gpioType : String) : Nat × List Effect :=
  if gpioType = "input" then (GPIO_INPUT, [])
  else if gpioType = "output" then (GPIO_OUTPUT, [])
  else (INVALID_GPIO_TYPE, [Effect.println "[digio] invalid GPIO type"])

/-- The function `parseInputType`: the code, and the diagnostics it prints. -/
def parseInputType (L : Lib) (inputType : String) : Nat × List Effect :=
  if inputType = "button" then (L.BUTTON, [])
  else if inputType = "contact" then (L.CONTACT, [])
  else if inputType = "press" then (L.PRESS, [])
  else if inputType = "rotary" then (L.ROTARY, [])
  else if inputType = "security" then (L.SECURITY, [])
  else if inputType = "switch" then (L.SWITCH, [])
  else if inputType = "toggle" then (L.TOGGLE, [])
  else (INVALID_INPUT_TYPE, [Effect.println "[digio] invalid input type"])

/-- The function `getInputType`: the name left in the buffer. -/
def getInputType (L : Lib) (type : Nat) : String :=
  if type = L.BUTTON then "button"
  else if type = L.CONTACT then "contact"
  else if type = L.PRESS then "press"
  else if type = L.ROTARY then "rotary"
  else if type = L.SECURITY then "security"
  else if type = L.SWITCH then "switch"
  else if type = L.TOGGLE then "toggle"
  else "error"

/-- The function `getInputEventType`: the event name left in the buffer. The
buffer is first set to "error"; a `switch` without a matching label leaves it. -/
def getInputEventType (L : Lib) (type state : Nat) : String :=
  if type = L.BUTTON then
    if state = L.HOLD_EVENT then "hold"
    else if state = 1 then "single"
    else if state = 2 then "double"
    else if state = 3 then "triple"
    else if state = 4 then "quad"
    else if state = 5 then "penta"
    else "error"
  else if type = L.CONTACT then
    if state = L.LOW_EVENT then "closed"
    else if state = L.HIGH_EVENT then "open"
    else "error"
  else if type = L.PRESS then "press"
  else if type = L.ROTARY then
    if state = L.LOW_EVENT then "up"
    else if state = L.HIGH_EVENT then "down"
    else "error"
  else if type = L.SECURITY then
    if state = L.HIGH_EVENT then "normal"
    else if state = L.LOW_EVENT then "alarm"
    else if state = L.TAMPER_EVENT then "tamper"
    else if state = L.SHORT_EVENT then "short"
    else if state = L.FAULT_EVENT then "fault"
    else "error"
  else if type = L.SWITCH then
    if state = L.LOW_EVENT then "on"
    else if state = L.HIGH_EVENT then "off"
    else "error"
  else if type = L.TOGGLE then "toggle"
  else "error"

/-- The function `parseOutputType`: the code, and the diagnostics it prints. -/
def parseOutputType (L : Lib) (outputType : String) : Nat × List Effect :=
  if outputType = "relay" then (L.RELAY, [])
  else if outputType = "motor" then (L.MOTOR, [])
  else if outputType = "timer" then (L.TIMER, [])
  else (INVALID_OUTPUT_TYPE, [Effect.println "[digio] invalid output type"])

/-- The function `getOutputType`: the name left in the buffer. -/
def getOutputType (L : Lib) (type : Nat) : String :=
  if type = L.MOTOR then "motor"
  else if type = L.RELAY then "relay"
  else if type = L.TIMER then "timer"
  else "error"

/-- The function `getOutputEventType`: the event name left in the buffer; the
`type` argument is not used by the body. -/
def getOutputEventType (L : Lib) (_type state : Nat) : String :=
  if state = L.RELAY_ON then "on"
  else if state = L.RELAY_OFF then "off"
  else "error"

/-! ## JSON documents (the view ArduinoJson gives of a payload) -/

/-- A JSON value. Numbers are integers; a `str` holds the text seen through
`const char *`. -/
inductive Json where
  | null
  | bool (b : Bool)
  | num (n : Int)
  | str (s : String)
  | arr (items : List Json)
  | obj (members : List (String × Json))

/-- The member access `json[key]` together with whether it exists. -/
def Json.member : Json → String → Option Json
  | .obj members, key => members.lookup key
  | _, _ => none

/-- The call `json.containsKey(key)`: true when the member exists, also when
its value is null. -/
def Json.containsKey (json : Json) (key : String) : Bool := (json.member key).isSome

/-- The expression `json[key]`: a missing member reads as null. -/
def Json.get (json : Json) (key : String) : Json := (json.member key).getD Json.null

/-- The call `.isNull()`. -/
def Json.isNull : Json → Bool
  | .null => true
  | _ => false

/-- The conversion `.as<uint8_t>()`: a number outside 0..255 and every value
that is not a number, boolean or string gives 0. -/
def Json.asUInt8 (L : Lib) : Json → Nat
  | .num n => if 0 ≤ n ∧ n ≤ 255 then n.toNat else 0
  | .bool b => if b then 1 else 0
  | .str s => L.parseNumber s % 256
  | _ => 0

/-- The conversion `.as<bool>()`. -/
def Json.asBool : Json → Bool
  | .bool b => b
  | .num n => n ≠ 0
  | .null => false
  | _ => true

/-- The conversion to `const char *`: a value that is not a string gives the
null pointer (`none`). -/
def Json.asCString : Json → Option String
  | .str s => some s
  | _ => none

/-- The conversion `.as<JsonArray>()`, as the list the range-for visits. -/
def Json.asArray : Json → List Json
  | .arr items => items
  | _ => []

/-! ## State -/

/-- Modelled from the spec: the `OXRS_Input` object (library code, not under
`src/`). Per the data model it owns the per-index input type, invert flag and
disabled flag, which its setters overwrite. -/
structure InputHandler where
  types : Nat → Nat
  inverts : Nat → Bool
  disableds : Nat → Bool

/-- Modelled from the spec: the `OXRS_Output` object (library code, not under
`src/`). Per the data model it owns the per-index output type, timer duration
and interlock target, which its setters overwrite; `getType` reads the type. -/
structure OutputHandler where
  types : Nat → Nat
  timers : Nat → Nat
  interlocks : Nat → Nat

/-- The mutable state: the role table `gpioTypes`, mode and level of every
physical pin, the two handler objects, and the log of effects so far. -/
structure State where
  gpioTypes : Nat → Nat
  pinModes : Nat → Option PinMode
  pinLevels : Nat → Nat
  input : InputHandler
  output : OutputHandler
  log : List Effect

/-- Append effects to the log. -/
def State.emit (st : State) (es : List Effect) : State :=
  { st with log := st.log ++ es }

/-- The call `oxrs.println(msg)`. -/
def println (msg : String) (st : State) : State := st.emit [Effect.println msg]

/-- The call `pinMode(gpio, mode)`. -/
def pinMode (gpio : Nat) (mode : PinMode) (st : State) : State :=
  { st with pinModes := Function.update st.pinModes gpio (some mode),
            log := st.log ++ [Effect.pinMode gpio mode] }

/-- The call `digitalWrite(gpio, val)`. -/
def digitalWrite (gpio val : Nat) (st : State) : State :=
  { st with pinLevels := Function.update st.pinLevels gpio val,
            log := st.log ++ [Effect.digitalWrite gpio val] }

/-- The call `digitalRead(gpio)`. -/
def digitalRead (gpio : Nat) (st : State) : Nat := st.pinLevels gpio

/-- The call `oxrsInput.setType(index, type)`. -/
def inputSetType (index type : Nat) (st : State) : State :=
  { st with input := { st.input with types := Function.update st.input.types index type },
            log := st.log ++ [Effect.inputSetType index type] }

/-- The call `oxrsInput.setInvert(index, invert)`. -/
def inputSetInvert (index : Nat) (invert : Bool) (st : State) : State :=
  { st with input := { st.input with inverts := Function.update st.input.inverts index invert },
            log := st.log ++ [Effect.inputSetInvert index invert] }

/-- The call `oxrsInput.setDisabled(index, disabled)`. -/
def inputSetDisabled (index : Nat) (disabled : Bool) (st : State) : State :=
  { st with input := { st.input with disableds := Function.update st.input.disableds index disabled },
            log := st.log ++ [Effect.inputSetDisabled index disabled] }

/-- The call `oxrsOutput.setType(index, type)`. -/
def outputSetType (index type : Nat) (st : State) : State :=
  { st with output := { st.output with types := Function.update st.output.types index type },
            log := st.log ++ [Effect.outputSetType index type] }

/-- The call `oxrsOutput.setTimer(index, secs)`. -/
def outputSetTimer (index secs : Nat) (st : State) : State :=
  { st with output := { st.output with timers := Function.update st.output.timers index secs },
            log := st.log ++ [Effect.outputSetTimer index secs] }

/-- The call `oxrsOutput.setInterlock(index, interlock)`. -/
def outputSetInterlock (index interlock : Nat) (st : State) : State :=
  { st with output := { st.output with interlocks := Function.update st.output.interlocks index interlock },
            log := st.log ++ [Effect.outputSetInterlock index interlock] }

/-- The call `oxrsOutput.getType(index)`. -/
def outputGetType (index : Nat) (st : State) : Nat := st.output.types index

/-- The call `oxrsOutput.handleCommand(id, index, command)`: recorded in the
log; what the handler does with the request is the handler's business. -/
def outputHandleCommand (id index command : Nat) (st : State) : State :=
  st.emit [Effect.outputHandleCommand id index command]

/-! ## Role table and bulk input sampler -/

/-- The function `setGpioType`: set the type in the role table and update the
physical pin mode. -/
def setGpioType (L : Lib) (b : Board) (index type : Nat) (st : State) : State :=
  let st := { st with gpioTypes := Function.update st.gpioTypes index type }
  let gpio := gpioPin b index
  if type = GPIO_INPUT then pinMode gpio PinMode.INPUT_PULLUP st
  else if type = GPIO_OUTPUT then digitalWrite gpio L.RELAY_OFF (pinMode gpio PinMode.OUTPUT st)
  else st

/-- The Arduino macro `bitRead(value, bit)`, that is `((value) >> (bit)) & 0x01`,
on a `uint32_t` value: a shift by 32 or more has no defined result. -/
def bitRead (value bit : Nat) : Option Bool :=
  if bit < 32 then some (value.testBit bit) else none

/-- The Arduino macro `bitClear(value, bit)`, that is `(value) &= ~(1UL << (bit))`,
on a `uint16_t` variable. -/
def bitClear (value bit : Nat) : Nat :=
  (value &&& ((2 ^ 32 - 1) ^^^ ((1 <<< bit) % 2 ^ 32))) % 2 ^ 16

/-- One turn of the loop of `readInputs`. -/
def readInputsStep (b : Board) (gpioTypes : Nat → Nat) (inReg : Nat) (result index : Nat) :
    Option Nat :=
  if gpioTypes index = GPIO_INPUT then
    match bitRead inReg (gpioPin b index) with
    | none => none
    | some bit => if !bit then some (bitClear result index) else some result
  else some result

/-- The function `readInputs`; `inReg` is the value of `REG_READ(GPIO_IN_REG)`. -/
def readInputs (b : Board) (gpioTypes : Nat → Nat) (inReg : Nat) : Option Nat :=
  (List.range (GPIO_COUNT b)).foldlM (readInputsStep b gpioTypes inReg) 0xffff

/-! ## Event publisher -/

/-- Number of publish attempts recorded in a log. -/
def publishAttempts : List Effect → Nat
  | [] => 0
  | Effect.publishStatus _ _ :: rest => publishAttempts rest + 1
  | _ :: rest => publishAttempts rest

/-- The function `publishOutputEvent`. The result of `oxrs.publishStatus` is
decided by the transport: `net k` tells whether the attempt after `k` earlier
ones is delivered. -/
def publishOutputEvent (L : Lib) (b : Board) (net : Nat → Bool) (index type state : Nat)
    (st : State) : State :=
  let json : StatusRecord :=
    { gpio := gpioPin b index, type := getOutputType L type,
      event := getOutputEventType L type state }
  let delivered := net (publishAttempts st.log)
  let st := st.emit [Effect.publishStatus json delivered]
  if !delivered then
    st.emit [Effect.print "[digio] [failover] ", Effect.serializeJson json, Effect.println ""]
  else st

/-- The function `publishInputEvent`. -/
def publishInputEvent (L : Lib) (b : Board) (net : Nat → Bool) (index type state : Nat)
    (st : State) : State :=
  let json : StatusRecord :=
    { gpio := gpioPin b index, type := getInputType L type,
      event := getInputEventType L type state }
  let delivered := net (publishAttempts st.log)
  let st := st.emit [Effect.publishStatus json delivered]
  if !delivered then
    st.emit [Effect.print "[digio] [failover] ", Effect.serializeJson json, Effect.println ""]
  else st

/-! ## Configuration applier -/

/-- The function `getIndex`: the index of the entry, or `INVALID_GPIO_PIN`. -/
def getIndex (L : Lib) (b : Board) (json : Json) (st : State) : Nat × State :=
  if !json.containsKey "gpio" then
    (INVALID_GPIO_PIN, println "[digio] missing gpio" st)
  else
    let gpio := (json.get "gpio").asUInt8 L
    let index := getIndexFromGpio b gpio
    if index = INVALID_GPIO_PIN then
      (INVALID_GPIO_PIN, println "[digio] invalid gpio, doesn't match a supported pin" st)
    else (index, st)

/-- The function `jsonInputConfig`. -/
def jsonInputConfig (L : Lib) (index : Nat) (json : Json) (st : State) : Option State :=
  let afterType : Option State :=
    if json.containsKey "type" then
      match (json.get "type").asCString with
      | none => none
      | some name =>
        let (inputType, diag) := parseInputType L name
        let st := st.emit diag
        if inputType ≠ INVALID_INPUT_TYPE then some (inputSetType index inputType st)
        else some st
    else some st
  afterType.map fun st =>
    let st :=
      if json.containsKey "invert" then inputSetInvert index (json.get "invert").asBool st
      else st
    if json.containsKey "disabled" then inputSetDisabled index (json.get "disabled").asBool st
    else st

/-- The function `jsonOutputConfig`. -/
def jsonOutputConfig (L : Lib) (b : Board) (index : Nat) (json : Json) (st : State) :
    Option State :=
  let afterType : Option State :=
    if json.containsKey "type" then
      match (json.get "type").asCString with
      | none => none
      | some name =>
        let (outputType, diag) := parseOutputType L name
        let st := st.emit diag
        if outputType ≠ INVALID_OUTPUT_TYPE then some (outputSetType index outputType st)
        else some st
    else some st
  afterType.map fun st =>
    let st :=
      if json.containsKey "timerSeconds" then
        if (json.get "timerSeconds").isNull then outputSetTimer index L.DEFAULT_TIMER_SECS st
        else outputSetTimer index ((json.get "timerSeconds").asUInt8 L) st
      else st
    if json.containsKey "interlockGpio" then
      if (json.get "interlockGpio").isNull then outputSetInterlock index index st
      else
        let interlockGpio := (json.get "interlockGpio").asUInt8 L
        let interlockIndex := getIndexFromGpio b interlockGpio
        if interlockIndex = INVALID_GPIO_PIN then println "[digio] invalid interlock GPIO" st
        else outputSetInterlock index interlockIndex st
    else st

/-- The role determination of `jsonGpioConfig`: the value of `gpioType` before
the "ignore if invalid" test, and the diagnostics printed on the way. -/
def configGpioType (json : Json) : Option (Nat × List Effect) :=
  if json.containsKey "type" then
    (json.get "type").asCString.map parseGpioType
  else if json.containsKey "input" then some (GPIO_INPUT, [])
  else if json.containsKey "output" then some (GPIO_OUTPUT, [])
  else some (INVALID_GPIO_TYPE, [])

/-- The function `jsonGpioConfig`. -/
def jsonGpioConfig (L : Lib) (b : Board) (json : Json) (st : State) : Option State :=
  let (index, st) := getIndex L b json st
  if index = INVALID_GPIO_PIN then some st
  else
    match configGpioType json with
    | none => none
    | some (gpioType, diag) =>
      let st := st.emit diag
      if gpioType = INVALID_GPIO_TYPE then some st
      else
        let st := setGpioType L b index gpioType st
        let afterInput : Option State :=
          if json.containsKey "input" && gpioType = GPIO_INPUT then
            jsonInputConfig L index (json.get "input") st
          else some st
        afterInput.bind fun st =>
          if json.containsKey "output" && gpioType = GPIO_OUTPUT then
            jsonOutputConfig L b index (json.get "output") st
          else some st

/-- The function `jsonConfig`. -/
def jsonConfig (L : Lib) (b : Board) (json : Json) (st : State) : Option State :=
  if json.containsKey "gpios" then
    (json.get "gpios").asArray.foldlM (fun st gpio => jsonGpioConfig L b gpio st) st
  else some st

/-! ## Command dispatcher -/

/-- The last part of `jsonGpioCommand`, from `if (json.containsKey("command"))`
on; `type` is the configured output type read before. -/
def dispatchCommand (L : Lib) (b : Board) (net : Nat → Bool) (index type : Nat) (json : Json)
    (st : State) : Option State :=
  if json.containsKey "command" then
    if (json.get "command").isNull then
      some (publishOutputEvent L b net index type (digitalRead (gpioPin b index) st) st)
    else
      match (json.get "command").asCString with
      | none => none
      | some command =>
        if command = "query" then
          some (publishOutputEvent L b net index type (digitalRead (gpioPin b index) st) st)
        else if command = "on" then some (outputHandleCommand 0 index L.RELAY_ON st)
        else if command = "off" then some (outputHandleCommand 0 index L.RELAY_OFF st)
        else some (println "[digio] invalid command" st)
  else some st

/-- The function `jsonGpioCommand`. -/
def jsonGpioCommand (L : Lib) (b : Board) (net : Nat → Bool) (json : Json) (st : State) :
    Option State :=
  let (index, st) := getIndex L b json st
  if index = INVALID_GPIO_PIN then some st
  else if st.gpioTypes index ≠ GPIO_OUTPUT then
    some (println "[digio] command received for GPIO not configured as output" st)
  else
    let type := outputGetType index st
    if json.containsKey "type" then
      match (json.get "type").asCString with
      | none => none
      | some name =>
        let (parsed, diag) := parseOutputType L name
        let st := st.emit diag
        if parsed ≠ type then
          some (println "[digio] command type doesn't match configured type" st)
        else dispatchCommand L b net index type json st
    else dispatchCommand L b net index type json st

/-- The function `jsonCommand`. -/
def jsonCommand (L : Lib) (b : Board) (net : Nat → Bool) (json : Json) (st : State) :
    Option State :=
  if json.containsKey "gpios" then
    (json.get "gpios").asArray.foldlM (fun st gpio => jsonGpioCommand L b net gpio st) st
  else some st

/-! ## Event handlers and start-up -/

/-- The function `inputEvent`, the callback of the input handler. -/
def inputEvent (L : Lib) (b : Board) (net : Nat → Bool) (_id input type state : Nat)
    (st : State) : State :=
  publishInputEvent L b net input type state st

/-- The function `outputEvent`, the callback of the output handler. -/
def outputEvent (L : Lib) (b : Board) (net : Nat → Bool) (_id output type state : Nat)
    (st : State) : State :=
  publishOutputEvent L b net output type state (digitalWrite (gpioPin b output) state st)

/-- The state when `setup` is entered: the role table is zero-initialised, no
pin mode has been chosen, nothing is logged; the pins are taken to float high
and the handlers to hold the defaults they get from `begin`. -/
def powerOn (L : Lib) : State where
  gpioTypes := fun _ => 0
  pinModes := fun _ => none
  pinLevels := fun _ => 1
  input := { types := fun _ => L.SWITCH, inverts := fun _ => false, disableds := fun _ => false }
  output := { types := fun _ => L.RELAY, timers := fun _ => L.DEFAULT_TIMER_SECS,
              interlocks := fun i => i }
  log := []

/-- The initialisation loop of `setup`, with the handlers at their defaults
(`oxrsInput.begin(inputEvent, SWITCH)`, `oxrsOutput.begin(outputEvent, RELAY)`). -/
def setup (L : Lib) (b : Board) (st : State) : State :=
  let st := (List.range (GPIO_COUNT b)).foldl (fun st index => setGpioType L b index GPIO_INPUT st) st
  { st with
    input := { types := fun _ => L.SWITCH, inverts := fun _ => false,
               disableds := fun _ => false }
    output := { types := fun _ => L.RELAY, timers := fun _ => L.DEFAULT_TIMER_SECS,
                interlocks := fun i => i } }

/-! ## Vocabulary of the specification -/

/-- The input type names of the external interface. -/
def inputVocabulary : List String :=
  ["button", "contact", "press", "rotary", "security", "switch", "toggle"]

/-- The output type names of the external interface. -/
def outputVocabulary : List String := ["relay", "motor", "timer"]

/-- The role names of the external interface. -/
def gpioVocabulary : List String := ["input", "output"]

/-- The (type, transition code) pairs the event table enumerates. -/
def Enumerated (L : Lib) (type state : Nat) : Prop :=
  (type = L.BUTTON ∧ state ∈ [L.HOLD_EVENT, 1, 2, 3, 4, 5]) ∨
  (type = L.CONTACT ∧ state ∈ [L.LOW_EVENT, L.HIGH_EVENT]) ∨
  type = L.PRESS ∨
  (type = L.ROTARY ∧ state ∈ [L.LOW_EVENT, L.HIGH_EVENT]) ∨
  (type = L.SECURITY ∧
    state ∈ [L.HIGH_EVENT, L.LOW_EVENT, L.TAMPER_EVENT, L.SHORT_EVENT, L.FAULT_EVENT]) ∨
  (type = L.SWITCH ∧ state ∈ [L.LOW_EVENT, L.HIGH_EVENT]) ∨
  type = L.TOGGLE

/-! ## Observations on the log and on entries -/

/-- The records of the publish attempts in a list of effects, in order. -/
def publishedRecords : List Effect → List StatusRecord
  | [] => []
  | Effect.publishStatus r _ :: rest => r :: publishedRecords rest
  | _ :: rest => publishedRecords rest

/-- A call on the output handler `oxrsOutput`. -/
def Effect.isOutputCall : Effect → Bool
  | .outputSetType _ _ => true
  | .outputSetTimer _ _ => true
  | .outputSetInterlock _ _ => true
  | .outputHandleCommand _ _ _ => true
  | _ => false

/-- A call on the input handler `oxrsInput`. -/
def Effect.isInputCall : Effect → Bool
  | .inputSetType _ _ => true
  | .inputSetInvert _ _ => true
  | .inputSetDisabled _ _ => true
  | _ => false

/-- An operation on a pin (`pinMode` or `digitalWrite`). -/
def Effect.isPinOp : Effect → Bool
  | .pinMode _ _ => true
  | .digitalWrite _ _ => true
  | _ => false

/-- A diagnostic line (`oxrs.println` of a message). -/
def Effect.isDiagnostic : Effect → Bool
  | .println _ => true
  | _ => false

/-- The entry names a pin of the table: its `gpio` member exists and resolves
to the index `i`. -/
def Targets (L : Lib) (b : Board) (json : Json) (i : Nat) : Prop :=
  json.containsKey "gpio" = true ∧
  getIndexFromGpio b ((json.get "gpio").asUInt8 L) = i ∧
  i < GPIO_COUNT b

instance (L : Lib) (b : Board) (json : Json) (i : Nat) : Decidable (Targets L b json i) := by
  unfold Targets; infer_instance

/-- The command entry passes the type cross-check against the configured
output type `type`: it declares no type, or a type name that parses to `type`. -/
def PassesTypeCheck (L : Lib) (json : Json) (type : Nat) : Prop :=
  json.containsKey "type" = false ∨
  ∃ name, json.get "type" = Json.str name ∧ (parseOutputType L name).1 = type

/-- The diagnostics printed while the `type` member of a command entry is
parsed (none when the entry has no `type`). -/
def typeCheckDiag (L : Lib) (json : Json) : List Effect :=
  if json.containsKey "type" then
    match (json.get "type").asCString with
    | none => []
    | some name => (parseOutputType L name).2
  else []

/-- The status record of output `index` with configured type `type` and pin
level `state`. -/
def outputRecord (L : Lib) (b : Board) (index type state : Nat) : StatusRecord :=
  { gpio := gpioPin b index, type := getOutputType L type,
    event := getOutputEventType L type state }

/-- A state of the OXRS_ESP32 build in which pin 4 (index 1) is an output of
type relay, driven OFF, and every other pin is an input. -/
def pin4Relay : State where
  gpioTypes := fun i => if i = 1 then GPIO_OUTPUT else GPIO_INPUT
  pinModes := fun g => if g = 4 then some PinMode.OUTPUT else some PinMode.INPUT_PULLUP
  pinLevels := fun _ => oxrsLib.RELAY_OFF
  input := (powerOn oxrsLib).input
  output := (powerOn oxrsLib).output
  log := []

/-- The state `pin4Relay` with pin 4 driven ON. -/
def pin4RelayOn : State :=
  { pin4Relay with
    pinLevels := fun g => if g = 4 then oxrsLib.RELAY_ON else oxrsLib.RELAY_OFF }

/-- A transport that delivers every status record. -/
def netUp : Nat → Bool := fun _ => true

/-- The command `gpio: 2, type: "relay", command: "on"`. -/
def cmdRelayOn2 : Json :=
  Json.obj [("gpio", Json.num 2), ("type", Json.str "relay"), ("command", Json.str "on")]

/-- The command `gpio: 4, type: "motor", command: "on"` of scenario C. -/
def cmdMotorOn4 : Json :=
  Json.obj [("gpio", Json.num 4), ("type", Json.str "motor"), ("command", Json.str "on")]

/-- The command `gpio: 4, type: "valve", command: "on"`, whose type name is
outside the vocabulary. -/
def cmdValveOn4 : Json :=
  Json.obj [("gpio", Json.num 4), ("type", Json.str "valve"), ("command", Json.str "on")]

/-- The command `gpio: 4` without a `command` member. -/
def cmdBare4 : Json := Json.obj [("gpio", Json.num 4)]

/-- The command `gpio: 4, command: null`. -/
def cmdNull4 : Json := Json.obj [("gpio", Json.num 4), ("command", Json.null)]

/-- The command `gpio: 4, command: "on"`. -/
def cmdOn4 : Json := Json.obj [("gpio", Json.num 4), ("command", Json.str "on")]

/-- The command `gpio: 4, command: "ON"`. -/
def cmdUpperOn4 : Json := Json.obj [("gpio", Json.num 4), ("command", Json.str "ON")]

/-- The configuration `gpio: 4, type: "output", output: (type: "timer",
timerSeconds: 30, interlockGpio: 5)`. -/
def cfgOutput4 : Json :=
  Json.obj [("gpio", Json.num 4), ("type", Json.str "output"),
    ("output", Json.obj [("type", Json.str "timer"), ("timerSeconds", Json.num 30),
      ("interlockGpio", Json.num 5)])]

/-- Frame of the sub-configuration steps: role table, pin modes and pin levels
are the same in both states and the log has gained no pin operation. -/
def SamePins (st st' : State) : Prop :=
  st'.gpioTypes = st.gpioTypes ∧ st'.pinModes = st.pinModes ∧ st'.pinLevels = st.pinLevels ∧
  st'.log.filter Effect.isPinOp = st.log.filter Effect.isPinOp

instance (L : Lib) (type state : Nat) : Decidable (Enumerated L type state) := by
  unfold Enumerated; infer_instance

/-! ## Steps of the configuration applier and what they store -/

/-- The `type` part of `jsonOutputConfig` (its first `if`). -/
def outputTypeStep (L : Lib) (index : Nat) (json : Json) (st : State) : Option State :=
  if json.containsKey "type" then
    match (json.get "type").asCString with
    | none => none
    | some name =>
      let (outputType, diag) := parseOutputType L name
      let st := st.emit diag
      if outputType ≠ INVALID_OUTPUT_TYPE then some (outputSetType index outputType st)
      else some st
  else some st

/-- The `timerSeconds` part of `jsonOutputConfig` (its second `if`). -/
def outputTimerStep (L : Lib) (index : Nat) (json : Json) (st : State) : State :=
  if json.containsKey "timerSeconds" then
    if (json.get "timerSeconds").isNull then outputSetTimer index L.DEFAULT_TIMER_SECS st
    else outputSetTimer index ((json.get "timerSeconds").asUInt8 L) st
  else st

/-- The `interlockGpio` part of `jsonOutputConfig` (its third `if`). -/
def outputInterlockStep (L : Lib) (b : Board) (index : Nat) (json : Json) (st : State) : State :=
  if json.containsKey "interlockGpio" then
    if (json.get "interlockGpio").isNull then outputSetInterlock index index st
    else
      let interlockGpio := (json.get "interlockGpio").asUInt8 L
      let interlockIndex := getIndexFromGpio b interlockGpio
      if interlockIndex = INVALID_GPIO_PIN then println "[digio] invalid interlock GPIO" st
      else outputSetInterlock index interlockIndex st
  else st

/-- The `type` part of `jsonInputConfig` (its first `if`). -/
def inputTypeStep (L : Lib) (index : Nat) (json : Json) (st : State) : Option State :=
  if json.containsKey "type" then
    match (json.get "type").asCString with
    | none => none
    | some name =>
      let (inputType, diag) := parseInputType L name
      let st := st.emit diag
      if inputType ≠ INVALID_INPUT_TYPE then some (inputSetType index inputType st)
      else some st
  else some st

/-- The `invert` and `disabled` parts of `jsonInputConfig`. -/
def inputFlagsStep (index : Nat) (json : Json) (st : State) : State :=
  let st :=
    if json.containsKey "invert" then inputSetInvert index (json.get "invert").asBool st
    else st
  if json.containsKey "disabled" then inputSetDisabled index (json.get "disabled").asBool st
  else st

/-- Overwrite `f` at key `k` when a value is given, leave it as it is otherwise. -/
def setAt {α : Type} (w : Option α) (k : Nat) (f : Nat → α) : Nat → α :=
  match w with
  | none => f
  | some v => Function.update f k v

/-- What a run of configuration code stores for one table index: the value
written to each per-index attribute, if any, and the effects appended to the
log. -/
structure Writes where
  role : Option Nat
  mode : Option (Option PinMode)
  level : Option Nat
  inputType : Option Nat
  invert : Option Bool
  disabled : Option Bool
  outputType : Option Nat
  timer : Option Nat
  interlock : Option Nat
  effects : List Effect

/-- Nothing stored, nothing logged. -/
def Writes.nothing : Writes :=
  { role := none, mode := none, level := none, inputType := none, invert := none,
    disabled := none, outputType := none, timer := none, interlock := none, effects := [] }

/-- Carry out the writes for index `i` (pin `GPIO_PINS[i]`). -/
def Writes.apply (b : Board) (i : Nat) (w : Writes) (st : State) : State :=
  { gpioTypes := setAt w.role i st.gpioTypes
    pinModes := setAt w.mode (gpioPin b i) st.pinModes
    pinLevels := setAt w.level (gpioPin b i) st.pinLevels
    input := { types := setAt w.inputType i st.input.types
               inverts := setAt w.invert i st.input.inverts
               disableds := setAt w.disabled i st.input.disableds }
    output := { types := setAt w.outputType i st.output.types
                timers := setAt w.timer i st.output.timers
                interlocks := setAt w.interlock i st.output.interlocks }
    log := st.log ++ w.effects }

/-- The writes of `first` followed by those of `second`. -/
def Writes.andThen (first second : Writes) : Writes :=
  { role := second.role <|> first.role
    mode := second.mode <|> first.mode
    level := second.level <|> first.level
    inputType := second.inputType <|> first.inputType
    invert := second.invert <|> first.invert
    disabled := second.disabled <|> first.disabled
    outputType := second.outputType <|> first.outputType
    timer := second.timer <|> first.timer
    interlock := second.interlock <|> first.interlock
    effects := first.effects ++ second.effects }

/-- The state transformer `f` only overwrites attributes of index `i` with
values that do not depend on the state, and appends to the log. -/
def Overwrites (b : Board) (i : Nat) (f : State → State) : Prop :=
  ∃ w : Writes, ∀ st, f st = w.apply b i st

/-- The partial state transformer `f` either fails on every state or is an
overwriting transformer on every state. -/
def OverwritesOpt (b : Board) (i : Nat) (f : State → Option State) : Prop :=
  (∀ st, f st = none) ∨ ∃ g, Overwrites b i g ∧ ∀ st, f st = some (g st)

/-- Two states agree on everything but the log: role table, pin modes, pin
levels, input attributes and output attributes. -/
def SameConfig (st st' : State) : Prop :=
  st'.gpioTypes = st.gpioTypes ∧ st'.pinModes = st.pinModes ∧ st'.pinLevels = st.pinLevels ∧
  st'.input = st.input ∧ st'.output = st.output

/-- Two outcomes agree: both are failures, or both are states that agree on
everything but the log. -/
def SameOutcome (r r' : Option State) : Prop :=
  (r = none ∧ r' = none) ∨ ∃ st st', r = some st ∧ r' = some st' ∧ SameConfig st st'

/-- The `type` member, if present, is a string (so that `strcmp` gets a
string). -/
def TypeReadable (json : Json) : Prop :=
  json.containsKey "type" = false ∨ ∃ name, json.get "type" = Json.str name

/-- The `type` members of a configuration entry and of its `input` and `output`
sub-objects are strings where present. -/
def EntryReadable (json : Json) : Prop :=
  TypeReadable json ∧ TypeReadable (json.get "input") ∧ TypeReadable (json.get "output")

/-- What `setGpioType(i, type)` stores. -/
def roleWrites (L : Lib) (b : Board) (i type : Nat) : Writes :=
  if type = GPIO_INPUT then
    { Writes.nothing with
      role := some type
      mode := some (some PinMode.INPUT_PULLUP)
      effects := [Effect.pinMode (gpioPin b i) PinMode.INPUT_PULLUP] }
  else if type = GPIO_OUTPUT then
    { Writes.nothing with
      role := some type
      mode := some (some PinMode.OUTPUT)
      level := some L.RELAY_OFF
      effects := [Effect.pinMode (gpioPin b i) PinMode.OUTPUT,
        Effect.digitalWrite (gpioPin b i) L.RELAY_OFF] }
  else { Writes.nothing with role := some type }

/-- What the `type` part of `jsonOutputConfig` stores; `none` when the member is
no string. -/
def outputTypeWrites (L : Lib) (i : Nat) (json : Json) : Option Writes :=
  if json.containsKey "type" then
    match (json.get "type").asCString with
    | none => none
    | some name =>
      if (parseOutputType L name).1 ≠ INVALID_OUTPUT_TYPE then
        some { Writes.nothing with
               outputType := some (parseOutputType L name).1
               effects := (parseOutputType L name).2 ++
                 [Effect.outputSetType i (parseOutputType L name).1] }
      else some { Writes.nothing with effects := (parseOutputType L name).2 }
  else some Writes.nothing

/-- What the `timerSeconds` part of `jsonOutputConfig` stores. -/
def outputTimerWrites (L : Lib) (i : Nat) (json : Json) : Writes :=
  if json.containsKey "timerSeconds" then
    if (json.get "timerSeconds").isNull then
      { Writes.nothing with
        timer := some L.DEFAULT_TIMER_SECS
        effects := [Effect.outputSetTimer i L.DEFAULT_TIMER_SECS] }
    else
      { Writes.nothing with
        timer := some ((json.get "timerSeconds").asUInt8 L)
        effects := [Effect.outputSetTimer i ((json.get "timerSeconds").asUInt8 L)] }
  else Writes.nothing

/-- What the `interlockGpio` part of `jsonOutputConfig` stores. -/
def outputInterlockWrites (L : Lib) (b : Board) (i : Nat) (json : Json) : Writes :=
  if json.containsKey "interlockGpio" then
    if (json.get "interlockGpio").isNull then
      { Writes.nothing with
        interlock := some i
        effects := [Effect.outputSetInterlock i i] }
    else if getIndexFromGpio b ((json.get "interlockGpio").asUInt8 L) = INVALID_GPIO_PIN then
      { Writes.nothing with effects := [Effect.println "[digio] invalid interlock GPIO"] }
    else
      { Writes.nothing with
        interlock := some (getIndexFromGpio b ((json.get "interlockGpio").asUInt8 L))
        effects := [Effect.outputSetInterlock i
          (getIndexFromGpio b ((json.get "interlockGpio").asUInt8 L))] }
  else Writes.nothing

/-- What `jsonOutputConfig` stores; `none` when its `type` member is no string. -/
def outputWrites (L : Lib) (b : Board) (i : Nat) (json : Json) : Option Writes :=
  (outputTypeWrites L i json).map fun w =>
    (w.andThen (outputTimerWrites L i json)).andThen (outputInterlockWrites L b i json)

/-- What the `type` part of `jsonInputConfig` stores; `none` when the member is
no string. -/
def inputTypeWrites (L : Lib) (i : Nat) (json : Json) : Option Writes :=
  if json.containsKey "type" then
    match (json.get "type").asCString with
    | none => none
    | some name =>
      if (parseInputType L name).1 ≠ INVALID_INPUT_TYPE then
        some { Writes.nothing with
               inputType := some (parseInputType L name).1
               effects := (parseInputType L name).2 ++
                 [Effect.inputSetType i (parseInputType L name).1] }
      else some { Writes.nothing with effects := (parseInputType L name).2 }
  else some Writes.nothing

/-- What the `invert` and `disabled` parts of `jsonInputConfig` store. -/
def inputFlagsWrites (i : Nat) (json : Json) : Writes :=
  { Writes.nothing with
    invert := if json.containsKey "invert" then some (json.get "invert").asBool else none
    disabled := if json.containsKey "disabled" then some (json.get "disabled").asBool else none
    effects :=
      (if json.containsKey "invert" then [Effect.inputSetInvert i (json.get "invert").asBool]
       else []) ++
      (if json.containsKey "disabled" then
         [Effect.inputSetDisabled i (json.get "disabled").asBool]
       else []) }

/-- What `jsonInputConfig` stores; `none` when its `type` member is no string. -/
def inputWrites (L : Lib) (i : Nat) (json : Json) : Option Writes :=
  (inputTypeWrites L i json).map fun w => w.andThen (inputFlagsWrites i json)

/-- A call `oxrsOutput.setTimer`. -/
def Effect.isSetTimer : Effect → Bool
  | .outputSetTimer _ _ => true
  | _ => false

/-- A call `oxrsOutput.setInterlock`. -/
def Effect.isSetInterlock : Effect → Bool
  | .outputSetInterlock _ _ => true
  | _ => false

/-- The configuration `gpio: 4, type: "output", output: (timerSeconds: null)`. -/
def cfgTimerNull4 : Json :=
  Json.obj [("gpio", Json.num 4), ("type", Json.str "output"),
    ("output", Json.obj [("timerSeconds", Json.null)])]

/-- The configuration `gpio: 4, type: "output", output: ()` with an empty
sub-object. -/
def cfgOutputEmpty4 : Json :=
  Json.obj [("gpio", Json.num 4), ("type", Json.str "output"), ("output", Json.obj [])]

/-- The state `pin4Relay` with the timer of index 1 at 5 seconds and its
interlock at index 3. -/
def pin4RelayTuned : State :=
  { pin4Relay with
    output := { types := fun _ => oxrsLib.RELAY
                timers := fun i => if i = 1 then 5 else oxrsLib.DEFAULT_TIMER_SECS
                interlocks := fun i => if i = 1 then 3 else i } }



/-- The configuration `gpio: 4, type: "output", output: (interlockGpio: 3)`;
GPIO 3 is in neither pin table. -/
def cfgInterlockUnknown4 : Json :=
  Json.obj [("gpio", Json.num 4), ("type", Json.str "output"),
    ("output", Json.obj [("interlockGpio", Json.num 3)])]

/-- The configuration `gpio: 4, type: "output", output: (timerSeconds: v)`. -/
def cfgTimer4 (v : Int) : Json :=
  Json.obj [("gpio", Json.num 4), ("type", Json.str "output"),
    ("output", Json.obj [("timerSeconds", Json.num v)])]

/-- The configuration `gpio: 4, type: "input", output: (type: "motor",
timerSeconds: 9)`: an explicit role with the sub-object of the other role. -/
def cfgInputWithOutput4 : Json :=
  Json.obj [("gpio", Json.num 4), ("type", Json.str "input"),
    ("output", Json.obj [("type", Json.str "motor"), ("timerSeconds", Json.num 9)])]

/-- A bad configuration entry, in the words of the specification: it has no
`gpio` member, or its `gpio` is not in the pin table, or no role can be
determined for it, that is, the role determination of `jsonGpioConfig` does not
end in INPUT or OUTPUT. The last case covers a `type` name that is not
recognised, an entry with neither `type` nor a sub-object, and a `type` member
that is no string. -/
def BadEntry (L : Lib) (b : Board) (json : Json) : Prop :=
  json.containsKey "gpio" = false ∨
  getIndexFromGpio b ((json.get "gpio").asUInt8 L) = INVALID_GPIO_PIN ∨
  ((configGpioType json).map Prod.fst ≠ some GPIO_INPUT ∧
    (configGpioType json).map Prod.fst ≠ some GPIO_OUTPUT)

/-- A configuration entry that takes one of the early returns of
`jsonGpioConfig`: it has no `gpio` member, or its `gpio` is not in the pin
table, or its role determination ends in `INVALID_GPIO_TYPE` (a `type` string
that is not recognised, or neither `type` nor a sub-object). -/
def SkippedEntry (L : Lib) (b : Board) (json : Json) : Prop :=
  json.containsKey "gpio" = false ∨
  getIndexFromGpio b ((json.get "gpio").asUInt8 L) = INVALID_GPIO_PIN ∨
  ∃ diag, configGpioType json = some (INVALID_GPIO_TYPE, diag)

/-- The entry `gpio: 2, type: 5`: a number where the role name is expected. -/
def cfgTypeNumber2 : Json := Json.obj [("gpio", Json.num 2), ("type", Json.num 5)]

/-- The configuration document `gpios: [items]`. -/
def configDoc (items : List Json) : Json := Json.obj [("gpios", Json.arr items)]

/-- The entry `gpio: 2, type: "relay"`: an output type name where a role is
expected. -/
def cfgBadRole2 : Json := Json.obj [("gpio", Json.num 2), ("type", Json.str "relay")]

/-- The configuration `gpio: 4, type: "output", output: (type: "relay")` of
scenarios A and D. -/
def cfgRelay4 : Json :=
  Json.obj [("gpio", Json.num 4), ("type", Json.str "output"),
    ("output", Json.obj [("type", Json.str "relay")])]

/-- A state is reachable from start-up: it results from `setup` followed by a
sequence of configuration documents, each handed to `jsonConfig`. -/
def Reachable (L : Lib) (b : Board) (st : State) : Prop :=
  ∃ (st0 : State) (docs : List Json),
    docs.foldlM (fun st doc => jsonConfig L b doc st) (setup L b st0) = some st

/-- The configuration `gpio: 4, type: "output", output: (interlockGpio: 5)`. -/
def cfgInterlock5 : Json :=
  Json.obj [("gpio", Json.num 4), ("type", Json.str "output"),
    ("output", Json.obj [("interlockGpio", Json.num 5)])]

/-- The state of the OXRS_ESP32 build after start-up and the one batch
`[cfgInterlock5]` (the start-up state itself, should the batch fail). -/
def afterInterlock5 : State :=
  ((jsonConfig oxrsLib Board.OXRS_ESP32 (configDoc [cfgInterlock5])
    (setup oxrsLib Board.OXRS_ESP32 (powerOn oxrsLib))).getD
    (setup oxrsLib Board.OXRS_ESP32 (powerOn oxrsLib)))

/-- The state of the OXRS_ESP32 build after start-up, the configuration
`cfgRelay4` and the command `cmdOn4` of scenario A (the start-up state itself,
should one of them fail). -/
def afterScenarioA : State :=
  (((jsonConfig oxrsLib Board.OXRS_ESP32 (configDoc [cfgRelay4])
      (setup oxrsLib Board.OXRS_ESP32 (powerOn oxrsLib))).bind
    (jsonCommand oxrsLib Board.OXRS_ESP32 netUp (configDoc [cmdOn4]))).getD
    (setup oxrsLib Board.OXRS_ESP32 (powerOn oxrsLib)))



/-! ## Buffers of the publishers -/

/-- Size of the buffer `char inputType[9]` of `publishInputEvent`. -/
def inputTypeBuffer : Nat := 9

/-- Size of the buffer `char outputType[8]` of `publishOutputEvent`. -/
def outputTypeBuffer : Nat := 8

/-- Size of the buffer `char eventType[7]` of both publishers. -/
def eventTypeBuffer : Nat := 7

/-! ## Theorems -/

/-! ### Pin registry -/

theorem getIndexFromGpioLoop_of_not_mem (gpio : Nat) :
    ∀ (pins : List Nat) (k : Nat), gpio ∉ pins →
      getIndexFromGpioLoop gpio pins k = INVALID_GPIO_PIN := by
  intro pins
  induction pins with
  | nil => intro k _; rfl
  | cons p rest ih =>
    intro k h
    have hp : gpio ≠ p := fun e => h (by simp [e])
    have hr : gpio ∉ rest := fun e => h (by simp [e])
    simp [getIndexFromGpioLoop, hp, ih (k + 1) hr]

theorem getIndexFromGpioLoop_of_nodup :
    ∀ (pins : List Nat) (k j : Nat), pins.Nodup → j < pins.length →
      getIndexFromGpioLoop (pins.getD j 0) pins k = k + j := by
  intro pins
  induction pins with
  | nil => intro k j _ hj; simp at hj
  | cons p rest ih =>
    intro k j hnd hj
    rw [List.nodup_cons] at hnd
    cases j with
    | zero => simp [getIndexFromGpioLoop]
    | succ j =>
      have hj2 : j < rest.length := by simpa using hj
      have hmem : rest.getD j 0 ∈ rest := by
        rw [List.getD_eq_getElem _ _ hj2]; exact List.getElem_mem hj2
      have hne : rest.getD j 0 ≠ p := fun e => hnd.1 (e ▸ hmem)
      simp only [List.getD_cons_succ, getIndexFromGpioLoop, hne, if_false]
      rw [ih (k + 1) j hnd.2 hj2]; omega

theorem getIndexFromGpioLoop_of_mem (gpio : Nat) :
    ∀ (pins : List Nat) (k : Nat), gpio ∈ pins →
      ∃ j, j < pins.length ∧ pins.getD j 0 = gpio ∧
        getIndexFromGpioLoop gpio pins k = k + j := by
  intro pins
  induction pins with
  | nil => intro k h; simp at h
  | cons p rest ih =>
    intro k h
    by_cases hp : gpio = p
    · exact ⟨0, by simp, by simp [hp], by simp [getIndexFromGpioLoop, hp]⟩
    · have hr : gpio ∈ rest := by
        rcases List.mem_cons.mp h with e | e
        · exact absurd e hp
        · exact e
      obtain ⟨j, hj, hget, hloop⟩ := ih (k + 1) hr
      refine ⟨j + 1, by simpa using hj, by simpa using hget, ?_⟩
      simp only [getIndexFromGpioLoop, hp, if_false, hloop]; omega

theorem GPIO_PINS_nodup (b : Board) : (GPIO_PINS b).Nodup := by
  cases b <;> decide

theorem GPIO_COUNT_le (b : Board) : GPIO_COUNT b ≤ 16 := by
  cases b <;> decide

/-- The index found for a pin is a table index or the sentinel. -/
theorem getIndexFromGpio_range (b : Board) (gpio : Nat) :
    getIndexFromGpio b gpio < GPIO_COUNT b ∨ getIndexFromGpio b gpio = INVALID_GPIO_PIN := by
  by_cases h : gpio ∈ GPIO_PINS b
  · obtain ⟨j, hj, _, hloop⟩ := getIndexFromGpioLoop_of_mem gpio (GPIO_PINS b) 0 h
    left
    unfold getIndexFromGpio GPIO_COUNT
    omega
  · right
    exact getIndexFromGpioLoop_of_not_mem gpio (GPIO_PINS b) 0 h

/-- C7: on both boards the pin registry is a bijection between table indices
and physical ids. For every pin id `g` and every index `i < GPIO_COUNT`,
`getIndexFromGpio g = i` exactly when `GPIO_PINS[i] = g`; the result is the
sentinel 99 exactly when `g` is not in the table; looking up `GPIO_PINS[i]`
gives `i` back; and 99 is not a table index. -/
theorem getIndexFromGpio_bijection (b : Board) (g : Nat) :
    (∀ i, i < GPIO_COUNT b → (getIndexFromGpio b g = i ↔ gpioPin b i = g)) ∧
    (getIndexFromGpio b g = INVALID_GPIO_PIN ↔ g ∉ GPIO_PINS b) ∧
    (∀ i, i < GPIO_COUNT b → getIndexFromGpio b (gpioPin b i) = i) ∧
    ¬ INVALID_GPIO_PIN < GPIO_COUNT b := by
  have hcount : ¬ INVALID_GPIO_PIN < GPIO_COUNT b := by
    have := GPIO_COUNT_le b
    unfold INVALID_GPIO_PIN; omega
  have hback : ∀ i, i < GPIO_COUNT b → getIndexFromGpio b (gpioPin b i) = i := by
    intro i hi
    have := getIndexFromGpioLoop_of_nodup (GPIO_PINS b) 0 i (GPIO_PINS_nodup b) hi
    simpa [getIndexFromGpio, gpioPin] using this
  refine ⟨?_, ?_, hback, hcount⟩
  · intro i hi
    constructor
    · intro h
      by_cases hm : g ∈ GPIO_PINS b
      · obtain ⟨j, hj, hget, hloop⟩ := getIndexFromGpioLoop_of_mem g (GPIO_PINS b) 0 hm
        have hij : i = j := by
          unfold getIndexFromGpio at h; omega
        simpa [gpioPin, hij] using hget
      · have h99 := getIndexFromGpioLoop_of_not_mem g (GPIO_PINS b) 0 hm
        unfold getIndexFromGpio at h
        rw [h] at h99
        exact absurd (h99 ▸ hi) hcount
    · intro h
      rw [← h]; exact hback i hi
  · constructor
    · intro h hm
      obtain ⟨j, hj, _, hloop⟩ := getIndexFromGpioLoop_of_mem g (GPIO_PINS b) 0 hm
      unfold getIndexFromGpio at h
      rw [h] at hloop
      have : INVALID_GPIO_PIN < GPIO_COUNT b := by
        unfold GPIO_COUNT; omega
      exact hcount this
    · intro hm
      exact getIndexFromGpioLoop_of_not_mem g (GPIO_PINS b) 0 hm

/-! ### Type classifier -/

/-- C8: type naming round-trips and is total on both domains. Every one of the
seven input type codes has a name other than "error" that parses back to the
code, and so has every one of the three output type codes. -/
theorem type_names_round_trip (L : Lib) :
    (∀ T ∈ L.inputTypes,
      getInputType L T ≠ "error" ∧ (parseInputType L (getInputType L T)).1 = T) ∧
    (∀ U ∈ L.outputTypes,
      getOutputType L U ≠ "error" ∧ (parseOutputType L (getOutputType L U)).1 = U) := by
  constructor
  · intro T hT
    simp only [Lib.inputTypes, List.mem_cons, List.mem_singleton, List.not_mem_nil,
      or_false] at hT
    unfold getInputType
    split_ifs with h1 h2 h3 h4 h5 h6 h7
    all_goals first
      | (refine ⟨by decide, ?_⟩; simp [parseInputType, *])
      | (exfalso; rcases hT with h | h | h | h | h | h | h <;> contradiction)
  · intro U hU
    simp only [Lib.outputTypes, List.mem_cons, List.mem_singleton, List.not_mem_nil,
      or_false] at hU
    unfold getOutputType
    split_ifs with h1 h2 h3
    all_goals first
      | (refine ⟨by decide, ?_⟩; simp [parseOutputType, *])
      | (exfalso; rcases hU with h | h | h <;> contradiction)

theorem getInputEventType_BUTTON (L : Lib) (state : Nat) :
    getInputEventType L L.BUTTON state =
      if state = L.HOLD_EVENT then "hold"
      else if state = 1 then "single"
      else if state = 2 then "double"
      else if state = 3 then "triple"
      else if state = 4 then "quad"
      else if state = 5 then "penta"
      else "error" := by
  unfold getInputEventType
  rw [if_pos rfl]

theorem getInputEventType_CONTACT (L : Lib) (hL : L.inputTypes.Nodup) (state : Nat) :
    getInputEventType L L.CONTACT state =
      if state = L.LOW_EVENT then "closed"
      else if state = L.HIGH_EVENT then "open"
      else "error" := by
  simp only [Lib.inputTypes, List.nodup_cons, List.mem_cons, List.mem_singleton,
    List.not_mem_nil, or_false, not_or] at hL
  unfold getInputEventType
  rw [if_neg (Ne.symm hL.1.1), if_pos rfl]

theorem getInputEventType_PRESS (L : Lib) (hL : L.inputTypes.Nodup) (state : Nat) :
    getInputEventType L L.PRESS state = "press" := by
  simp only [Lib.inputTypes, List.nodup_cons, List.mem_cons, List.mem_singleton,
    List.not_mem_nil, or_false, not_or] at hL
  unfold getInputEventType
  rw [if_neg (Ne.symm hL.1.2.1), if_neg (Ne.symm hL.2.1.1), if_pos rfl]

theorem getInputEventType_ROTARY (L : Lib) (hL : L.inputTypes.Nodup) (state : Nat) :
    getInputEventType L L.ROTARY state =
      if state = L.LOW_EVENT then "up"
      else if state = L.HIGH_EVENT then "down"
      else "error" := by
  simp only [Lib.inputTypes, List.nodup_cons, List.mem_cons, List.mem_singleton,
    List.not_mem_nil, or_false, not_or] at hL
  unfold getInputEventType
  rw [if_neg (Ne.symm hL.1.2.2.1), if_neg (Ne.symm hL.2.1.2.1),
    if_neg (Ne.symm hL.2.2.1.1), if_pos rfl]

theorem getInputEventType_SECURITY (L : Lib) (hL : L.inputTypes.Nodup) (state : Nat) :
    getInputEventType L L.SECURITY state =
      if state = L.HIGH_EVENT then "normal"
      else if state = L.LOW_EVENT then "alarm"
      else if state = L.TAMPER_EVENT then "tamper"
      else if state = L.SHORT_EVENT then "short"
      else if state = L.FAULT_EVENT then "fault"
      else "error" := by
  simp only [Lib.inputTypes, List.nodup_cons, List.mem_cons, List.mem_singleton,
    List.not_mem_nil, or_false, not_or] at hL
  unfold getInputEventType
  rw [if_neg (Ne.symm hL.1.2.2.2.1), if_neg (Ne.symm hL.2.1.2.2.1),
    if_neg (Ne.symm hL.2.2.1.2.1), if_neg (Ne.symm hL.2.2.2.1.1), if_pos rfl]

theorem getInputEventType_SWITCH (L : Lib) (hL : L.inputTypes.Nodup) (state : Nat) :
    getInputEventType L L.SWITCH state =
      if state = L.LOW_EVENT then "on"
      else if state = L.HIGH_EVENT then "off"
      else "error" := by
  simp only [Lib.inputTypes, List.nodup_cons, List.mem_cons, List.mem_singleton,
    List.not_mem_nil, or_false, not_or] at hL
  unfold getInputEventType
  rw [if_neg (Ne.symm hL.1.2.2.2.2.1), if_neg (Ne.symm hL.2.1.2.2.2.1),
    if_neg (Ne.symm hL.2.2.1.2.2.1), if_neg (Ne.symm hL.2.2.2.1.2.1),
    if_neg (Ne.symm hL.2.2.2.2.1.1), if_pos rfl]

theorem getInputEventType_TOGGLE (L : Lib) (hL : L.inputTypes.Nodup) (state : Nat) :
    getInputEventType L L.TOGGLE state = "toggle" := by
  simp only [Lib.inputTypes, List.nodup_cons, List.mem_cons, List.mem_singleton,
    List.not_mem_nil, or_false, not_or] at hL
  unfold getInputEventType
  rw [if_neg (Ne.symm hL.1.2.2.2.2.2), if_neg (Ne.symm hL.2.1.2.2.2.2),
    if_neg (Ne.symm hL.2.2.1.2.2.2), if_neg (Ne.symm hL.2.2.2.1.2.2),
    if_neg (Ne.symm hL.2.2.2.2.1.2), if_neg (Ne.symm hL.2.2.2.2.2.1), if_pos rfl]

/-- C9: `getInputEventType` equals the event table. For library constants whose
`switch` labels are distinct: each enumerated (type, code) pair gives the name of
the table, PRESS and TOGGLE give "press" and "toggle" for every code, an
enumerated pair never gives "error", and every other pair gives "error". -/
theorem getInputEventType_table (L : Lib) (hL : L.LabelsDistinct) :
    (getInputEventType L L.BUTTON L.HOLD_EVENT = "hold" ∧
     getInputEventType L L.BUTTON 1 = "single" ∧
     getInputEventType L L.BUTTON 2 = "double" ∧
     getInputEventType L L.BUTTON 3 = "triple" ∧
     getInputEventType L L.BUTTON 4 = "quad" ∧
     getInputEventType L L.BUTTON 5 = "penta") ∧
    (getInputEventType L L.CONTACT L.LOW_EVENT = "closed" ∧
     getInputEventType L L.CONTACT L.HIGH_EVENT = "open") ∧
    (getInputEventType L L.ROTARY L.LOW_EVENT = "up" ∧
     getInputEventType L L.ROTARY L.HIGH_EVENT = "down") ∧
    (getInputEventType L L.SECURITY L.HIGH_EVENT = "normal" ∧
     getInputEventType L L.SECURITY L.LOW_EVENT = "alarm" ∧
     getInputEventType L L.SECURITY L.TAMPER_EVENT = "tamper" ∧
     getInputEventType L L.SECURITY L.SHORT_EVENT = "short" ∧
     getInputEventType L L.SECURITY L.FAULT_EVENT = "fault") ∧
    (getInputEventType L L.SWITCH L.LOW_EVENT = "on" ∧
     getInputEventType L L.SWITCH L.HIGH_EVENT = "off") ∧
    (∀ state, getInputEventType L L.PRESS state = "press" ∧
      getInputEventType L L.TOGGLE state = "toggle") ∧
    (∀ type state, Enumerated L type state → getInputEventType L type state ≠ "error") ∧
    (∀ type state, ¬ Enumerated L type state → getInputEventType L type state = "error") := by
  obtain ⟨hT, hB, hLH, hS, -, -⟩ := hL
  have hHL : L.HIGH_EVENT ≠ L.LOW_EVENT := Ne.symm hLH
  have hB2 := hB
  have hS2 := hS
  simp only [List.nodup_cons, List.mem_cons, List.mem_singleton,
    List.not_mem_nil, or_false, not_or] at hB2 hS2
  obtain ⟨⟨b1, b2, b3, b4, b5⟩, -⟩ := hB2
  obtain ⟨⟨-, s13, s14, s15⟩, ⟨s23, s24, s25⟩, ⟨s34, s35⟩, s45, -⟩ := hS2
  refine ⟨⟨?_, ?_, ?_, ?_, ?_, ?_⟩, ⟨?_, ?_⟩, ⟨?_, ?_⟩, ⟨?_, ?_, ?_, ?_, ?_⟩, ⟨?_, ?_⟩, ?_, ?_, ?_⟩
  · rw [getInputEventType_BUTTON, if_pos rfl]
  · rw [getInputEventType_BUTTON, if_neg (Ne.symm b1), if_pos rfl]
  · rw [getInputEventType_BUTTON, if_neg (Ne.symm b2)]; rfl
  · rw [getInputEventType_BUTTON, if_neg (Ne.symm b3)]; rfl
  · rw [getInputEventType_BUTTON, if_neg (Ne.symm b4)]; rfl
  · rw [getInputEventType_BUTTON, if_neg (Ne.symm b5)]; rfl
  · rw [getInputEventType_CONTACT L hT, if_pos rfl]
  · rw [getInputEventType_CONTACT L hT, if_neg hHL, if_pos rfl]
  · rw [getInputEventType_ROTARY L hT, if_pos rfl]
  · rw [getInputEventType_ROTARY L hT, if_neg hHL, if_pos rfl]
  · rw [getInputEventType_SECURITY L hT, if_pos rfl]
  · rw [getInputEventType_SECURITY L hT, if_neg hLH, if_pos rfl]
  · rw [getInputEventType_SECURITY L hT, if_neg (Ne.symm s13), if_neg (Ne.symm s23), if_pos rfl]
  · rw [getInputEventType_SECURITY L hT, if_neg (Ne.symm s14), if_neg (Ne.symm s24),
      if_neg (Ne.symm s34), if_pos rfl]
  · rw [getInputEventType_SECURITY L hT, if_neg (Ne.symm s15), if_neg (Ne.symm s25),
      if_neg (Ne.symm s35), if_neg (Ne.symm s45), if_pos rfl]
  · rw [getInputEventType_SWITCH L hT, if_pos rfl]
  · rw [getInputEventType_SWITCH L hT, if_neg hHL, if_pos rfl]
  · intro state
    exact ⟨getInputEventType_PRESS L hT state, getInputEventType_TOGGLE L hT state⟩
  · intro type state h
    unfold Enumerated at h
    simp only [List.mem_cons, List.mem_singleton, List.not_mem_nil, or_false] at h
    rcases h with ⟨rfl, h⟩ | ⟨rfl, h⟩ | rfl | ⟨rfl, h⟩ | ⟨rfl, h⟩ | ⟨rfl, h⟩ | rfl
    · rw [getInputEventType_BUTTON]
      split_ifs <;> first | decide | (exfalso; omega)
    · rw [getInputEventType_CONTACT L hT]
      split_ifs <;> first | decide | (exfalso; omega)
    · rw [getInputEventType_PRESS L hT]; decide
    · rw [getInputEventType_ROTARY L hT]
      split_ifs <;> first | decide | (exfalso; omega)
    · rw [getInputEventType_SECURITY L hT]
      split_ifs <;> first | decide | (exfalso; omega)
    · rw [getInputEventType_SWITCH L hT]
      split_ifs <;> first | decide | (exfalso; omega)
    · rw [getInputEventType_TOGGLE L hT]; decide
  · intro type state h
    unfold Enumerated at h
    simp only [List.mem_cons, List.mem_singleton, List.not_mem_nil, or_false, not_or,
      not_and] at h
    obtain ⟨h1, h2, h3, h4, h5, h6, h7⟩ := h
    by_cases c1 : type = L.BUTTON
    · subst c1
      have h := h1 rfl
      simp only [not_or] at h
      obtain ⟨a1, a2, a3, a4, a5, a6⟩ := h
      rw [getInputEventType_BUTTON, if_neg a1, if_neg a2, if_neg a3, if_neg a4, if_neg a5,
        if_neg a6]
    by_cases c2 : type = L.CONTACT
    · subst c2
      have h := h2 rfl
      simp only [not_or] at h
      rw [getInputEventType_CONTACT L hT, if_neg h.1, if_neg h.2]
    by_cases c4 : type = L.ROTARY
    · subst c4
      have h := h4 rfl
      simp only [not_or] at h
      rw [getInputEventType_ROTARY L hT, if_neg h.1, if_neg h.2]
    by_cases c5 : type = L.SECURITY
    · subst c5
      have h := h5 rfl
      simp only [not_or] at h
      obtain ⟨a1, a2, a3, a4, a5⟩ := h
      rw [getInputEventType_SECURITY L hT, if_neg a1, if_neg a2, if_neg a3, if_neg a4,
        if_neg a5]
    by_cases c6 : type = L.SWITCH
    · subst c6
      have h := h6 rfl
      simp only [not_or] at h
      rw [getInputEventType_SWITCH L hT, if_neg h.1, if_neg h.2]
    unfold getInputEventType
    rw [if_neg c1, if_neg c2, if_neg h3, if_neg c4, if_neg c5, if_neg c6, if_neg h7]

/-- Witness of C9 at the constants of the OXRS headers: the SECURITY tamper code
is named "tamper", and the pair (CONTACT, HOLD_EVENT), which the table does
not list, gives "error". -/
theorem getInputEventType_table_witness :
    oxrsLib.LabelsDistinct ∧
    getInputEventType oxrsLib oxrsLib.SECURITY oxrsLib.TAMPER_EVENT = "tamper" ∧
    getInputEventType oxrsLib oxrsLib.CONTACT oxrsLib.HOLD_EVENT = "error" :=
  ⟨by decide,
   (getInputEventType_table oxrsLib (by decide)).2.2.2.1.2.2.1,
   (getInputEventType_table oxrsLib (by decide)).2.2.2.2.2.2.2 _ _ (by decide)⟩

/-- C10: each parser fails exactly on the strings outside its vocabulary, by
case-sensitive exact match. For library type codes that differ from 99 and
every string `s`: `parseInputType`, `parseOutputType` and `parseGpioType` return
the sentinel 99 exactly when `s` is not in the respective vocabulary; 99 is
neither `GPIO_INPUT` nor `GPIO_OUTPUT`; and the result for a string outside the
vocabulary is not one of the real type codes. -/
theorem parsers_fail_exactly_outside_vocabulary (L : Lib) (hL : L.CodesBelowSentinel)
    (s : String) :
    ((parseInputType L s).1 = INVALID_INPUT_TYPE ↔ s ∉ inputVocabulary) ∧
    ((parseOutputType L s).1 = INVALID_OUTPUT_TYPE ↔ s ∉ outputVocabulary) ∧
    ((parseGpioType s).1 = INVALID_GPIO_TYPE ↔ s ∉ gpioVocabulary) ∧
    (GPIO_INPUT ≠ INVALID_GPIO_TYPE ∧ GPIO_OUTPUT ≠ INVALID_GPIO_TYPE) ∧
    (s ∉ inputVocabulary → (parseInputType L s).1 ∉ L.inputTypes) ∧
    (s ∉ outputVocabulary → (parseOutputType L s).1 ∉ L.outputTypes) ∧
    (s ∉ gpioVocabulary → (parseGpioType s).1 ∉ [GPIO_INPUT, GPIO_OUTPUT]) := by
  obtain ⟨hI, hO⟩ := hL
  have hIn : (parseInputType L s).1 = INVALID_INPUT_TYPE ↔ s ∉ inputVocabulary := by
    simp only [Lib.inputTypes, List.mem_cons, List.mem_singleton, List.not_mem_nil, or_false,
      forall_eq_or_imp, forall_eq] at hI
    obtain ⟨i1, i2, i3, i4, i5, i6, i7⟩ := hI
    simp only [inputVocabulary, List.mem_cons, List.mem_singleton, List.not_mem_nil, or_false,
      not_or]
    unfold parseInputType
    split_ifs with c1 c2 c3 c4 c5 c6 c7
    · simp [c1, i1]
    · simp [c2, i2]
    · simp [c3, i3]
    · simp [c4, i4]
    · simp [c5, i5]
    · simp [c6, i6]
    · simp [c7, i7]
    · simp [c1, c2, c3, c4, c5, c6, c7]
  have hOut : (parseOutputType L s).1 = INVALID_OUTPUT_TYPE ↔ s ∉ outputVocabulary := by
    simp only [Lib.outputTypes, List.mem_cons, List.mem_singleton, List.not_mem_nil, or_false,
      forall_eq_or_imp, forall_eq] at hO
    obtain ⟨o1, o2, o3⟩ := hO
    simp only [outputVocabulary, List.mem_cons, List.mem_singleton, List.not_mem_nil, or_false,
      not_or]
    unfold parseOutputType
    split_ifs with c1 c2 c3
    · simp [c1, o1]
    · simp [c2, o2]
    · simp [c3, o3]
    · simp [c1, c2, c3]
  have hGpio : (parseGpioType s).1 = INVALID_GPIO_TYPE ↔ s ∉ gpioVocabulary := by
    simp only [gpioVocabulary, List.mem_cons, List.mem_singleton, List.not_mem_nil, or_false,
      not_or]
    unfold parseGpioType
    split_ifs with c1 c2
    · simp [c1, GPIO_INPUT, INVALID_GPIO_TYPE]
    · simp [c2, GPIO_OUTPUT, INVALID_GPIO_TYPE]
    · simp [c1, c2]
  refine ⟨hIn, hOut, hGpio, ⟨by decide, by decide⟩, ?_, ?_, ?_⟩
  · intro h hm
    exact hI _ hm (hIn.mpr h)
  · intro h hm
    exact hO _ hm (hOut.mpr h)
  · intro h hm
    rw [hGpio.mpr h] at hm
    revert hm
    decide

/-- Witness of C10 at the constants of the OXRS headers: the capitalised name
"Button" is outside the input vocabulary and parses to the sentinel. -/
theorem parsers_fail_exactly_outside_vocabulary_witness :
    oxrsLib.CodesBelowSentinel ∧
    (parseInputType oxrsLib "Button").1 = INVALID_INPUT_TYPE ∧
    (parseInputType oxrsLib "Button").1 ∉ oxrsLib.inputTypes :=
  ⟨by decide,
   (parsers_fail_exactly_outside_vocabulary oxrsLib (by decide) "Button").1.mpr (by decide),
   (parsers_fail_exactly_outside_vocabulary oxrsLib (by decide) "Button").2.2.2.2.1 (by decide)⟩

/-! ### Bulk input sampler -/

theorem bitClear_lt (value bit : Nat) : bitClear value bit < 2 ^ 16 := by
  unfold bitClear
  exact Nat.mod_lt _ (by norm_num)

theorem testBit_bitClear (value bit i : Nat) (hbit : bit < 16) (hi : i < 16) :
    (bitClear value bit).testBit i = (value.testBit i && decide (i ≠ bit)) := by
  unfold bitClear
  have h1 : (1 <<< bit) % 2 ^ 32 = 2 ^ bit := by
    rw [Nat.one_shiftLeft]
    exact Nat.mod_eq_of_lt (Nat.pow_lt_pow_right (by norm_num) (by omega))
  rw [h1, Nat.testBit_mod_two_pow, Nat.testBit_and, Nat.testBit_xor,
    Nat.testBit_two_pow_sub_one, Nat.testBit_two_pow]
  have h32 : i < 32 := by omega
  by_cases hib : i = bit
  · subst hib; simp [hi, h32]
  · have : ¬ bit = i := fun e => hib e.symm
    simp [hi, h32, hib, this]

/-- What the loop of `readInputs` has established after `n` turns. -/
theorem readInputs_loop (b : Board) (gpioTypes : Nat → Nat) (inReg : Nat)
    (h : ∀ i, i < GPIO_COUNT b → gpioTypes i = GPIO_INPUT → gpioPin b i < 32) :
    ∀ n, n ≤ GPIO_COUNT b →
      ∃ w, (List.range n).foldlM (readInputsStep b gpioTypes inReg) 0xffff = some w ∧
        w < 2 ^ 16 ∧
        ∀ i, i < 16 → w.testBit i =
          if i < n ∧ gpioTypes i = GPIO_INPUT then inReg.testBit (gpioPin b i) else true := by
  intro n
  induction n with
  | zero =>
    intro _
    refine ⟨0xffff, rfl, by norm_num, ?_⟩
    intro i hi
    have : (0xffff : Nat) = 2 ^ 16 - 1 := by norm_num
    rw [this, Nat.testBit_two_pow_sub_one]
    simp [hi]
  | succ n ih =>
    intro hn
    obtain ⟨w, hw, hlt, hbits⟩ := ih (by omega)
    have hn16 : n < 16 := by have := GPIO_COUNT_le b; omega
    rw [List.range_succ, List.foldlM_append, hw]
    simp only [Option.bind_eq_bind, Option.some_bind, List.foldlM_cons, List.foldlM_nil]
    by_cases hrole : gpioTypes n = GPIO_INPUT
    · have hpin := h n (by omega) hrole
      by_cases hbit : inReg.testBit (gpioPin b n) = true
      · refine ⟨w, by simp [readInputsStep, hrole, bitRead, hpin, hbit], hlt, ?_⟩
        intro i hi
        rw [hbits i hi]
        by_cases hin : i = n
        · subst hin; simp [hrole, hbit]
        · have hiff : i < n + 1 ↔ i < n := by omega
          simp [hiff]
      · refine ⟨bitClear w n, by simp [readInputsStep, hrole, bitRead, hpin, hbit],
          bitClear_lt _ _, ?_⟩
        intro i hi
        rw [testBit_bitClear w n i hn16 hi, hbits i hi]
        by_cases hin : i = n
        · subst hin; simp [hrole, hbit]
        · have hiff : i < n + 1 ↔ i < n := by omega
          simp [hiff, hin]
    · refine ⟨w, by simp [readInputsStep, hrole], hlt, ?_⟩
      intro i hi
      rw [hbits i hi]
      by_cases hin : i = n
      · subst hin; simp [hrole]
      · have hiff : i < n + 1 ↔ i < n := by omega
        simp [hiff]

/-- The sampler meets its contract whenever every sampled pin lies inside the
32-bit register: it returns a 16-bit word whose bit `i` is the register bit of
`GPIO_PINS[i]` for every input index, and 1 everywhere else. -/
theorem readInputs_of_pins_in_register (b : Board) (gpioTypes : Nat → Nat) (inReg : Nat)
    (h : ∀ i, i < GPIO_COUNT b → gpioTypes i = GPIO_INPUT → gpioPin b i < 32) :
    ∃ w, readInputs b gpioTypes inReg = some w ∧ w < 2 ^ 16 ∧
      (∀ i, i < GPIO_COUNT b → gpioTypes i = GPIO_INPUT →
        w.testBit i = inReg.testBit (gpioPin b i)) ∧
      (∀ i, i < 16 → ¬ (i < GPIO_COUNT b ∧ gpioTypes i = GPIO_INPUT) → w.testBit i = true) := by
  obtain ⟨w, hw, hlt, hbits⟩ := readInputs_loop b gpioTypes inReg h (GPIO_COUNT b) le_rfl
  refine ⟨w, hw, hlt, ?_, ?_⟩
  · intro i hi hrole
    have hi16 : i < 16 := by have := GPIO_COUNT_le b; omega
    rw [hbits i hi16]; simp [hi, hrole]
  · intro i hi hno
    rw [hbits i hi, if_neg hno]

/-- On the OXRS_ESP32 board every pin lies inside the register, so the sampler
meets its contract for every role table and register value. -/
theorem readInputs_esp32 (gpioTypes : Nat → Nat) (inReg : Nat) :
    ∃ w, readInputs Board.OXRS_ESP32 gpioTypes inReg = some w ∧ w < 2 ^ 16 ∧
      (∀ i, i < GPIO_COUNT Board.OXRS_ESP32 → gpioTypes i = GPIO_INPUT →
        w.testBit i = inReg.testBit (gpioPin Board.OXRS_ESP32 i)) ∧
      (∀ i, i < 16 → ¬ (i < GPIO_COUNT Board.OXRS_ESP32 ∧ gpioTypes i = GPIO_INPUT) →
        w.testBit i = true) := by
  apply readInputs_of_pins_in_register
  intro i hi _
  have : ∀ i, i < GPIO_COUNT Board.OXRS_ESP32 → gpioPin Board.OXRS_ESP32 i < 32 := by decide
  exact this i hi

theorem foldlM_none_of_step (step : Nat → Nat → Option Nat) :
    ∀ (l : List Nat) (init : Nat) (k : Nat), k ∈ l → (∀ acc, step acc k = none) →
      l.foldlM step init = none := by
  intro l
  induction l with
  | nil => intro _ k hk; simp at hk
  | cons a rest ih =>
    intro init k hk hstep
    rw [List.foldlM_cons]
    rcases List.mem_cons.mp hk with e | e
    · subst e; rw [hstep]; rfl
    · cases hs : step init a with
      | none => rfl
      | some v => exact ih v k e hstep

/-- C6 (failing input): on the OXRS_LILYGO board, with the roles that `setup`
leaves (every index an input), the sampler reaches index 6, whose pin is 32,
and shifts the 32-bit register value by 32: no result word is defined,
whatever the register holds. -/
theorem readInputs_lilygo_after_setup (L : Lib) (inReg : Nat) :
    readInputs Board.OXRS_LILYGO (setup L Board.OXRS_LILYGO (powerOn L)).gpioTypes inReg
      = none := by
  apply foldlM_none_of_step _ _ _ 6 (by decide)
  intro acc
  have h6 : (setup L Board.OXRS_LILYGO (powerOn L)).gpioTypes 6 = GPIO_INPUT := by
    rfl
  have hp : gpioPin Board.OXRS_LILYGO 6 = 32 := rfl
  simp [readInputsStep, h6, hp, bitRead]

/-! ### Command dispatcher -/

theorem emit_emit (st : State) (a c : List Effect) : (st.emit a).emit c = st.emit (a ++ c) := by
  simp [State.emit, List.append_assoc]

theorem emit_nil (st : State) : st.emit [] = st := by
  simp [State.emit]

theorem containsKey_of_get_str (json : Json) (key name : String)
    (h : json.get key = Json.str name) : json.containsKey key = true := by
  unfold Json.get at h
  unfold Json.containsKey
  cases hm : json.member key with
  | none => rw [hm] at h; simp at h
  | some v => rfl

theorem getIndex_of_targets (L : Lib) (b : Board) (json : Json) (st : State) (i : Nat)
    (h : Targets L b json i) : getIndex L b json st = (i, st) := by
  obtain ⟨hk, hi, hlt⟩ := h
  have hne : i ≠ INVALID_GPIO_PIN := by
    have := GPIO_COUNT_le b
    unfold INVALID_GPIO_PIN; omega
  simp [getIndex, hk, hi, hne]

theorem parseOutputType_diag (L : Lib) (name : String) :
    ∀ e ∈ (parseOutputType L name).2, e.isDiagnostic = true := by
  unfold parseOutputType
  split_ifs <;> simp [Effect.isDiagnostic]

theorem typeCheckDiag_diag (L : Lib) (json : Json) :
    ∀ e ∈ typeCheckDiag L json, e.isDiagnostic = true := by
  unfold typeCheckDiag
  split_ifs
  · cases h : (json.get "type").asCString with
    | none => simp
    | some name => simpa using parseOutputType_diag L name
  · simp

/-- A command entry that names an output pin and passes the type cross-check
reaches the command part, after the diagnostics of the type parse. -/
theorem jsonGpioCommand_of_pass (L : Lib) (b : Board) (net : Nat → Bool) (json : Json)
    (st : State) (i : Nat) (hT : Targets L b json i) (hrole : st.gpioTypes i = GPIO_OUTPUT)
    (hpass : PassesTypeCheck L json (st.output.types i)) :
    jsonGpioCommand L b net json st =
      dispatchCommand L b net i (st.output.types i) json (st.emit (typeCheckDiag L json)) := by
  unfold jsonGpioCommand
  rw [getIndex_of_targets L b json st i hT]
  have hne : i ≠ INVALID_GPIO_PIN := by
    have := GPIO_COUNT_le b
    have := hT.2.2
    unfold INVALID_GPIO_PIN; omega
  rcases hpass with hno | ⟨name, hname, hparse⟩
  · simp [hne, hrole, hno, typeCheckDiag, emit_nil, outputGetType]
  · have hk := containsKey_of_get_str json "type" name hname
    simp [hne, hrole, hk, hname, typeCheckDiag, Json.asCString, outputGetType, hparse]

/-- C1: a command entry whose `gpio` resolves to an index configured as input is
rejected before anything else is looked at. Whatever its `type` and `command`
members are, `jsonGpioCommand` returns, and the state differs from the one
before only by one diagnostic line in the log: no call on the output handler,
no publish attempt, no pin operation, and the role table is unchanged. -/
theorem command_on_input_rejected (L : Lib) (b : Board) (net : Nat → Bool) (json : Json)
    (st : State) (i : Nat) (hT : Targets L b json i) (hrole : st.gpioTypes i = GPIO_INPUT) :
    jsonGpioCommand L b net json st =
      some { st with log := st.log ++
        [Effect.println "[digio] command received for GPIO not configured as output"] } := by
  unfold jsonGpioCommand
  rw [getIndex_of_targets L b json st i hT]
  have hne : i ≠ INVALID_GPIO_PIN := by
    have := GPIO_COUNT_le b
    have := hT.2.2
    unfold INVALID_GPIO_PIN; omega
  simp [hne, hrole, GPIO_INPUT, GPIO_OUTPUT, println, State.emit]

/-- Witness of C1: in `pin4Relay` pin 2 (index 0) is an input; the command
`gpio: 2, type: "relay", command: "on"` only logs the diagnostic. -/
theorem command_on_input_rejected_witness :
    Targets oxrsLib Board.OXRS_ESP32 cmdRelayOn2 0 ∧
    pin4Relay.gpioTypes 0 = GPIO_INPUT ∧
    jsonGpioCommand oxrsLib Board.OXRS_ESP32 netUp cmdRelayOn2 pin4Relay =
      some { pin4Relay with log := pin4Relay.log ++
        [Effect.println "[digio] command received for GPIO not configured as output"] } :=
  ⟨by decide, by decide,
   command_on_input_rejected oxrsLib Board.OXRS_ESP32 netUp cmdRelayOn2 pin4Relay 0
     (by decide) (by decide)⟩

/-- C2: a command entry that targets an output index and carries a `type` name
whose parse differs from the configured output type (an unknown name parses to
99) is rejected as a whole, whatever its `command` member is. The state differs
from the one before only by diagnostic lines in the log, the last of which
reports the mismatch: no `handleCommand`, no publish attempt, no pin change. -/
theorem command_type_mismatch_rejected (L : Lib) (b : Board) (net : Nat → Bool) (json : Json)
    (st : State) (i : Nat) (name : String) (hT : Targets L b json i)
    (hrole : st.gpioTypes i = GPIO_OUTPUT) (hname : json.get "type" = Json.str name)
    (hdiff : (parseOutputType L name).1 ≠ st.output.types i) :
    jsonGpioCommand L b net json st =
      some { st with log := st.log ++ ((parseOutputType L name).2 ++
        [Effect.println "[digio] command type doesn't match configured type"]) } ∧
    ∀ e ∈ (parseOutputType L name).2 ++
        [Effect.println "[digio] command type doesn't match configured type"],
      e.isDiagnostic = true := by
  constructor
  · unfold jsonGpioCommand
    rw [getIndex_of_targets L b json st i hT]
    have hne : i ≠ INVALID_GPIO_PIN := by
      have := GPIO_COUNT_le b
      have := hT.2.2
      unfold INVALID_GPIO_PIN; omega
    have hk := containsKey_of_get_str json "type" name hname
    simp [hne, hrole, hk, hname, Json.asCString, outputGetType, hdiff, println, State.emit]
  · intro e he
    rcases List.mem_append.mp he with h | h
    · exact parseOutputType_diag L name e h
    · simp at h; subst h; rfl

/-- Witness of C2 (scenario C): pin 4 is configured as relay; the command
`gpio: 4, type: "motor", command: "on"` is rejected with the mismatch
diagnostic only, and so is `gpio: 4, type: "valve", command: "on"`, after the
parser's own diagnostic. -/
theorem command_type_mismatch_rejected_witness :
    Targets oxrsLib Board.OXRS_ESP32 cmdMotorOn4 1 ∧
    pin4Relay.gpioTypes 1 = GPIO_OUTPUT ∧
    (parseOutputType oxrsLib "motor").1 ≠ pin4Relay.output.types 1 ∧
    jsonGpioCommand oxrsLib Board.OXRS_ESP32 netUp cmdMotorOn4 pin4Relay =
      some { pin4Relay with log := pin4Relay.log ++
        [Effect.println "[digio] command type doesn't match configured type"] } ∧
    jsonGpioCommand oxrsLib Board.OXRS_ESP32 netUp cmdValveOn4 pin4Relay =
      some { pin4Relay with log := pin4Relay.log ++
        [Effect.println "[digio] invalid output type",
         Effect.println "[digio] command type doesn't match configured type"] } :=
  ⟨by decide, by decide, by decide,
   (command_type_mismatch_rejected oxrsLib Board.OXRS_ESP32 netUp cmdMotorOn4 pin4Relay 1
     "motor" (by decide) (by decide) rfl (by decide)).1,
   (command_type_mismatch_rejected oxrsLib Board.OXRS_ESP32 netUp cmdValveOn4 pin4Relay 1
     "valve" (by decide) (by decide) rfl (by decide)).1⟩

theorem publishedRecords_append (a c : List Effect) :
    publishedRecords (a ++ c) = publishedRecords a ++ publishedRecords c := by
  induction a with
  | nil => rfl
  | cons e rest ih => cases e <;> simp [publishedRecords, ih]

theorem publishedRecords_of_diag (a : List Effect) (h : ∀ e ∈ a, e.isDiagnostic = true) :
    publishedRecords a = [] := by
  induction a with
  | nil => rfl
  | cons e rest ih =>
    have he := h e (by simp)
    have hr := ih (fun x hx => h x (by simp [hx]))
    cases e <;> simp_all [publishedRecords, Effect.isDiagnostic]

theorem filter_isOutputCall_of_diag (a : List Effect) (h : ∀ e ∈ a, e.isDiagnostic = true) :
    a.filter Effect.isOutputCall = [] := by
  rw [List.filter_eq_nil_iff]
  intro e he
  have := h e he
  cases e <;> simp_all [Effect.isDiagnostic, Effect.isOutputCall]

theorem filter_isPinOp_of_diag (a : List Effect) (h : ∀ e ∈ a, e.isDiagnostic = true) :
    a.filter Effect.isPinOp = [] := by
  rw [List.filter_eq_nil_iff]
  intro e he
  have := h e he
  cases e <;> simp_all [Effect.isDiagnostic, Effect.isPinOp]

/-- The effects of `publishOutputEvent`: one publish attempt, followed by the
three failover prints when it is not delivered. -/
theorem publishOutputEvent_eq (L : Lib) (b : Board) (net : Nat → Bool) (index type state : Nat)
    (st : State) :
    ∃ tail, publishOutputEvent L b net index type state st =
        st.emit (Effect.publishStatus (outputRecord L b index type state)
          (net (publishAttempts st.log)) :: tail) ∧
      publishedRecords tail = [] ∧ tail.filter Effect.isOutputCall = [] ∧
      tail.filter Effect.isPinOp = [] := by
  unfold publishOutputEvent
  cases hd : net (publishAttempts st.log) with
  | true =>
    refine ⟨[], ?_, rfl, rfl, rfl⟩
    simp [outputRecord]
  | false =>
    refine ⟨[Effect.print "[digio] [failover] ",
      Effect.serializeJson (outputRecord L b index type state), Effect.println ""],
      ?_, rfl, rfl, rfl⟩
    simp [outputRecord, emit_emit]

/-- C3 (amended): for a command entry that targets an output index `i` and
passes the type cross-check. If the `command` member is present and is null or
"query", `jsonGpioCommand` returns having made exactly one publish attempt,
whose record carries the pin id, the name of the configured type and the event
name of the level read from pin `GPIO_PINS[i]`, with no call on the output
handler and no pin operation. If the `command` member is absent, it returns
without any publish attempt, handler call or pin operation. -/
theorem query_publishes_pin_level (L : Lib) (b : Board) (net : Nat → Bool) (json : Json)
    (st : State) (i : Nat) (hT : Targets L b json i) (hrole : st.gpioTypes i = GPIO_OUTPUT)
    (hpass : PassesTypeCheck L json (st.output.types i)) :
    (json.containsKey "command" = true →
      (json.get "command" = Json.null ∨ json.get "command" = Json.str "query") →
      ∃ new, jsonGpioCommand L b net json st = some (st.emit new) ∧
        publishedRecords new =
          [{ gpio := gpioPin b i, type := getOutputType L (st.output.types i),
             event := getOutputEventType L (st.output.types i)
               (st.pinLevels (gpioPin b i)) }] ∧
        new.filter Effect.isOutputCall = [] ∧ new.filter Effect.isPinOp = []) ∧
    (json.containsKey "command" = false →
      ∃ new, jsonGpioCommand L b net json st = some (st.emit new) ∧
        publishedRecords new = [] ∧
        new.filter Effect.isOutputCall = [] ∧ new.filter Effect.isPinOp = []) := by
  rw [jsonGpioCommand_of_pass L b net json st i hT hrole hpass]
  have hd := typeCheckDiag_diag L json
  constructor
  · intro hk hcmd
    have hq : dispatchCommand L b net i (st.output.types i) json
          (st.emit (typeCheckDiag L json)) =
        some (publishOutputEvent L b net i (st.output.types i)
          (st.pinLevels (gpioPin b i)) (st.emit (typeCheckDiag L json))) := by
      rcases hcmd with h | h
      · simp [dispatchCommand, hk, h, Json.isNull, digitalRead, State.emit]
      · simp [dispatchCommand, hk, h, Json.isNull, Json.asCString, digitalRead, State.emit]
    obtain ⟨tail, htail, hp, ho, hw⟩ := publishOutputEvent_eq L b net i (st.output.types i)
      (st.pinLevels (gpioPin b i)) (st.emit (typeCheckDiag L json))
    refine ⟨typeCheckDiag L json ++ Effect.publishStatus (outputRecord L b i
      (st.output.types i) (st.pinLevels (gpioPin b i)))
      (net (publishAttempts (st.emit (typeCheckDiag L json)).log)) :: tail, ?_, ?_, ?_, ?_⟩
    · rw [hq, htail, emit_emit]
    · rw [publishedRecords_append, publishedRecords_of_diag _ hd]
      simp [publishedRecords, hp, outputRecord]
    · rw [List.filter_append, filter_isOutputCall_of_diag _ hd]
      simp [List.filter_cons, Effect.isOutputCall, ho]
    · rw [List.filter_append, filter_isPinOp_of_diag _ hd]
      simp [List.filter_cons, Effect.isPinOp, hw]
  · intro hk
    refine ⟨typeCheckDiag L json, ?_, publishedRecords_of_diag _ hd,
      filter_isOutputCall_of_diag _ hd, filter_isPinOp_of_diag _ hd⟩
    simp [dispatchCommand, hk]

/-- Witness of C3 (amended): with pin 4 a relay whose pin is driven ON, the
command `gpio: 4, command: null` publishes the record of the level read. -/
theorem query_publishes_pin_level_witness :
    Targets oxrsLib Board.OXRS_ESP32 cmdNull4 1 ∧
    pin4RelayOn.gpioTypes 1 = GPIO_OUTPUT ∧
    ∃ new, jsonGpioCommand oxrsLib Board.OXRS_ESP32 netUp cmdNull4 pin4RelayOn =
        some (pin4RelayOn.emit new) ∧
      publishedRecords new = [{ gpio := 4, type := "relay", event := "on" }] ∧
      new.filter Effect.isOutputCall = [] ∧ new.filter Effect.isPinOp = [] :=
  ⟨by decide, by decide,
   (query_publishes_pin_level oxrsLib Board.OXRS_ESP32 netUp cmdNull4 pin4RelayOn 1
     (by decide) (by decide) (Or.inl (by decide))).1 (by decide) (Or.inl rfl)⟩

/-- C3 (counterexample): pin 4 is an output of type relay and the command
`gpio: 4` has no `command` member (and no `type`, so it passes the cross-check);
`jsonGpioCommand` returns with the log as it was: no status record is
published. -/
theorem absent_command_publishes_nothing :
    Targets oxrsLib Board.OXRS_ESP32 cmdBare4 1 ∧
    pin4Relay.gpioTypes 1 = GPIO_OUTPUT ∧
    cmdBare4.containsKey "type" = false ∧
    cmdBare4.containsKey "command" = false ∧
    (jsonGpioCommand oxrsLib Board.OXRS_ESP32 netUp cmdBare4 pin4Relay).map
      (fun st => publishedRecords st.log) = some [] := by
  refine ⟨by decide, by decide, by decide, by decide, ?_⟩
  rfl

/-- C4: for a command entry that targets an output index `i` and passes the
type cross-check. The command "on" makes exactly one call on the output
handler, `handleCommand(0, i, RELAY_ON)`, and the command "off" exactly one,
`handleCommand(0, i, RELAY_OFF)`; in both cases there is no publish attempt and
no pin operation. Any other command string different from "query", "on" and
"off" (the match is exact, so "ON" is one) makes no handler call, no publish
attempt and no pin operation: the new log entries are diagnostics only, the
last one reporting the invalid command. In every case the state changes in
its log only. -/
theorem on_off_forwarded_others_rejected (L : Lib) (b : Board) (net : Nat → Bool) (json : Json)
    (st : State) (i : Nat) (hT : Targets L b json i) (hrole : st.gpioTypes i = GPIO_OUTPUT)
    (hpass : PassesTypeCheck L json (st.output.types i)) :
    (json.get "command" = Json.str "on" →
      ∃ new, jsonGpioCommand L b net json st = some (st.emit new) ∧
        new.filter Effect.isOutputCall = [Effect.outputHandleCommand 0 i L.RELAY_ON] ∧
        publishedRecords new = [] ∧ new.filter Effect.isPinOp = []) ∧
    (json.get "command" = Json.str "off" →
      ∃ new, jsonGpioCommand L b net json st = some (st.emit new) ∧
        new.filter Effect.isOutputCall = [Effect.outputHandleCommand 0 i L.RELAY_OFF] ∧
        publishedRecords new = [] ∧ new.filter Effect.isPinOp = []) ∧
    (∀ command, json.get "command" = Json.str command →
      command ≠ "query" → command ≠ "on" → command ≠ "off" →
      ∃ new, jsonGpioCommand L b net json st = some (st.emit new) ∧
        (∀ e ∈ new, e.isDiagnostic = true) ∧
        new.getLast? = some (Effect.println "[digio] invalid command") ∧
        new.filter Effect.isOutputCall = [] ∧
        publishedRecords new = [] ∧ new.filter Effect.isPinOp = []) := by
  rw [jsonGpioCommand_of_pass L b net json st i hT hrole hpass]
  have hd := typeCheckDiag_diag L json
  refine ⟨?_, ?_, ?_⟩
  · intro hcmd
    have hk := containsKey_of_get_str json "command" "on" hcmd
    refine ⟨typeCheckDiag L json ++ [Effect.outputHandleCommand 0 i L.RELAY_ON], ?_, ?_, ?_, ?_⟩
    · simp [dispatchCommand, hk, hcmd, Json.isNull, Json.asCString, outputHandleCommand,
        emit_emit]
    · rw [List.filter_append, filter_isOutputCall_of_diag _ hd]
      simp [Effect.isOutputCall]
    · rw [publishedRecords_append, publishedRecords_of_diag _ hd]
      rfl
    · rw [List.filter_append, filter_isPinOp_of_diag _ hd]
      simp [Effect.isPinOp]
  · intro hcmd
    have hk := containsKey_of_get_str json "command" "off" hcmd
    refine ⟨typeCheckDiag L json ++ [Effect.outputHandleCommand 0 i L.RELAY_OFF], ?_, ?_, ?_, ?_⟩
    · simp [dispatchCommand, hk, hcmd, Json.isNull, Json.asCString, outputHandleCommand,
        emit_emit]
    · rw [List.filter_append, filter_isOutputCall_of_diag _ hd]
      simp [Effect.isOutputCall]
    · rw [publishedRecords_append, publishedRecords_of_diag _ hd]
      rfl
    · rw [List.filter_append, filter_isPinOp_of_diag _ hd]
      simp [Effect.isPinOp]
  · intro command hcmd hq hon hoff
    have hk := containsKey_of_get_str json "command" command hcmd
    have hall : ∀ e ∈ typeCheckDiag L json ++ [Effect.println "[digio] invalid command"],
        e.isDiagnostic = true := by
      intro e he
      rcases List.mem_append.mp he with h | h
      · exact hd e h
      · simp at h; subst h; rfl
    refine ⟨typeCheckDiag L json ++ [Effect.println "[digio] invalid command"], ?_, hall, ?_,
      filter_isOutputCall_of_diag _ hall, publishedRecords_of_diag _ hall,
      filter_isPinOp_of_diag _ hall⟩
    · simp [dispatchCommand, hk, hcmd, Json.isNull, Json.asCString, hq, hon, hoff, println,
        emit_emit]
    · simp

/-- Witness of C4: with pin 4 a relay, the command `gpio: 4, command: "on"` is
forwarded as `handleCommand(0, 1, RELAY_ON)`, and `gpio: 4, command: "ON"` is
rejected. -/
theorem on_off_forwarded_others_rejected_witness :
    Targets oxrsLib Board.OXRS_ESP32 cmdOn4 1 ∧
    pin4Relay.gpioTypes 1 = GPIO_OUTPUT ∧
    (∃ new, jsonGpioCommand oxrsLib Board.OXRS_ESP32 netUp cmdOn4 pin4Relay =
        some (pin4Relay.emit new) ∧
      new.filter Effect.isOutputCall = [Effect.outputHandleCommand 0 1 oxrsLib.RELAY_ON] ∧
      publishedRecords new = [] ∧ new.filter Effect.isPinOp = []) ∧
    (∃ new, jsonGpioCommand oxrsLib Board.OXRS_ESP32 netUp cmdUpperOn4 pin4Relay =
        some (pin4Relay.emit new) ∧
      (∀ e ∈ new, e.isDiagnostic = true) ∧
      new.getLast? = some (Effect.println "[digio] invalid command") ∧
      new.filter Effect.isOutputCall = [] ∧
      publishedRecords new = [] ∧ new.filter Effect.isPinOp = []) :=
  ⟨by decide, by decide,
   (on_off_forwarded_others_rejected oxrsLib Board.OXRS_ESP32 netUp cmdOn4 pin4Relay 1
     (by decide) (by decide) (Or.inl (by decide))).1 rfl,
   (on_off_forwarded_others_rejected oxrsLib Board.OXRS_ESP32 netUp cmdUpperOn4 pin4Relay 1
     (by decide) (by decide) (Or.inl (by decide))).2.2 "ON" rfl
     (by decide) (by decide) (by decide)⟩

/-! ### Role table and configuration applier -/

theorem SamePins.refl (st : State) : SamePins st st := ⟨rfl, rfl, rfl, rfl⟩

theorem SamePins.trans {a c d : State} (h1 : SamePins a c) (h2 : SamePins c d) :
    SamePins a d :=
  ⟨h2.1.trans h1.1, h2.2.1.trans h1.2.1, h2.2.2.1.trans h1.2.2.1, h2.2.2.2.trans h1.2.2.2⟩

theorem samePins_emit_diag (st : State) (diag : List Effect)
    (h : ∀ e ∈ diag, e.isDiagnostic = true) : SamePins st (st.emit diag) := by
  refine ⟨rfl, rfl, rfl, ?_⟩
  simp [State.emit, List.filter_append, filter_isPinOp_of_diag _ h]

theorem samePins_println (msg : String) (st : State) : SamePins st (println msg st) := by
  refine ⟨rfl, rfl, rfl, ?_⟩
  simp [println, State.emit, List.filter_append, Effect.isPinOp]

theorem samePins_outputSetType (index type : Nat) (st : State) :
    SamePins st (outputSetType index type st) := by
  refine ⟨rfl, rfl, rfl, ?_⟩
  simp [outputSetType, List.filter_append, Effect.isPinOp]

theorem samePins_outputSetTimer (index secs : Nat) (st : State) :
    SamePins st (outputSetTimer index secs st) := by
  refine ⟨rfl, rfl, rfl, ?_⟩
  simp [outputSetTimer, List.filter_append, Effect.isPinOp]

theorem samePins_outputSetInterlock (index interlock : Nat) (st : State) :
    SamePins st (outputSetInterlock index interlock st) := by
  refine ⟨rfl, rfl, rfl, ?_⟩
  simp [outputSetInterlock, List.filter_append, Effect.isPinOp]

/-- The output sub-configuration touches neither the role table nor a pin. -/
theorem jsonOutputConfig_samePins (L : Lib) (b : Board) (index : Nat) (json : Json)
    (st st' : State) (h : jsonOutputConfig L b index json st = some st') : SamePins st st' := by
  unfold jsonOutputConfig at h
  simp only [Option.map_eq_some'] at h
  obtain ⟨st1, h1, h2⟩ := h
  have hs1 : SamePins st st1 := by
    split_ifs at h1 with hk
    · cases hc : (json.get "type").asCString with
      | none => rw [hc] at h1; simp at h1
      | some name =>
        rw [hc] at h1
        simp only at h1
        split_ifs at h1 with hv
        · cases h1
          exact (samePins_emit_diag st _ (parseOutputType_diag L name)).trans
            (samePins_outputSetType _ _ _)
        · cases h1
          exact samePins_emit_diag st _ (parseOutputType_diag L name)
    · cases h1
      exact SamePins.refl st
  refine hs1.trans ?_
  subst h2
  have hs2 : SamePins st1 (if json.containsKey "timerSeconds" = true then
      if (json.get "timerSeconds").isNull = true then
        outputSetTimer index L.DEFAULT_TIMER_SECS st1
      else outputSetTimer index ((json.get "timerSeconds").asUInt8 L) st1
    else st1) := by
    split_ifs
    · exact samePins_outputSetTimer _ _ _
    · exact samePins_outputSetTimer _ _ _
    · exact SamePins.refl _
  refine hs2.trans ?_
  split_ifs
  all_goals first
    | exact samePins_outputSetInterlock _ _ _
    | exact samePins_println _ _
    | exact SamePins.refl _

/-- The output sub-configuration returns when the `type` member of the
sub-object is absent or a string. -/
theorem jsonOutputConfig_returns (L : Lib) (b : Board) (index : Nat) (json : Json) (st : State)
    (h : json.containsKey "type" = false ∨ ∃ name, json.get "type" = Json.str name) :
    ∃ st', jsonOutputConfig L b index json st = some st' := by
  unfold jsonOutputConfig
  rcases h with h | ⟨name, h⟩
  · simp [h]
  · have hk := containsKey_of_get_str json "type" name h
    simp only [hk, h, Json.asCString, if_true]
    split_ifs <;> simp

theorem setGpioType_output (L : Lib) (b : Board) (i : Nat) (st : State) :
    (setGpioType L b i GPIO_OUTPUT st).gpioTypes i = GPIO_OUTPUT ∧
    (setGpioType L b i GPIO_OUTPUT st).pinModes (gpioPin b i) = some PinMode.OUTPUT ∧
    (setGpioType L b i GPIO_OUTPUT st).pinLevels (gpioPin b i) = L.RELAY_OFF ∧
    (setGpioType L b i GPIO_OUTPUT st).log = st.log ++
      [Effect.pinMode (gpioPin b i) PinMode.OUTPUT,
       Effect.digitalWrite (gpioPin b i) L.RELAY_OFF] := by
  simp [setGpioType, GPIO_OUTPUT, GPIO_INPUT, pinMode, digitalWrite]

/-- C5: `setGpioType(i, GPIO_OUTPUT)` leaves, from every prior state, the role
of `i` at OUTPUT, pin `GPIO_PINS[i]` in output mode and its level at RELAY_OFF.
Consequently, for every configuration entry that names index `i` and whose
role is determined as OUTPUT: whenever `jsonGpioConfig` returns, role, mode and
level are so, and the only pin operations of the call are the `pinMode` and the
`digitalWrite(RELAY_OFF)` of the role assignment (no sub-configuration step
drives the pin); and it does return when the `type` member of the output
sub-object is absent or a string. -/
theorem output_role_pin_off (L : Lib) (b : Board) (i : Nat) (st : State) :
    ((setGpioType L b i GPIO_OUTPUT st).gpioTypes i = GPIO_OUTPUT ∧
     (setGpioType L b i GPIO_OUTPUT st).pinModes (gpioPin b i) = some PinMode.OUTPUT ∧
     (setGpioType L b i GPIO_OUTPUT st).pinLevels (gpioPin b i) = L.RELAY_OFF) ∧
    ∀ json, Targets L b json i → (configGpioType json).map Prod.fst = some GPIO_OUTPUT →
      (∀ st', jsonGpioConfig L b json st = some st' →
        st'.gpioTypes i = GPIO_OUTPUT ∧
        st'.pinModes (gpioPin b i) = some PinMode.OUTPUT ∧
        st'.pinLevels (gpioPin b i) = L.RELAY_OFF ∧
        st'.log.filter Effect.isPinOp = st.log.filter Effect.isPinOp ++
          [Effect.pinMode (gpioPin b i) PinMode.OUTPUT,
           Effect.digitalWrite (gpioPin b i) L.RELAY_OFF]) ∧
      (((json.get "output").containsKey "type" = false ∨
          ∃ name, (json.get "output").get "type" = Json.str name) →
        ∃ st', jsonGpioConfig L b json st = some st') := by
  have hset := setGpioType_output L b i
  refine ⟨⟨(hset st).1, (hset st).2.1, (hset st).2.2.1⟩, ?_⟩
  intro json hT hrole
  have hne : i ≠ INVALID_GPIO_PIN := by
    have := GPIO_COUNT_le b
    have := hT.2.2
    unfold INVALID_GPIO_PIN; omega
  obtain ⟨⟨gpioType, diag⟩, hcfg, hfst⟩ := Option.map_eq_some'.mp hrole
  simp only at hfst
  subst hfst
  have hdiag : ∀ e ∈ diag, e.isDiagnostic = true := by
    unfold configGpioType at hcfg
    split_ifs at hcfg
    · obtain ⟨name, -, hp⟩ := Option.map_eq_some'.mp hcfg
      have : diag = (parseGpioType name).2 := by rw [hp]
      rw [this]
      unfold parseGpioType
      split_ifs <;> simp [Effect.isDiagnostic]
    all_goals first
      | (cases hcfg; done)
      | (cases hcfg; simp)
  have hrun : jsonGpioConfig L b json st =
      if json.containsKey "output" = true then
        jsonOutputConfig L b i (json.get "output")
          (setGpioType L b i GPIO_OUTPUT (st.emit diag))
      else some (setGpioType L b i GPIO_OUTPUT (st.emit diag)) := by
    unfold jsonGpioConfig
    rw [getIndex_of_targets L b json st i hT]
    simp [hne, hcfg, GPIO_OUTPUT, GPIO_INPUT, INVALID_GPIO_TYPE]
  have hmid := hset (st.emit diag)
  have hmidlog : (setGpioType L b i GPIO_OUTPUT (st.emit diag)).log.filter Effect.isPinOp =
      st.log.filter Effect.isPinOp ++
        [Effect.pinMode (gpioPin b i) PinMode.OUTPUT,
         Effect.digitalWrite (gpioPin b i) L.RELAY_OFF] := by
    rw [hmid.2.2.2]
    simp [State.emit, List.filter_append, filter_isPinOp_of_diag _ hdiag, Effect.isPinOp]
  constructor
  · intro st' hst'
    rw [hrun] at hst'
    split_ifs at hst' with hk
    · obtain ⟨g, m, l, hl⟩ := jsonOutputConfig_samePins L b i _ _ _ hst'
      rw [g, m, l, hl]
      exact ⟨hmid.1, hmid.2.1, hmid.2.2.1, hmidlog⟩
    · cases hst'
      exact ⟨hmid.1, hmid.2.1, hmid.2.2.1, hmidlog⟩
  · intro hty
    rw [hrun]
    split_ifs
    · exact jsonOutputConfig_returns L b i _ _ hty
    · exact ⟨_, rfl⟩

/-- Witness of C5: pin 4 is an output driven ON; the configuration
`gpio: 4, type: "output", output: (type: "timer", timerSeconds: 30,
interlockGpio: 5)` returns and leaves pin 4 an output at RELAY_OFF. -/
theorem output_role_pin_off_witness :
    Targets oxrsLib Board.OXRS_ESP32 cfgOutput4 1 ∧
    pin4RelayOn.pinLevels 4 = oxrsLib.RELAY_ON ∧
    (∃ st', jsonGpioConfig oxrsLib Board.OXRS_ESP32 cfgOutput4 pin4RelayOn = some st') ∧
    ∀ st', jsonGpioConfig oxrsLib Board.OXRS_ESP32 cfgOutput4 pin4RelayOn = some st' →
      st'.gpioTypes 1 = GPIO_OUTPUT ∧ st'.pinModes 4 = some PinMode.OUTPUT ∧
      st'.pinLevels 4 = oxrsLib.RELAY_OFF ∧
      st'.log.filter Effect.isPinOp = pin4RelayOn.log.filter Effect.isPinOp ++
        [Effect.pinMode 4 PinMode.OUTPUT, Effect.digitalWrite 4 oxrsLib.RELAY_OFF] :=
  ⟨by decide, by decide,
   ((output_role_pin_off oxrsLib Board.OXRS_ESP32 1 pin4RelayOn).2 cfgOutput4
      (by decide) (by decide)).2 (Or.inr ⟨"timer", rfl⟩),
   ((output_role_pin_off oxrsLib Board.OXRS_ESP32 1 pin4RelayOn).2 cfgOutput4
      (by decide) (by decide)).1⟩

/-! ### Overwriting transformers -/

theorem jsonOutputConfig_steps (L : Lib) (b : Board) (index : Nat) (json : Json) (st : State) :
    jsonOutputConfig L b index json st =
      (outputTypeStep L index json st).map
        (fun st => outputInterlockStep L b index json (outputTimerStep L index json st)) := rfl

theorem jsonInputConfig_steps (L : Lib) (index : Nat) (json : Json) (st : State) :
    jsonInputConfig L index json st =
      (inputTypeStep L index json st).map (fun st => inputFlagsStep index json st) := rfl

theorem setAt_setAt {α : Type} (w v : Option α) (k : Nat) (f : Nat → α) :
    setAt w k (setAt v k f) = setAt (w <|> v) k f := by
  cases w <;> cases v <;> simp [setAt]

theorem setAt_idem {α : Type} (w : Option α) (k : Nat) (f : Nat → α) :
    setAt w k (setAt w k f) = setAt w k f := by
  cases w <;> simp [setAt]

theorem Writes.apply_andThen (b : Board) (i : Nat) (first second : Writes) (st : State) :
    second.apply b i (first.apply b i st) = (first.andThen second).apply b i st := by
  simp [Writes.apply, Writes.andThen, setAt_setAt, List.append_assoc]

theorem overwrites_id (b : Board) (i : Nat) : Overwrites b i (fun st => st) :=
  ⟨Writes.nothing, fun _ => by simp [Writes.apply, Writes.nothing, setAt]⟩

theorem Overwrites.comp {b : Board} {i : Nat} {f g : State → State}
    (hf : Overwrites b i f) (hg : Overwrites b i g) : Overwrites b i (fun st => g (f st)) := by
  obtain ⟨wf, hf⟩ := hf
  obtain ⟨wg, hg⟩ := hg
  exact ⟨wf.andThen wg, fun st => by simp only [hf, hg, Writes.apply_andThen]⟩

theorem overwrites_emit (b : Board) (i : Nat) (es : List Effect) :
    Overwrites b i (fun st => st.emit es) :=
  ⟨{ Writes.nothing with effects := es }, fun _ => rfl⟩

theorem overwrites_println (b : Board) (i : Nat) (msg : String) :
    Overwrites b i (println msg) :=
  ⟨{ Writes.nothing with effects := [Effect.println msg] }, fun _ => rfl⟩

theorem overwrites_setGpioType (L : Lib) (b : Board) (i type : Nat) :
    Overwrites b i (setGpioType L b i type) := by
  by_cases h1 : type = GPIO_INPUT
  · refine ⟨{ Writes.nothing with
              role := some type
              mode := some (some PinMode.INPUT_PULLUP)
              effects := [Effect.pinMode (gpioPin b i) PinMode.INPUT_PULLUP] }, fun st => ?_⟩
    simp [setGpioType, h1, pinMode, Writes.apply, Writes.nothing, setAt]
  · by_cases h2 : type = GPIO_OUTPUT
    · refine ⟨{ Writes.nothing with
                role := some type
                mode := some (some PinMode.OUTPUT)
                level := some L.RELAY_OFF
                effects := [Effect.pinMode (gpioPin b i) PinMode.OUTPUT,
                  Effect.digitalWrite (gpioPin b i) L.RELAY_OFF] }, fun st => ?_⟩
      simp [setGpioType, h2, GPIO_OUTPUT, GPIO_INPUT, pinMode, digitalWrite, Writes.apply,
        Writes.nothing, setAt]
    · refine ⟨{ Writes.nothing with role := some type }, fun st => ?_⟩
      simp [setGpioType, h1, h2, Writes.apply, Writes.nothing, setAt]

theorem overwrites_inputSetType (b : Board) (i type : Nat) :
    Overwrites b i (inputSetType i type) :=
  ⟨{ Writes.nothing with inputType := some type, effects := [Effect.inputSetType i type] },
    fun _ => rfl⟩

theorem overwrites_inputSetInvert (b : Board) (i : Nat) (v : Bool) :
    Overwrites b i (inputSetInvert i v) :=
  ⟨{ Writes.nothing with invert := some v, effects := [Effect.inputSetInvert i v] },
    fun _ => rfl⟩

theorem overwrites_inputSetDisabled (b : Board) (i : Nat) (v : Bool) :
    Overwrites b i (inputSetDisabled i v) :=
  ⟨{ Writes.nothing with disabled := some v, effects := [Effect.inputSetDisabled i v] },
    fun _ => rfl⟩

theorem overwrites_outputSetType (b : Board) (i type : Nat) :
    Overwrites b i (outputSetType i type) :=
  ⟨{ Writes.nothing with outputType := some type, effects := [Effect.outputSetType i type] },
    fun _ => rfl⟩

theorem overwrites_outputSetTimer (b : Board) (i secs : Nat) :
    Overwrites b i (outputSetTimer i secs) :=
  ⟨{ Writes.nothing with timer := some secs, effects := [Effect.outputSetTimer i secs] },
    fun _ => rfl⟩

theorem overwrites_outputSetInterlock (b : Board) (i j : Nat) :
    Overwrites b i (outputSetInterlock i j) :=
  ⟨{ Writes.nothing with interlock := some j, effects := [Effect.outputSetInterlock i j] },
    fun _ => rfl⟩

theorem overwrites_outputTimerStep (L : Lib) (b : Board) (i : Nat) (json : Json) :
    Overwrites b i (outputTimerStep L i json) := by
  unfold outputTimerStep
  split_ifs
  · exact overwrites_outputSetTimer b i _
  · exact overwrites_outputSetTimer b i _
  · exact overwrites_id b i

theorem overwrites_outputInterlockStep (L : Lib) (b : Board) (i : Nat) (json : Json) :
    Overwrites b i (outputInterlockStep L b i json) := by
  unfold outputInterlockStep
  by_cases h1 : json.containsKey "interlockGpio" = true
  · by_cases h2 : (json.get "interlockGpio").isNull = true
    · simp only [h1, h2, if_true]
      exact overwrites_outputSetInterlock b i _
    · by_cases h3 : getIndexFromGpio b ((json.get "interlockGpio").asUInt8 L) = INVALID_GPIO_PIN
      · simp only [h1, h2, h3, if_true, if_false]
        exact overwrites_println b i _
      · simp only [h1, h2, h3, if_true, if_false]
        exact overwrites_outputSetInterlock b i _
  · simp only [h1, if_false]
    exact overwrites_id b i

theorem overwrites_inputFlagsStep (b : Board) (i : Nat) (json : Json) :
    Overwrites b i (inputFlagsStep i json) := by
  unfold inputFlagsStep
  split_ifs
  · exact (overwrites_inputSetInvert b i _).comp (overwrites_inputSetDisabled b i _)
  · exact overwrites_inputSetInvert b i _
  · exact overwrites_inputSetDisabled b i _
  · exact overwrites_id b i

theorem OverwritesOpt.of_total {b : Board} {i : Nat} {g : State → State}
    (hg : Overwrites b i g) : OverwritesOpt b i (fun st => some (g st)) :=
  Or.inr ⟨g, hg, fun _ => rfl⟩

theorem OverwritesOpt.map {b : Board} {i : Nat} {f : State → Option State}
    {g : State → State} (hf : OverwritesOpt b i f) (hg : Overwrites b i g) :
    OverwritesOpt b i (fun st => (f st).map g) := by
  rcases hf with hf | ⟨f', hf', hf⟩
  · exact Or.inl fun st => by simp [hf]
  · exact Or.inr ⟨fun st => g (f' st), hf'.comp hg, fun st => by simp [hf]⟩

theorem OverwritesOpt.bind {b : Board} {i : Nat} {f g : State → Option State}
    (hf : OverwritesOpt b i f) (hg : OverwritesOpt b i g) :
    OverwritesOpt b i (fun st => (f st).bind g) := by
  rcases hf with hf | ⟨f', hf', hf⟩
  · exact Or.inl fun st => by simp [hf]
  · rcases hg with hg | ⟨g', hg', hg⟩
    · exact Or.inl fun st => by simp [hf, hg]
    · exact Or.inr ⟨fun st => g' (f' st), hf'.comp hg', fun st => by simp [hf, hg]⟩

theorem OverwritesOpt.after {b : Board} {i : Nat} {f : State → State}
    {g : State → Option State} (hf : Overwrites b i f) (hg : OverwritesOpt b i g) :
    OverwritesOpt b i (fun st => g (f st)) := by
  rcases hg with hg | ⟨g', hg', hg⟩
  · exact Or.inl fun st => hg _
  · exact Or.inr ⟨fun st => g' (f st), hf.comp hg', fun st => hg _⟩

theorem overwritesOpt_outputTypeStep (L : Lib) (b : Board) (i : Nat) (json : Json) :
    OverwritesOpt b i (outputTypeStep L i json) := by
  unfold outputTypeStep
  split_ifs
  · cases h : (json.get "type").asCString with
    | none => exact Or.inl fun _ => rfl
    | some name =>
      simp only
      split_ifs
      · exact OverwritesOpt.of_total
          ((overwrites_emit b i _).comp (overwrites_outputSetType b i _))
      · exact OverwritesOpt.of_total (overwrites_emit b i _)
  · exact OverwritesOpt.of_total (overwrites_id b i)

theorem overwritesOpt_inputTypeStep (L : Lib) (b : Board) (i : Nat) (json : Json) :
    OverwritesOpt b i (inputTypeStep L i json) := by
  unfold inputTypeStep
  split_ifs
  · cases h : (json.get "type").asCString with
    | none => exact Or.inl fun _ => rfl
    | some name =>
      simp only
      split_ifs
      · exact OverwritesOpt.of_total
          ((overwrites_emit b i _).comp (overwrites_inputSetType b i _))
      · exact OverwritesOpt.of_total (overwrites_emit b i _)
  · exact OverwritesOpt.of_total (overwrites_id b i)

theorem overwritesOpt_jsonOutputConfig (L : Lib) (b : Board) (i : Nat) (json : Json) :
    OverwritesOpt b i (jsonOutputConfig L b i json) := by
  have h := (overwritesOpt_outputTypeStep L b i json).map
    ((overwrites_outputTimerStep L b i json).comp (overwrites_outputInterlockStep L b i json))
  exact h

theorem overwritesOpt_jsonInputConfig (L : Lib) (b : Board) (i : Nat) (json : Json) :
    OverwritesOpt b i (jsonInputConfig L i json) := by
  have h := (overwritesOpt_inputTypeStep L b i json).map (overwrites_inputFlagsStep b i json)
  exact h
theorem Writes.apply_idem (b : Board) (i : Nat) (w : Writes) (st : State) :
    SameConfig (w.apply b i st) (w.apply b i (w.apply b i st)) := by
  simp [SameConfig, Writes.apply, setAt_idem]

theorem Writes.apply_congr (b : Board) (i : Nat) (w : Writes) (st st' : State)
    (h : SameConfig st st') : SameConfig (w.apply b i st) (w.apply b i st') := by
  obtain ⟨h1, h2, h3, h4, h5⟩ := h
  simp [SameConfig, Writes.apply, h1, h2, h3, h4, h5]

theorem sameConfig_refl (st : State) : SameConfig st st := ⟨rfl, rfl, rfl, rfl, rfl⟩

theorem sameConfig_symm {a c : State} (h : SameConfig a c) : SameConfig c a :=
  ⟨h.1.symm, h.2.1.symm, h.2.2.1.symm, h.2.2.2.1.symm, h.2.2.2.2.symm⟩

theorem sameConfig_trans {a c d : State} (h1 : SameConfig a c) (h2 : SameConfig c d) :
    SameConfig a d :=
  ⟨h2.1.trans h1.1, h2.2.1.trans h1.2.1, h2.2.2.1.trans h1.2.2.1, h2.2.2.2.1.trans h1.2.2.2.1,
    h2.2.2.2.2.trans h1.2.2.2.2⟩

theorem sameConfig_emit (st : State) (es : List Effect) : SameConfig st (st.emit es) :=
  ⟨rfl, rfl, rfl, rfl, rfl⟩

/-- Running an overwriting transformer a second time changes nothing but the
log. -/
theorem OverwritesOpt.idem {b : Board} {i : Nat} {f : State → Option State}
    (hf : OverwritesOpt b i f) (st st1 : State) (h : f st = some st1) :
    ∃ st2, f st1 = some st2 ∧ SameConfig st1 st2 := by
  rcases hf with hf | ⟨g, ⟨w, hw⟩, hg⟩
  · rw [hf] at h; cases h
  · rw [hg] at h
    cases h
    refine ⟨g (g st), hg _, ?_⟩
    rw [hw (g st), hw st]
    exact Writes.apply_idem b i w st

/-- An overwriting transformer does not look at the log. -/
theorem OverwritesOpt.congr {b : Board} {i : Nat} {f : State → Option State}
    (hf : OverwritesOpt b i f) (st st' : State) (h : SameConfig st st') :
    SameOutcome (f st) (f st') := by
  rcases hf with hf | ⟨g, ⟨w, hw⟩, hg⟩
  · exact Or.inl ⟨hf _, hf _⟩
  · refine Or.inr ⟨g st, g st', hg _, hg _, ?_⟩
    rw [hw, hw]
    exact Writes.apply_congr b i w st st' h

theorem targets_ne_invalid {L : Lib} {b : Board} {json : Json} {i : Nat}
    (hT : Targets L b json i) : i ≠ INVALID_GPIO_PIN := by
  have := GPIO_COUNT_le b
  have := hT.2.2
  unfold INVALID_GPIO_PIN; omega

/-- An entry without `gpio` member is skipped with one diagnostic. -/
theorem jsonGpioConfig_missing_gpio (L : Lib) (b : Board) (json : Json) (st : State)
    (h : json.containsKey "gpio" = false) :
    jsonGpioConfig L b json st = some (st.emit [Effect.println "[digio] missing gpio"]) := by
  simp [jsonGpioConfig, getIndex, h, println]

/-- An entry whose `gpio` is not in the pin table is skipped with one
diagnostic. -/
theorem jsonGpioConfig_unknown_gpio (L : Lib) (b : Board) (json : Json) (st : State)
    (hk : json.containsKey "gpio" = true)
    (h : getIndexFromGpio b ((json.get "gpio").asUInt8 L) = INVALID_GPIO_PIN) :
    jsonGpioConfig L b json st =
      some (st.emit [Effect.println "[digio] invalid gpio, doesn't match a supported pin"]) := by
  simp [jsonGpioConfig, getIndex, hk, h, println]

/-- An entry for which no role results is skipped after the diagnostics of the
role determination. -/
theorem jsonGpioConfig_no_role (L : Lib) (b : Board) (json : Json) (st : State) (i : Nat)
    (diag : List Effect) (hT : Targets L b json i)
    (h : configGpioType json = some (INVALID_GPIO_TYPE, diag)) :
    jsonGpioConfig L b json st = some (st.emit diag) := by
  unfold jsonGpioConfig
  rw [getIndex_of_targets L b json st i hT]
  simp [targets_ne_invalid hT, h]

/-- An entry whose role determination meets a `type` that is no string has no
defined outcome. -/
theorem jsonGpioConfig_unreadable (L : Lib) (b : Board) (json : Json) (st : State) (i : Nat)
    (hT : Targets L b json i) (h : configGpioType json = none) :
    jsonGpioConfig L b json st = none := by
  unfold jsonGpioConfig
  rw [getIndex_of_targets L b json st i hT]
  simp [targets_ne_invalid hT, h]

/-- An entry with a role: the role is assigned first, then the sub-object of
that role is handed on. -/
theorem jsonGpioConfig_of_role (L : Lib) (b : Board) (json : Json) (st : State) (i : Nat)
    (gpioType : Nat) (diag : List Effect) (hT : Targets L b json i)
    (h : configGpioType json = some (gpioType, diag)) (hv : gpioType ≠ INVALID_GPIO_TYPE) :
    jsonGpioConfig L b json st =
      (if (json.containsKey "input" && decide (gpioType = GPIO_INPUT)) = true then
          jsonInputConfig L i (json.get "input") (setGpioType L b i gpioType (st.emit diag))
        else some (setGpioType L b i gpioType (st.emit diag))).bind
        (fun st =>
          if (json.containsKey "output" && decide (gpioType = GPIO_OUTPUT)) = true then
            jsonOutputConfig L b i (json.get "output") st
          else some st) := by
  unfold jsonGpioConfig
  rw [getIndex_of_targets L b json st i hT]
  simp [targets_ne_invalid hT, h, hv]

theorem overwritesOpt_jsonGpioConfig_of_targets (L : Lib) (b : Board) (json : Json) (i : Nat)
    (hT : Targets L b json i) : OverwritesOpt b i (jsonGpioConfig L b json) := by
  cases hc : configGpioType json with
  | none => exact Or.inl fun st => jsonGpioConfig_unreadable L b json st i hT hc
  | some r =>
    obtain ⟨gpioType, diag⟩ := r
    by_cases hv : gpioType = INVALID_GPIO_TYPE
    · subst hv
      exact Or.inr ⟨_, overwrites_emit b i diag,
        fun st => jsonGpioConfig_no_role L b json st i diag hT hc⟩
    · have hset := (overwrites_emit b i diag).comp (overwrites_setGpioType L b i gpioType)
      have hin : OverwritesOpt b i
          (fun st =>
            if (json.containsKey "input" && decide (gpioType = GPIO_INPUT)) = true then
              jsonInputConfig L i (json.get "input")
                (setGpioType L b i gpioType (st.emit diag))
            else some (setGpioType L b i gpioType (st.emit diag))) := by
        split_ifs
        · exact OverwritesOpt.after hset (overwritesOpt_jsonInputConfig L b i _)
        · exact OverwritesOpt.of_total hset
      have hout : OverwritesOpt b i
          (fun st =>
            if (json.containsKey "output" && decide (gpioType = GPIO_OUTPUT)) = true then
              jsonOutputConfig L b i (json.get "output") st
            else some st) := by
        split_ifs
        · exact overwritesOpt_jsonOutputConfig L b i _
        · exact OverwritesOpt.of_total (overwrites_id b i)
      have h := hin.bind hout
      rcases h with h | ⟨g, hg, h⟩
      · exact Or.inl fun st => by
          rw [jsonGpioConfig_of_role L b json st i gpioType diag hT hc hv]; exact h st
      · exact Or.inr ⟨g, hg, fun st => by
          rw [jsonGpioConfig_of_role L b json st i gpioType diag hT hc hv]; exact h st⟩

/-- Every configuration entry acts as an overwriting transformer on one index. -/
theorem overwritesOpt_jsonGpioConfig (L : Lib) (b : Board) (json : Json) :
    ∃ i, OverwritesOpt b i (jsonGpioConfig L b json) := by
  by_cases hk : json.containsKey "gpio" = true
  · by_cases hi : getIndexFromGpio b ((json.get "gpio").asUInt8 L) = INVALID_GPIO_PIN
    · exact ⟨0, Or.inr ⟨_, overwrites_emit b 0
        [Effect.println "[digio] invalid gpio, doesn't match a supported pin"],
        fun st => jsonGpioConfig_unknown_gpio L b json st hk hi⟩⟩
    · have hT : Targets L b json (getIndexFromGpio b ((json.get "gpio").asUInt8 L)) := by
        refine ⟨hk, rfl, ?_⟩
        rcases getIndexFromGpio_range b ((json.get "gpio").asUInt8 L) with h | h
        · exact h
        · exact absurd h hi
      exact ⟨_, overwritesOpt_jsonGpioConfig_of_targets L b json _ hT⟩
  · exact ⟨0, Or.inr ⟨_, overwrites_emit b 0 [Effect.println "[digio] missing gpio"],
      fun st => jsonGpioConfig_missing_gpio L b json st (by simpa using hk)⟩⟩

/-! ### What the configuration steps store -/

theorem setGpioType_eq (L : Lib) (b : Board) (i type : Nat) (st : State) :
    setGpioType L b i type st = (roleWrites L b i type).apply b i st := by
  unfold roleWrites
  by_cases h1 : type = GPIO_INPUT
  · simp [setGpioType, h1, pinMode, Writes.apply, Writes.nothing, setAt]
  · by_cases h2 : type = GPIO_OUTPUT
    · simp [setGpioType, h2, GPIO_OUTPUT, GPIO_INPUT, pinMode, digitalWrite, Writes.apply,
        Writes.nothing, setAt]
    · simp [setGpioType, h1, h2, Writes.apply, Writes.nothing, setAt]

theorem outputTypeStep_eq (L : Lib) (b : Board) (i : Nat) (json : Json) (st : State) :
    outputTypeStep L i json st = (outputTypeWrites L i json).map (fun w => w.apply b i st) := by
  unfold outputTypeStep outputTypeWrites
  by_cases hk : json.containsKey "type" = true
  · cases hc : (json.get "type").asCString with
    | none => simp [hk]
    | some name =>
      by_cases hv : (parseOutputType L name).1 = INVALID_OUTPUT_TYPE
      · simp [hk, hv, Writes.apply, Writes.nothing, setAt, State.emit]
      · simp [hk, hv, Writes.apply, Writes.nothing, setAt, State.emit, outputSetType]
  · simp [hk, Writes.apply, Writes.nothing, setAt]

theorem outputTimerStep_eq (L : Lib) (b : Board) (i : Nat) (json : Json) (st : State) :
    outputTimerStep L i json st = (outputTimerWrites L i json).apply b i st := by
  unfold outputTimerStep outputTimerWrites
  split_ifs <;> simp [Writes.apply, Writes.nothing, setAt, outputSetTimer]

theorem outputInterlockStep_eq (L : Lib) (b : Board) (i : Nat) (json : Json) (st : State) :
    outputInterlockStep L b i json st = (outputInterlockWrites L b i json).apply b i st := by
  unfold outputInterlockStep outputInterlockWrites
  by_cases h1 : json.containsKey "interlockGpio" = true
  · by_cases h2 : (json.get "interlockGpio").isNull = true
    · simp [h1, h2, Writes.apply, Writes.nothing, setAt, outputSetInterlock]
    · by_cases h3 : getIndexFromGpio b ((json.get "interlockGpio").asUInt8 L) = INVALID_GPIO_PIN
      · simp [h1, h2, h3, Writes.apply, Writes.nothing, setAt, println, State.emit]
      · simp [h1, h2, h3, Writes.apply, Writes.nothing, setAt, outputSetInterlock]
  · simp [h1, Writes.apply, Writes.nothing, setAt]

theorem jsonOutputConfig_eq (L : Lib) (b : Board) (i : Nat) (json : Json) (st : State) :
    jsonOutputConfig L b i json st = (outputWrites L b i json).map (fun w => w.apply b i st) := by
  rw [jsonOutputConfig_steps, outputTypeStep_eq L b]
  unfold outputWrites
  cases outputTypeWrites L i json with
  | none => rfl
  | some w =>
    simp only [Option.map_some']
    rw [outputTimerStep_eq L b, Writes.apply_andThen, outputInterlockStep_eq L b,
      Writes.apply_andThen]

theorem inputTypeStep_eq (L : Lib) (b : Board) (i : Nat) (json : Json) (st : State) :
    inputTypeStep L i json st = (inputTypeWrites L i json).map (fun w => w.apply b i st) := by
  unfold inputTypeStep inputTypeWrites
  by_cases hk : json.containsKey "type" = true
  · cases hc : (json.get "type").asCString with
    | none => simp [hk]
    | some name =>
      by_cases hv : (parseInputType L name).1 = INVALID_INPUT_TYPE
      · simp [hk, hv, Writes.apply, Writes.nothing, setAt, State.emit]
      · simp [hk, hv, Writes.apply, Writes.nothing, setAt, State.emit, inputSetType]
  · simp [hk, Writes.apply, Writes.nothing, setAt]

theorem inputFlagsStep_eq (b : Board) (i : Nat) (json : Json) (st : State) :
    inputFlagsStep i json st = (inputFlagsWrites i json).apply b i st := by
  unfold inputFlagsStep inputFlagsWrites
  by_cases h1 : json.containsKey "invert" = true <;>
    by_cases h2 : json.containsKey "disabled" = true <;>
    simp [h1, h2, Writes.apply, Writes.nothing, setAt, inputSetInvert, inputSetDisabled]

theorem jsonInputConfig_eq (L : Lib) (b : Board) (i : Nat) (json : Json) (st : State) :
    jsonInputConfig L i json st = (inputWrites L i json).map (fun w => w.apply b i st) := by
  rw [jsonInputConfig_steps, inputTypeStep_eq L b]
  unfold inputWrites
  cases inputTypeWrites L i json with
  | none => rfl
  | some w =>
    simp only [Option.map_some']
    rw [inputFlagsStep_eq b, Writes.apply_andThen]

/-! ### Configuration entries by role -/

theorem configGpioType_diag (json : Json) (gpioType : Nat) (diag : List Effect)
    (h : configGpioType json = some (gpioType, diag)) (hv : gpioType ≠ INVALID_GPIO_TYPE) :
    diag = [] := by
  unfold configGpioType at h
  split_ifs at h
  · obtain ⟨name, -, hp⟩ := Option.map_eq_some'.mp h
    unfold parseGpioType at hp
    split_ifs at hp
    · cases hp; rfl
    · cases hp; rfl
    · cases hp; exact absurd rfl hv
  · cases h; rfl
  · cases h; rfl
  · cases h; exact absurd rfl hv

theorem configGpioType_of_role (json : Json) (gpioType : Nat)
    (h : (configGpioType json).map Prod.fst = some gpioType)
    (hv : gpioType ≠ INVALID_GPIO_TYPE) : configGpioType json = some (gpioType, []) := by
  obtain ⟨⟨t, diag⟩, hc, ht⟩ := Option.map_eq_some'.mp h
  simp only at ht
  subst ht
  rw [hc, configGpioType_diag json t diag hc hv]

/-- An entry with role OUTPUT stores the role assignment followed by what its
output sub-object stores. -/
theorem jsonGpioConfig_output (L : Lib) (b : Board) (json : Json) (st : State) (i : Nat)
    (hT : Targets L b json i)
    (hrole : (configGpioType json).map Prod.fst = some GPIO_OUTPUT) :
    jsonGpioConfig L b json st =
      if json.containsKey "output" = true then
        (outputWrites L b i (json.get "output")).map
          (fun w => ((roleWrites L b i GPIO_OUTPUT).andThen w).apply b i st)
      else some ((roleWrites L b i GPIO_OUTPUT).apply b i st) := by
  have hc := configGpioType_of_role json GPIO_OUTPUT hrole (by decide)
  rw [jsonGpioConfig_of_role L b json st i GPIO_OUTPUT [] hT hc (by decide)]
  have hne : ¬ GPIO_OUTPUT = GPIO_INPUT := by decide
  simp only [hne, decide_False, Bool.and_false, Bool.false_eq_true, if_false, emit_nil,
    Option.some_bind, decide_True, Bool.and_true]
  split_ifs
  · rw [jsonOutputConfig_eq L b, setGpioType_eq]
    cases outputWrites L b i (json.get "output") with
    | none => rfl
    | some w => simp [Writes.apply_andThen]
  · rw [setGpioType_eq]

/-- An entry with role INPUT stores the role assignment followed by what its
input sub-object stores. -/
theorem jsonGpioConfig_input (L : Lib) (b : Board) (json : Json) (st : State) (i : Nat)
    (hT : Targets L b json i)
    (hrole : (configGpioType json).map Prod.fst = some GPIO_INPUT) :
    jsonGpioConfig L b json st =
      if json.containsKey "input" = true then
        (inputWrites L i (json.get "input")).map
          (fun w => ((roleWrites L b i GPIO_INPUT).andThen w).apply b i st)
      else some ((roleWrites L b i GPIO_INPUT).apply b i st) := by
  have hc := configGpioType_of_role json GPIO_INPUT hrole (by decide)
  rw [jsonGpioConfig_of_role L b json st i GPIO_INPUT [] hT hc (by decide)]
  have hne : ¬ GPIO_INPUT = GPIO_OUTPUT := by decide
  simp only [hne, decide_False, Bool.and_false, Bool.false_eq_true, if_false, emit_nil,
    decide_True, Bool.and_true]
  split_ifs
  · rw [jsonInputConfig_eq L b, setGpioType_eq]
    cases inputWrites L i (json.get "input") with
    | none => rfl
    | some w => simp [Writes.apply_andThen]
  · rw [setGpioType_eq]; rfl

theorem outputTypeWrites_isSome (L : Lib) (i : Nat) (json : Json) (h : TypeReadable json) :
    ∃ w, outputTypeWrites L i json = some w := by
  unfold outputTypeWrites
  rcases h with h | ⟨name, h⟩
  · simp [h]
  · have hk := containsKey_of_get_str json "type" name h
    simp only [hk, h, Json.asCString, if_true]
    split_ifs <;> simp

theorem inputTypeWrites_isSome (L : Lib) (i : Nat) (json : Json) (h : TypeReadable json) :
    ∃ w, inputTypeWrites L i json = some w := by
  unfold inputTypeWrites
  rcases h with h | ⟨name, h⟩
  · simp [h]
  · have hk := containsKey_of_get_str json "type" name h
    simp only [hk, h, Json.asCString, if_true]
    split_ifs <;> simp

/-- The `type` part of the output sub-configuration stores nothing but the
output type, and calls neither `setTimer` nor `setInterlock`. -/
theorem outputTypeWrites_frame (L : Lib) (i : Nat) (json : Json) (w : Writes)
    (h : outputTypeWrites L i json = some w) :
    w.role = none ∧ w.mode = none ∧ w.level = none ∧ w.inputType = none ∧ w.invert = none ∧
    w.disabled = none ∧ w.timer = none ∧ w.interlock = none ∧
    w.effects.filter Effect.isSetTimer = [] ∧ w.effects.filter Effect.isSetInterlock = [] ∧
    w.effects.filter Effect.isInputCall = [] ∧ w.effects.filter Effect.isPinOp = [] ∧
    ∀ e ∈ w.effects, e ≠ Effect.println "[digio] invalid interlock GPIO" := by
  unfold outputTypeWrites at h
  by_cases hk : json.containsKey "type" = true
  · cases hc : (json.get "type").asCString with
    | none => simp [hk, hc] at h
    | some name =>
      have hd := parseOutputType_diag L name
      have hnd : ∀ e ∈ (parseOutputType L name).2,
          e ≠ Effect.println "[digio] invalid interlock GPIO" := by
        unfold parseOutputType
        split_ifs <;> simp
      have f1 : (parseOutputType L name).2.filter Effect.isSetTimer = [] := by
        rw [List.filter_eq_nil_iff]
        intro e he; have := hd e he
        cases e <;> simp_all [Effect.isDiagnostic, Effect.isSetTimer]
      have f2 : (parseOutputType L name).2.filter Effect.isSetInterlock = [] := by
        rw [List.filter_eq_nil_iff]
        intro e he; have := hd e he
        cases e <;> simp_all [Effect.isDiagnostic, Effect.isSetInterlock]
      have f3 : (parseOutputType L name).2.filter Effect.isInputCall = [] := by
        rw [List.filter_eq_nil_iff]
        intro e he; have := hd e he
        cases e <;> simp_all [Effect.isDiagnostic, Effect.isInputCall]
      have f4 := filter_isPinOp_of_diag _ hd
      by_cases hv : (parseOutputType L name).1 = INVALID_OUTPUT_TYPE
      · simp only [hk, hc, hv, if_true, ne_eq, not_true_eq_false, if_false,
          Option.some.injEq] at h
        subst h
        simp [Writes.nothing, f1, f2, f3, f4]
        exact hnd
      · simp only [hk, hc, hv, if_true, ne_eq, not_false_eq_true, Option.some.injEq] at h
        subst h
        simp [Writes.nothing, List.filter_append, f1, f2, f3, f4, Effect.isSetTimer,
          Effect.isSetInterlock, Effect.isInputCall, Effect.isPinOp]
        intro e he
        rcases he with he | he
        · exact hnd e he
        · subst he; simp
  · simp only [hk, Bool.false_eq_true, if_false, Option.some.injEq] at h
    subst h
    simp [Writes.nothing]

theorem roleWrites_output (L : Lib) (b : Board) (i : Nat) :
    roleWrites L b i GPIO_OUTPUT =
      { Writes.nothing with
        role := some GPIO_OUTPUT
        mode := some (some PinMode.OUTPUT)
        level := some L.RELAY_OFF
        effects := [Effect.pinMode (gpioPin b i) PinMode.OUTPUT,
          Effect.digitalWrite (gpioPin b i) L.RELAY_OFF] } := by
  simp [roleWrites, GPIO_OUTPUT, GPIO_INPUT]

theorem roleWrites_input (L : Lib) (b : Board) (i : Nat) :
    roleWrites L b i GPIO_INPUT =
      { Writes.nothing with
        role := some GPIO_INPUT
        mode := some (some PinMode.INPUT_PULLUP)
        effects := [Effect.pinMode (gpioPin b i) PinMode.INPUT_PULLUP] } := by
  simp [roleWrites, GPIO_INPUT]

/-- The `timerSeconds` part stores nothing but the timer and calls only
`setTimer`. -/
theorem outputTimerWrites_frame (L : Lib) (i : Nat) (json : Json) :
    (outputTimerWrites L i json).role = none ∧ (outputTimerWrites L i json).mode = none ∧
    (outputTimerWrites L i json).level = none ∧ (outputTimerWrites L i json).inputType = none ∧
    (outputTimerWrites L i json).invert = none ∧ (outputTimerWrites L i json).disabled = none ∧
    (outputTimerWrites L i json).outputType = none ∧
    (outputTimerWrites L i json).interlock = none ∧
    (outputTimerWrites L i json).effects.filter Effect.isSetInterlock = [] ∧
    (outputTimerWrites L i json).effects.filter Effect.isInputCall = [] ∧
    (outputTimerWrites L i json).effects.filter Effect.isPinOp = [] ∧
    ∀ e ∈ (outputTimerWrites L i json).effects,
      e ≠ Effect.println "[digio] invalid interlock GPIO" := by
  unfold outputTimerWrites
  split_ifs <;>
    simp [Writes.nothing, Effect.isSetInterlock, Effect.isInputCall, Effect.isPinOp]

/-- The `interlockGpio` part stores nothing but the interlock and never calls
`setTimer`. -/
theorem outputInterlockWrites_frame (L : Lib) (b : Board) (i : Nat) (json : Json) :
    (outputInterlockWrites L b i json).role = none ∧
    (outputInterlockWrites L b i json).mode = none ∧
    (outputInterlockWrites L b i json).level = none ∧
    (outputInterlockWrites L b i json).inputType = none ∧
    (outputInterlockWrites L b i json).invert = none ∧
    (outputInterlockWrites L b i json).disabled = none ∧
    (outputInterlockWrites L b i json).outputType = none ∧
    (outputInterlockWrites L b i json).timer = none ∧
    (outputInterlockWrites L b i json).effects.filter Effect.isSetTimer = [] ∧
    (outputInterlockWrites L b i json).effects.filter Effect.isInputCall = [] ∧
    (outputInterlockWrites L b i json).effects.filter Effect.isPinOp = [] := by
  unfold outputInterlockWrites
  split_ifs <;>
    simp [Writes.nothing, Effect.isSetTimer, Effect.isInputCall, Effect.isPinOp]

theorem outputWrites_eq_some (L : Lib) (b : Board) (i : Nat) (json : Json) (w : Writes)
    (h : outputWrites L b i json = some w) :
    ∃ wt, outputTypeWrites L i json = some wt ∧
      w = (wt.andThen (outputTimerWrites L i json)).andThen (outputInterlockWrites L b i json) := by
  unfold outputWrites at h
  obtain ⟨wt, hwt, hw⟩ := Option.map_eq_some'.mp h
  exact ⟨wt, hwt, hw.symm⟩

theorem containsKey_of_sub (json : Json) (key sub : String)
    (h : (json.get key).containsKey sub = true) : json.containsKey key = true := by
  unfold Json.get at h
  unfold Json.containsKey
  cases hm : json.member key with
  | none => rw [hm] at h; simp [Json.containsKey, Json.member] at h
  | some v => rfl

theorem outputWrites_of_absent (L : Lib) (b : Board) (i : Nat) (json : Json)
    (h : json.containsKey "output" = false) :
    outputTimerWrites L i (json.get "output") = Writes.nothing ∧
    outputInterlockWrites L b i (json.get "output") = Writes.nothing := by
  have hnull : json.get "output" = Json.null := by
    unfold Json.get
    unfold Json.containsKey at h
    cases hm : json.member "output" with
    | none => rfl
    | some v => rw [hm] at h; simp at h
  rw [hnull]
  simp [outputTimerWrites, outputInterlockWrites, Json.containsKey, Json.member]

/-- For an entry with role OUTPUT, timer and interlock of its index, and the
`setTimer` / `setInterlock` calls in the log, are those of the `timerSeconds`
and `interlockGpio` parts; everything else of the output handler but the type
is untouched, and so is the input handler. -/
theorem jsonGpioConfig_output_result (L : Lib) (b : Board) (json : Json) (st st1 : State)
    (i : Nat) (hT : Targets L b json i)
    (hrole : (configGpioType json).map Prod.fst = some GPIO_OUTPUT)
    (h : jsonGpioConfig L b json st = some st1) :
    st1.output.timers =
      setAt (outputTimerWrites L i (json.get "output")).timer i st.output.timers ∧
    st1.output.interlocks =
      setAt (outputInterlockWrites L b i (json.get "output")).interlock i
        st.output.interlocks ∧
    st1.log.filter Effect.isSetTimer = st.log.filter Effect.isSetTimer ++
      (outputTimerWrites L i (json.get "output")).effects.filter Effect.isSetTimer ∧
    st1.log.filter Effect.isSetInterlock = st.log.filter Effect.isSetInterlock ++
      (outputInterlockWrites L b i (json.get "output")).effects.filter
        Effect.isSetInterlock ∧
    st1.input = st.input ∧
    st1.log.filter Effect.isInputCall = st.log.filter Effect.isInputCall ∧
    (∃ pre, st1.log = st.log ++ pre ++ (outputInterlockWrites L b i (json.get "output")).effects ∧
      ∀ e ∈ pre, e ≠ Effect.println "[digio] invalid interlock GPIO") := by
  rw [jsonGpioConfig_output L b json st i hT hrole] at h
  by_cases hk : json.containsKey "output" = true
  · rw [if_pos hk] at h
    obtain ⟨w, hw, hst⟩ := Option.map_eq_some'.mp h
    obtain ⟨wt, hwt, rfl⟩ := outputWrites_eq_some L b i _ w hw
    obtain ⟨t1, t2, t3, t4, t5, t6, t7, t8, t9, t10, t11, t12, t13⟩ :=
      outputTypeWrites_frame L i _ wt hwt
    obtain ⟨m1, m2, m3, m4, m5, m6, m7, m8, m9, m10, m11, m12⟩ :=
      outputTimerWrites_frame L i (json.get "output")
    obtain ⟨k1, k2, k3, k4, k5, k6, k7, k8, k9, k10, k11⟩ :=
      outputInterlockWrites_frame L b i (json.get "output")
    subst hst
    rw [roleWrites_output]
    refine ⟨?_, ?_, ?_, ?_, ?_, ?_, ?_⟩
    · simp [Writes.apply, Writes.andThen, Writes.nothing, t7, k8]
    · simp [Writes.apply, Writes.andThen, Writes.nothing, t8, m8]
    · simp [Writes.apply, Writes.andThen, Writes.nothing, List.filter_append, t9, k9,
        Effect.isSetTimer]
    · simp [Writes.apply, Writes.andThen, Writes.nothing, List.filter_append, t10, m9,
        Effect.isSetInterlock]
    · simp [Writes.apply, Writes.andThen, Writes.nothing, t4, t5, t6, m4, m5, m6, k4, k5, k6,
        setAt]
    · simp [Writes.apply, Writes.andThen, Writes.nothing, List.filter_append, t11, m10, k10,
        Effect.isInputCall]
    · refine ⟨[Effect.pinMode (gpioPin b i) PinMode.OUTPUT,
        Effect.digitalWrite (gpioPin b i) L.RELAY_OFF] ++ wt.effects ++
        (outputTimerWrites L i (json.get "output")).effects, ?_, ?_⟩
      · simp [Writes.apply, Writes.andThen, Writes.nothing, List.append_assoc]
      · intro e he
        simp only [List.mem_append, List.mem_cons, List.mem_singleton, List.not_mem_nil,
          or_false] at he
        rcases he with ((he | he) | he) | he
        · subst he; simp
        · subst he; simp
        · exact t13 e he
        · exact m12 e he
  · have hk' : json.containsKey "output" = false := by simpa using hk
    rw [if_neg hk] at h
    cases h
    obtain ⟨ha, hb⟩ := outputWrites_of_absent L b i json hk'
    rw [ha, hb, roleWrites_output]
    refine ⟨?_, ?_, ?_, ?_, ?_, ?_, ?_⟩
    · simp [Writes.apply, Writes.nothing, setAt]
    · simp [Writes.apply, Writes.nothing, setAt]
    · simp [Writes.apply, Writes.nothing, List.filter_append, Effect.isSetTimer]
    · simp [Writes.apply, Writes.nothing, List.filter_append, Effect.isSetInterlock]
    · simp [Writes.apply, Writes.nothing, setAt]
    · simp [Writes.apply, Writes.nothing, List.filter_append, Effect.isInputCall]
    · refine ⟨[Effect.pinMode (gpioPin b i) PinMode.OUTPUT,
        Effect.digitalWrite (gpioPin b i) L.RELAY_OFF], ?_, ?_⟩
      · simp [Writes.apply, Writes.nothing]
      · intro e he
        simp only [List.mem_cons, List.mem_singleton, List.not_mem_nil, or_false] at he
        rcases he with he | he
        · subst he; simp
        · subst he; simp

/-- An entry with role OUTPUT returns when the `type` member of its output
sub-object is absent or a string. -/
theorem jsonGpioConfig_output_returns (L : Lib) (b : Board) (json : Json) (st : State)
    (i : Nat) (hT : Targets L b json i)
    (hrole : (configGpioType json).map Prod.fst = some GPIO_OUTPUT)
    (hread : TypeReadable (json.get "output")) :
    ∃ st1, jsonGpioConfig L b json st = some st1 := by
  rw [jsonGpioConfig_output L b json st i hT hrole]
  split_ifs
  · obtain ⟨wt, hwt⟩ := outputTypeWrites_isSome L i (json.get "output") hread
    simp [outputWrites, hwt]
  · exact ⟨_, rfl⟩

/-! ### Timer and interlock configuration -/

/-- C13: timer configuration by null or absence, for every entry that names an
index `i` and has role OUTPUT, from every prior state. If the output sub-object
contains `timerSeconds` with value null, then whenever `jsonGpioConfig` returns
the timer of `i` is `DEFAULT_TIMER_SECS` and the one `setTimer` call of the run
is `setTimer(i, DEFAULT_TIMER_SECS)`. If the output sub-object has no
`timerSeconds` key, the timers are as before and `setTimer` is not called.
`jsonGpioConfig` does return when the `type` member of the output sub-object is
absent or a string. -/
theorem timer_null_resets_absent_keeps (L : Lib) (b : Board) (json : Json) (st : State)
    (i : Nat) (hT : Targets L b json i)
    (hrole : (configGpioType json).map Prod.fst = some GPIO_OUTPUT) :
    ((json.get "output").containsKey "timerSeconds" = true →
      (json.get "output").get "timerSeconds" = Json.null →
      ∀ st1, jsonGpioConfig L b json st = some st1 →
        st1.output.timers i = L.DEFAULT_TIMER_SECS ∧
        st1.log.filter Effect.isSetTimer = st.log.filter Effect.isSetTimer ++
          [Effect.outputSetTimer i L.DEFAULT_TIMER_SECS]) ∧
    ((json.get "output").containsKey "timerSeconds" = false →
      ∀ st1, jsonGpioConfig L b json st = some st1 →
        st1.output.timers = st.output.timers ∧
        st1.log.filter Effect.isSetTimer = st.log.filter Effect.isSetTimer) ∧
    (TypeReadable (json.get "output") → ∃ st1, jsonGpioConfig L b json st = some st1) := by
  refine ⟨?_, ?_, jsonGpioConfig_output_returns L b json st i hT hrole⟩
  · intro hk hnull st1 h
    obtain ⟨ht, -, hl, -⟩ := jsonGpioConfig_output_result L b json st st1 i hT hrole h
    rw [ht, hl]
    simp [outputTimerWrites, hk, hnull, Json.isNull, Writes.nothing, setAt, Effect.isSetTimer]
  · intro hk st1 h
    obtain ⟨ht, -, hl, -⟩ := jsonGpioConfig_output_result L b json st st1 i hT hrole h
    rw [ht, hl]
    simp [outputTimerWrites, hk, Writes.nothing, setAt]

/-- Witness of C13: index 1 (pin 4) has its timer at 5 s. The entry with
`timerSeconds: null` returns with the timer at 60, the entry with an empty
output sub-object returns with the timer still at 5. -/
theorem timer_null_resets_absent_keeps_witness :
    Targets oxrsLib Board.OXRS_ESP32 cfgTimerNull4 1 ∧
    pin4RelayTuned.output.timers 1 = 5 ∧
    (∃ st1, jsonGpioConfig oxrsLib Board.OXRS_ESP32 cfgTimerNull4 pin4RelayTuned = some st1) ∧
    (∀ st1, jsonGpioConfig oxrsLib Board.OXRS_ESP32 cfgTimerNull4 pin4RelayTuned = some st1 →
      st1.output.timers 1 = 60 ∧
      st1.log.filter Effect.isSetTimer = pin4RelayTuned.log.filter Effect.isSetTimer ++
        [Effect.outputSetTimer 1 60]) ∧
    (∀ st1, jsonGpioConfig oxrsLib Board.OXRS_ESP32 cfgOutputEmpty4 pin4RelayTuned = some st1 →
      st1.output.timers = pin4RelayTuned.output.timers ∧
      st1.log.filter Effect.isSetTimer = pin4RelayTuned.log.filter Effect.isSetTimer) :=
  ⟨by decide, by decide,
   (timer_null_resets_absent_keeps oxrsLib Board.OXRS_ESP32 cfgTimerNull4 pin4RelayTuned 1
     (by decide) (by decide)).2.2 (Or.inl (by decide)),
   (timer_null_resets_absent_keeps oxrsLib Board.OXRS_ESP32 cfgTimerNull4 pin4RelayTuned 1
     (by decide) (by decide)).1 (by decide) rfl,
   (timer_null_resets_absent_keeps oxrsLib Board.OXRS_ESP32 cfgOutputEmpty4 pin4RelayTuned 1
     (by decide) (by decide)).2.1 (by decide)⟩

/-- C14: interlock fallback, for every entry that names an index `i`, has role
OUTPUT and whose output sub-object has a non-null `interlockGpio` that
`getIndexFromGpio` does not find. Whenever `jsonGpioConfig` returns, every
interlock target is as before (in particular that of `i`: not reset to `i`, not
set to 0), `setInterlock` has not been called, and the last entry of the log is
the one diagnostic "invalid interlock GPIO", which occurs nowhere else among
the new log entries. `jsonGpioConfig` does return when the `type` member of the
output sub-object is absent or a string. -/
theorem interlock_unresolved_keeps_target (L : Lib) (b : Board) (json : Json) (st : State)
    (i : Nat) (hT : Targets L b json i)
    (hrole : (configGpioType json).map Prod.fst = some GPIO_OUTPUT)
    (hk : (json.get "output").containsKey "interlockGpio" = true)
    (hnn : ((json.get "output").get "interlockGpio").isNull = false)
    (hbad : getIndexFromGpio b (((json.get "output").get "interlockGpio").asUInt8 L) =
      INVALID_GPIO_PIN) :
    (∀ st1, jsonGpioConfig L b json st = some st1 →
      st1.output.interlocks = st.output.interlocks ∧
      st1.log.filter Effect.isSetInterlock = st.log.filter Effect.isSetInterlock ∧
      ∃ pre, st1.log = st.log ++ pre ++ [Effect.println "[digio] invalid interlock GPIO"] ∧
        ∀ e ∈ pre, e ≠ Effect.println "[digio] invalid interlock GPIO") ∧
    (TypeReadable (json.get "output") → ∃ st1, jsonGpioConfig L b json st = some st1) := by
  refine ⟨?_, jsonGpioConfig_output_returns L b json st i hT hrole⟩
  intro st1 h
  obtain ⟨-, hi, -, hl, -, -, pre, hpre, hne⟩ :=
    jsonGpioConfig_output_result L b json st st1 i hT hrole h
  have hw : outputInterlockWrites L b i (json.get "output") =
      { Writes.nothing with effects := [Effect.println "[digio] invalid interlock GPIO"] } := by
    simp [outputInterlockWrites, hk, hnn, hbad]
  rw [hw] at hi hl hpre
  refine ⟨?_, ?_, pre, hpre, hne⟩
  · rw [hi]; simp [Writes.nothing, setAt]
  · rw [hl]; simp [Writes.nothing, Effect.isSetInterlock]

/-- Witness of C14: index 1 (pin 4) is interlocked with index 3; the entry with
`interlockGpio: 3` (no pin of the table) returns and leaves the target at 3. -/
theorem interlock_unresolved_keeps_target_witness :
    Targets oxrsLib Board.OXRS_ESP32 cfgInterlockUnknown4 1 ∧
    pin4RelayTuned.output.interlocks 1 = 3 ∧
    (∃ st1, jsonGpioConfig oxrsLib Board.OXRS_ESP32 cfgInterlockUnknown4 pin4RelayTuned =
      some st1) ∧
    ∀ st1, jsonGpioConfig oxrsLib Board.OXRS_ESP32 cfgInterlockUnknown4 pin4RelayTuned =
        some st1 →
      st1.output.interlocks = pin4RelayTuned.output.interlocks ∧
      st1.log.filter Effect.isSetInterlock =
        pin4RelayTuned.log.filter Effect.isSetInterlock ∧
      ∃ pre, st1.log = pin4RelayTuned.log ++ pre ++
          [Effect.println "[digio] invalid interlock GPIO"] ∧
        ∀ e ∈ pre, e ≠ Effect.println "[digio] invalid interlock GPIO" :=
  ⟨by decide, by decide,
   (interlock_unresolved_keeps_target oxrsLib Board.OXRS_ESP32 cfgInterlockUnknown4
     pin4RelayTuned 1 (by decide) (by decide) (by decide) (by decide) (by decide)).2
     (Or.inl (by decide)),
   (interlock_unresolved_keeps_target oxrsLib Board.OXRS_ESP32 cfgInterlockUnknown4
     pin4RelayTuned 1 (by decide) (by decide) (by decide) (by decide) (by decide)).1⟩

/-- A numeric `timerSeconds` from 0 to 255 reaches the output handler unchanged. -/
theorem timer_value_in_range (L : Lib) (b : Board) (json : Json) (st : State) (i : Nat)
    (v : Nat) (hT : Targets L b json i)
    (hrole : (configGpioType json).map Prod.fst = some GPIO_OUTPUT)
    (hk : (json.get "output").containsKey "timerSeconds" = true)
    (hnum : (json.get "output").get "timerSeconds" = Json.num (v : Int)) (hv : v ≤ 255) :
    ∀ st1, jsonGpioConfig L b json st = some st1 →
      st1.output.timers i = v ∧
      st1.log.filter Effect.isSetTimer = st.log.filter Effect.isSetTimer ++
        [Effect.outputSetTimer i v] := by
  intro st1 h
  obtain ⟨ht, -, hl, -⟩ := jsonGpioConfig_output_result L b json st st1 i hT hrole h
  have hconv : (Json.num (v : Int)).asUInt8 L = v := by
    have h1 : (0 : Int) ≤ (v : Int) := Int.natCast_nonneg v
    have h2 : (v : Int) ≤ 255 := by exact_mod_cast hv
    simp [Json.asUInt8, h1, h2]
  rw [ht, hl]
  simp [outputTimerWrites, hk, hnum, Json.isNull, hconv, Writes.nothing, setAt,
    Effect.isSetTimer]

/-- C17 (failing input): pin 4 is an output. The entries with
`timerSeconds: 256` and with `timerSeconds: 300` make `jsonGpioConfig` call
`setTimer(1, 0)`: the timer of index 1 ends at 0, neither at the value given
nor at or above the minimum of 1. -/
theorem timer_above_255_stored_as_zero :
    (jsonGpioConfig oxrsLib Board.OXRS_ESP32 (cfgTimer4 256) pin4Relay).map
      (fun st => (st.output.timers 1, st.log.filter Effect.isSetTimer)) =
      some (0, [Effect.outputSetTimer 1 0]) ∧
    (jsonGpioConfig oxrsLib Board.OXRS_ESP32 (cfgTimer4 300) pin4Relay).map
      (fun st => (st.output.timers 1, st.log.filter Effect.isSetTimer)) =
      some (0, [Effect.outputSetTimer 1 0]) := by
  constructor <;> rfl

/-! ### Role determination -/

theorem configGpioType_cases (json : Json) (gpioType : Nat) (diag : List Effect)
    (h : configGpioType json = some (gpioType, diag)) :
    gpioType = GPIO_INPUT ∨ gpioType = GPIO_OUTPUT ∨ gpioType = INVALID_GPIO_TYPE := by
  unfold configGpioType at h
  split_ifs at h
  · obtain ⟨name, -, hp⟩ := Option.map_eq_some'.mp h
    unfold parseGpioType at hp
    split_ifs at hp
    · cases hp; exact Or.inl rfl
    · cases hp; exact Or.inr (Or.inl rfl)
    · cases hp; exact Or.inr (Or.inr rfl)
  · cases h; exact Or.inl rfl
  · cases h; exact Or.inr (Or.inl rfl)
  · cases h; exact Or.inr (Or.inr rfl)

theorem configGpioType_isSome (json : Json) (h : TypeReadable json) :
    ∃ r, configGpioType json = some r := by
  unfold configGpioType
  rcases h with h | ⟨name, h⟩
  · simp only [h, Bool.false_eq_true, if_false]
    split_ifs <;> exact ⟨_, rfl⟩
  · have hk := containsKey_of_get_str json "type" name h
    simp [hk, h, Json.asCString]

/-- The `type` part of the input sub-configuration stores nothing but the input
type and makes no call on the output handler. -/
theorem inputTypeWrites_frame (L : Lib) (i : Nat) (json : Json) (w : Writes)
    (h : inputTypeWrites L i json = some w) :
    w.role = none ∧ w.mode = none ∧ w.level = none ∧ w.outputType = none ∧ w.timer = none ∧
    w.interlock = none ∧ w.effects.filter Effect.isOutputCall = [] ∧
    w.effects.filter Effect.isPinOp = [] := by
  unfold inputTypeWrites at h
  by_cases hk : json.containsKey "type" = true
  · cases hc : (json.get "type").asCString with
    | none => simp [hk, hc] at h
    | some name =>
      have hd : ∀ e ∈ (parseInputType L name).2, e.isDiagnostic = true := by
        unfold parseInputType
        split_ifs <;> simp [Effect.isDiagnostic]
      have f1 := filter_isOutputCall_of_diag _ hd
      have f2 := filter_isPinOp_of_diag _ hd
      by_cases hv : (parseInputType L name).1 = INVALID_INPUT_TYPE
      · simp only [hk, hc, hv, if_true, ne_eq, not_true_eq_false, if_false,
          Option.some.injEq] at h
        subst h
        simp [Writes.nothing, f1, f2]
      · simp only [hk, hc, hv, if_true, ne_eq, not_false_eq_true, Option.some.injEq] at h
        subst h
        simp [Writes.nothing, List.filter_append, f1, f2, Effect.isOutputCall, Effect.isPinOp]
  · simp only [hk, Bool.false_eq_true, if_false, Option.some.injEq] at h
    subst h
    simp [Writes.nothing]

/-- The `invert` and `disabled` parts store nothing but the two flags and make
no call on the output handler. -/
theorem inputFlagsWrites_frame (i : Nat) (json : Json) :
    (inputFlagsWrites i json).role = none ∧ (inputFlagsWrites i json).mode = none ∧
    (inputFlagsWrites i json).level = none ∧ (inputFlagsWrites i json).outputType = none ∧
    (inputFlagsWrites i json).timer = none ∧ (inputFlagsWrites i json).interlock = none ∧
    (inputFlagsWrites i json).effects.filter Effect.isOutputCall = [] ∧
    (inputFlagsWrites i json).effects.filter Effect.isPinOp = [] := by
  unfold inputFlagsWrites
  refine ⟨rfl, rfl, rfl, rfl, rfl, rfl, ?_, ?_⟩
  · by_cases h1 : json.containsKey "invert" = true <;>
      by_cases h2 : json.containsKey "disabled" = true <;>
      simp [h1, h2, Effect.isOutputCall]
  · by_cases h1 : json.containsKey "invert" = true <;>
      by_cases h2 : json.containsKey "disabled" = true <;>
      simp [h1, h2, Effect.isPinOp]

/-- For an entry with role INPUT the role of its index is INPUT afterwards, the
output handler is untouched and not called. -/
theorem jsonGpioConfig_input_result (L : Lib) (b : Board) (json : Json) (st st1 : State)
    (i : Nat) (hT : Targets L b json i)
    (hrole : (configGpioType json).map Prod.fst = some GPIO_INPUT)
    (h : jsonGpioConfig L b json st = some st1) :
    st1.gpioTypes i = GPIO_INPUT ∧ st1.output = st.output ∧
    st1.log.filter Effect.isOutputCall = st.log.filter Effect.isOutputCall := by
  rw [jsonGpioConfig_input L b json st i hT hrole] at h
  by_cases hk : json.containsKey "input" = true
  · rw [if_pos hk] at h
    obtain ⟨w, hw, hst⟩ := Option.map_eq_some'.mp h
    unfold inputWrites at hw
    obtain ⟨wt, hwt, rfl⟩ := Option.map_eq_some'.mp hw
    obtain ⟨t1, t2, t3, t4, t5, t6, t7, t8⟩ := inputTypeWrites_frame L i _ wt hwt
    obtain ⟨f1, f2, f3, f4, f5, f6, f7, f8⟩ := inputFlagsWrites_frame i (json.get "input")
    subst hst
    rw [roleWrites_input]
    refine ⟨?_, ?_, ?_⟩
    · simp [Writes.apply, Writes.andThen, Writes.nothing, t1, f1, setAt]
    · simp [Writes.apply, Writes.andThen, Writes.nothing, t4, t5, t6, f4, f5, f6, setAt]
    · simp [Writes.apply, Writes.andThen, Writes.nothing, List.filter_append, t7, f7,
        Effect.isOutputCall]
  · rw [if_neg hk] at h
    cases h
    rw [roleWrites_input]
    refine ⟨?_, ?_, ?_⟩
    · simp [Writes.apply, Writes.nothing, setAt]
    · simp [Writes.apply, Writes.nothing, setAt]
    · simp [Writes.apply, Writes.nothing, List.filter_append, Effect.isOutputCall]

/-- For an entry with role OUTPUT the role of its index is OUTPUT afterwards. -/
theorem jsonGpioConfig_output_role (L : Lib) (b : Board) (json : Json) (st st1 : State)
    (i : Nat) (hT : Targets L b json i)
    (hrole : (configGpioType json).map Prod.fst = some GPIO_OUTPUT)
    (h : jsonGpioConfig L b json st = some st1) : st1.gpioTypes i = GPIO_OUTPUT := by
  rw [jsonGpioConfig_output L b json st i hT hrole] at h
  by_cases hk : json.containsKey "output" = true
  · rw [if_pos hk] at h
    obtain ⟨w, hw, hst⟩ := Option.map_eq_some'.mp h
    obtain ⟨wt, hwt, rfl⟩ := outputWrites_eq_some L b i _ w hw
    have t := (outputTypeWrites_frame L i _ wt hwt).1
    have m := (outputTimerWrites_frame L i (json.get "output")).1
    have k := (outputInterlockWrites_frame L b i (json.get "output")).1
    subst hst
    rw [roleWrites_output]
    simp [Writes.apply, Writes.andThen, Writes.nothing, t, m, k, setAt]
  · rw [if_neg hk] at h
    cases h
    rw [roleWrites_output]
    simp [Writes.apply, Writes.nothing, setAt]

/-- An entry returns when its `type` members are strings where present. -/
theorem jsonGpioConfig_returns (L : Lib) (b : Board) (json : Json) (st : State)
    (hread : EntryReadable json) : ∃ st1, jsonGpioConfig L b json st = some st1 := by
  by_cases hk : json.containsKey "gpio" = true
  · by_cases hi : getIndexFromGpio b ((json.get "gpio").asUInt8 L) = INVALID_GPIO_PIN
    · exact ⟨_, jsonGpioConfig_unknown_gpio L b json st hk hi⟩
    · have hT : Targets L b json (getIndexFromGpio b ((json.get "gpio").asUInt8 L)) := by
        refine ⟨hk, rfl, ?_⟩
        rcases getIndexFromGpio_range b ((json.get "gpio").asUInt8 L) with h | h
        · exact h
        · exact absurd h hi
      obtain ⟨⟨t, diag⟩, hc⟩ := configGpioType_isSome json hread.1
      rcases configGpioType_cases json t diag hc with ht | ht | ht
      · subst ht
        have hrole : (configGpioType json).map Prod.fst = some GPIO_INPUT := by rw [hc]; rfl
        rw [jsonGpioConfig_input L b json st _ hT hrole]
        split_ifs
        · obtain ⟨wt, hwt⟩ := inputTypeWrites_isSome L
            (getIndexFromGpio b ((json.get "gpio").asUInt8 L)) (json.get "input") hread.2.1
          simp [inputWrites, hwt]
        · exact ⟨_, rfl⟩
      · subst ht
        have hrole : (configGpioType json).map Prod.fst = some GPIO_OUTPUT := by rw [hc]; rfl
        exact jsonGpioConfig_output_returns L b json st _ hT hrole hread.2.2
      · subst ht
        exact ⟨_, jsonGpioConfig_no_role L b json st _ diag hT hc⟩
  · exact ⟨_, jsonGpioConfig_missing_gpio L b json st (by simpa using hk)⟩

/-- C15: role determination for a configuration entry that names index `i`.
With a `type` string the role is `parseGpioType(type)`, whatever sub-objects
there are; without `type` it is INPUT if there is an `input` sub-object, else
OUTPUT if there is an `output` sub-object. If the type name is not recognised
the entry is skipped after that one diagnostic, and if neither `type` nor a
sub-object is present it is skipped with the state, log included, unchanged.
With role INPUT the role of `i` becomes INPUT and the output handler is neither
changed nor called, even with an `output` sub-object; with role OUTPUT the role
of `i` becomes OUTPUT and the input handler is neither changed nor called, even
with an `input` sub-object. The entry is processed to the end when its `type`
members are strings where present. -/
theorem role_determination (L : Lib) (b : Board) (json : Json) (st : State) (i : Nat)
    (hT : Targets L b json i) :
    (∀ name, json.get "type" = Json.str name →
      configGpioType json = some (parseGpioType name)) ∧
    (json.containsKey "type" = false → json.containsKey "input" = true →
      configGpioType json = some (GPIO_INPUT, [])) ∧
    (json.containsKey "type" = false → json.containsKey "input" = false →
      json.containsKey "output" = true → configGpioType json = some (GPIO_OUTPUT, [])) ∧
    (∀ name, json.get "type" = Json.str name → name ∉ gpioVocabulary →
      jsonGpioConfig L b json st =
        some { st with log := st.log ++ [Effect.println "[digio] invalid GPIO type"] }) ∧
    (json.containsKey "type" = false → json.containsKey "input" = false →
      json.containsKey "output" = false → jsonGpioConfig L b json st = some st) ∧
    ((configGpioType json).map Prod.fst = some GPIO_INPUT →
      ∀ st1, jsonGpioConfig L b json st = some st1 →
        st1.gpioTypes i = GPIO_INPUT ∧ st1.output = st.output ∧
        st1.log.filter Effect.isOutputCall = st.log.filter Effect.isOutputCall) ∧
    ((configGpioType json).map Prod.fst = some GPIO_OUTPUT →
      ∀ st1, jsonGpioConfig L b json st = some st1 →
        st1.gpioTypes i = GPIO_OUTPUT ∧ st1.input = st.input ∧
        st1.log.filter Effect.isInputCall = st.log.filter Effect.isInputCall) ∧
    (EntryReadable json → ∃ st1, jsonGpioConfig L b json st = some st1) := by
  refine ⟨?_, ?_, ?_, ?_, ?_, ?_, ?_, jsonGpioConfig_returns L b json st⟩
  · intro name h
    have hk := containsKey_of_get_str json "type" name h
    simp [configGpioType, hk, h, Json.asCString]
  · intro h1 h2
    simp [configGpioType, h1, h2]
  · intro h1 h2 h3
    simp [configGpioType, h1, h2, h3]
  · intro name h hv
    have hk := containsKey_of_get_str json "type" name h
    simp only [gpioVocabulary, List.mem_cons, List.mem_singleton, List.not_mem_nil, or_false,
      not_or] at hv
    have hc : configGpioType json =
        some (INVALID_GPIO_TYPE, [Effect.println "[digio] invalid GPIO type"]) := by
      simp [configGpioType, hk, h, Json.asCString, parseGpioType, hv.1, hv.2]
    rw [jsonGpioConfig_no_role L b json st i _ hT hc]
    rfl
  · intro h1 h2 h3
    have hc : configGpioType json = some (INVALID_GPIO_TYPE, []) := by
      simp [configGpioType, h1, h2, h3]
    rw [jsonGpioConfig_no_role L b json st i _ hT hc, emit_nil]
  · intro hrole st1 h
    exact jsonGpioConfig_input_result L b json st st1 i hT hrole h
  · intro hrole st1 h
    obtain ⟨-, -, -, -, hin, hcalls, -⟩ :=
      jsonGpioConfig_output_result L b json st st1 i hT hrole h
    exact ⟨jsonGpioConfig_output_role L b json st st1 i hT hrole h, hin, hcalls⟩

/-- Witness of C15: pin 4 is an output. The entry `gpio: 4, type: "input",
output: (type: "motor", timerSeconds: 9)` has role INPUT by its explicit type,
returns, makes index 1 an input and leaves the output handler as it was. -/
theorem role_determination_witness :
    Targets oxrsLib Board.OXRS_ESP32 cfgInputWithOutput4 1 ∧
    configGpioType cfgInputWithOutput4 = some (GPIO_INPUT, []) ∧
    (∃ st1, jsonGpioConfig oxrsLib Board.OXRS_ESP32 cfgInputWithOutput4 pin4RelayTuned =
      some st1) ∧
    ∀ st1, jsonGpioConfig oxrsLib Board.OXRS_ESP32 cfgInputWithOutput4 pin4RelayTuned =
        some st1 →
      st1.gpioTypes 1 = GPIO_INPUT ∧ st1.output = pin4RelayTuned.output ∧
      st1.log.filter Effect.isOutputCall = pin4RelayTuned.log.filter Effect.isOutputCall :=
  ⟨by decide, by decide,
   (role_determination oxrsLib Board.OXRS_ESP32 cfgInputWithOutput4 pin4RelayTuned 1
     (by decide)).2.2.2.2.2.2.2
     ⟨Or.inr ⟨"input", rfl⟩, Or.inl (by decide), Or.inr ⟨"motor", rfl⟩⟩,
   (role_determination oxrsLib Board.OXRS_ESP32 cfgInputWithOutput4 pin4RelayTuned 1
     (by decide)).2.2.2.2.2.1 (by decide)⟩

/-! ### Idempotence and batches -/

/-- C11: applying a configuration entry is idempotent. From every state and for
every entry: when `jsonGpioConfig` returns a state, applying it again to that
state returns too, and the two states have the same role table, pin modes, pin
levels, input type/invert/disabled and output type/timer/interlock (they differ
in the log only). The first application does return when the `type` members of
the entry and of its sub-objects are strings where present. -/
theorem config_entry_idempotent (L : Lib) (b : Board) (json : Json) (st : State) :
    (∀ st1, jsonGpioConfig L b json st = some st1 →
      ∃ st2, jsonGpioConfig L b json st1 = some st2 ∧ SameConfig st1 st2) ∧
    (EntryReadable json → ∃ st1, jsonGpioConfig L b json st = some st1) := by
  refine ⟨?_, jsonGpioConfig_returns L b json st⟩
  intro st1 h
  obtain ⟨i, hi⟩ := overwritesOpt_jsonGpioConfig L b json
  exact hi.idem st st1 h

/-- Witness of C11: the entry `cfgOutput4` (type, timer and interlock given) is
applied to a state in which pin 4 is driven ON; it returns, and a second
application returns a state with the same configuration. -/
theorem config_entry_idempotent_witness :
    EntryReadable cfgOutput4 ∧
    (∃ st1, jsonGpioConfig oxrsLib Board.OXRS_ESP32 cfgOutput4 pin4RelayOn = some st1) ∧
    ∀ st1, jsonGpioConfig oxrsLib Board.OXRS_ESP32 cfgOutput4 pin4RelayOn = some st1 →
      ∃ st2, jsonGpioConfig oxrsLib Board.OXRS_ESP32 cfgOutput4 st1 = some st2 ∧
        SameConfig st1 st2 :=
  ⟨⟨Or.inr ⟨"output", rfl⟩, Or.inl (by decide), Or.inr ⟨"timer", rfl⟩⟩,
   (config_entry_idempotent oxrsLib Board.OXRS_ESP32 cfgOutput4 pin4RelayOn).2
     ⟨Or.inr ⟨"output", rfl⟩, Or.inl (by decide), Or.inr ⟨"timer", rfl⟩⟩,
   (config_entry_idempotent oxrsLib Board.OXRS_ESP32 cfgOutput4 pin4RelayOn).1⟩

theorem sameOutcome_refl (r : Option State) : SameOutcome r r := by
  cases r with
  | none => exact Or.inl ⟨rfl, rfl⟩
  | some st => exact Or.inr ⟨st, st, rfl, rfl, sameConfig_refl st⟩

/-- A batch of entries does not look at the log. -/
theorem foldlM_jsonGpioConfig_congr (L : Lib) (b : Board) :
    ∀ (items : List Json) (st st' : State), SameConfig st st' →
      SameOutcome (items.foldlM (fun st gpio => jsonGpioConfig L b gpio st) st)
        (items.foldlM (fun st gpio => jsonGpioConfig L b gpio st) st') := by
  intro items
  induction items with
  | nil =>
    intro st st' h
    exact Or.inr ⟨st, st', rfl, rfl, h⟩
  | cons item rest ih =>
    intro st st' h
    obtain ⟨i, hi⟩ := overwritesOpt_jsonGpioConfig L b item
    rw [List.foldlM_cons, List.foldlM_cons]
    rcases hi.congr st st' h with ⟨h1, h2⟩ | ⟨s, s', h1, h2, hs⟩
    · rw [h1, h2]; exact Or.inl ⟨rfl, rfl⟩
    · rw [h1, h2]; exact ih s s' hs

/-- An entry that takes an early return is skipped: the state changes in its log
only, by diagnostics. -/
theorem jsonGpioConfig_skipped (L : Lib) (b : Board) (bad : Json)
    (hbad : SkippedEntry L b bad) :
    ∃ diag, (∀ e ∈ diag, e.isDiagnostic = true) ∧
      ∀ st, jsonGpioConfig L b bad st = some (st.emit diag) := by
  by_cases hk : bad.containsKey "gpio" = true
  · by_cases hi : getIndexFromGpio b ((bad.get "gpio").asUInt8 L) = INVALID_GPIO_PIN
    · exact ⟨_, by simp [Effect.isDiagnostic],
        fun st => jsonGpioConfig_unknown_gpio L b bad st hk hi⟩
    · have hT : Targets L b bad (getIndexFromGpio b ((bad.get "gpio").asUInt8 L)) := by
        refine ⟨hk, rfl, ?_⟩
        rcases getIndexFromGpio_range b ((bad.get "gpio").asUInt8 L) with h | h
        · exact h
        · exact absurd h hi
      rcases hbad with h | h | ⟨diag, h⟩
      · rw [hk] at h; cases h
      · exact absurd h hi
      · refine ⟨diag, ?_, fun st => jsonGpioConfig_no_role L b bad st _ diag hT h⟩
        unfold configGpioType at h
        split_ifs at h
        · obtain ⟨name, -, hp⟩ := Option.map_eq_some'.mp h
          have : diag = (parseGpioType name).2 := by rw [hp]
          rw [this]
          unfold parseGpioType
          split_ifs <;> simp [Effect.isDiagnostic]
        all_goals first
          | (cases h; done)
          | (cases h; simp)
  · exact ⟨_, by simp [Effect.isDiagnostic],
      fun st => jsonGpioConfig_missing_gpio L b bad st (by simpa using hk)⟩

theorem jsonConfig_configDoc (L : Lib) (b : Board) (items : List Json) (st : State) :
    jsonConfig L b (configDoc items) st =
      items.foldlM (fun st gpio => jsonGpioConfig L b gpio st) st := by
  simp [jsonConfig, configDoc, Json.containsKey, Json.member, Json.get, Json.asArray,
    List.lookup]

/-- Entries that take an early return do not abort a batch. `jsonConfig` applies
`jsonGpioConfig` to the elements of `gpios` in order. An entry with no `gpio`,
with a `gpio` outside the pin table, or with a role determination ending in
`INVALID_GPIO_TYPE` returns with the state changed in its log only, by
diagnostics; so for all entry lists `xs` and `ys` the batch `xs ++ [bad] ++ ys`
and the batch `xs ++ ys` have the same outcome: both stop at the same entry, or
both end in states with the same role table, pins, input and output attributes.
A document without `gpios` changes nothing. -/
theorem skipped_entry_does_not_abort (L : Lib) (b : Board) (bad : Json)
    (hbad : SkippedEntry L b bad) :
    (∀ doc st, doc.containsKey "gpios" = true →
      jsonConfig L b doc st =
        (doc.get "gpios").asArray.foldlM (fun st gpio => jsonGpioConfig L b gpio st) st) ∧
    (∃ diag, (∀ e ∈ diag, e.isDiagnostic = true) ∧
      ∀ st, jsonGpioConfig L b bad st = some { st with log := st.log ++ diag }) ∧
    (∀ xs ys st, SameOutcome (jsonConfig L b (configDoc (xs ++ [bad] ++ ys)) st)
      (jsonConfig L b (configDoc (xs ++ ys)) st)) ∧
    (∀ doc st, doc.containsKey "gpios" = false → jsonConfig L b doc st = some st) := by
  obtain ⟨diag, hdiag, hskip⟩ := jsonGpioConfig_skipped L b bad hbad
  refine ⟨?_, ⟨diag, hdiag, hskip⟩, ?_, ?_⟩
  · intro doc st h
    simp [jsonConfig, h]
  · intro xs ys st
    rw [jsonConfig_configDoc, jsonConfig_configDoc, List.append_assoc, List.foldlM_append,
      List.foldlM_append]
    cases hx : xs.foldlM (fun st gpio => jsonGpioConfig L b gpio st) st with
    | none => exact Or.inl ⟨rfl, rfl⟩
    | some s =>
      simp only [Option.bind_eq_bind, Option.some_bind, List.singleton_append,
        List.foldlM_cons, hskip]
      exact foldlM_jsonGpioConfig_congr L b ys _ _ (sameConfig_symm (sameConfig_emit s diag))
  · intro doc st h
    simp [jsonConfig, h]

/-- Scenario D: the batch of the entry `gpio: 2, type: "relay"`, whose type name
is no role, followed by the valid entry for pin 4 has the same outcome as the
batch of the valid entry alone, and it leaves pin 4 (index 1) an output. -/
theorem skipped_entry_does_not_abort_scenario :
    SkippedEntry oxrsLib Board.OXRS_ESP32 cfgBadRole2 ∧
    SameOutcome
      (jsonConfig oxrsLib Board.OXRS_ESP32 (configDoc ([] ++ [cfgBadRole2] ++ [cfgRelay4]))
        (setup oxrsLib Board.OXRS_ESP32 (powerOn oxrsLib)))
      (jsonConfig oxrsLib Board.OXRS_ESP32 (configDoc ([] ++ [cfgRelay4]))
        (setup oxrsLib Board.OXRS_ESP32 (powerOn oxrsLib))) ∧
    (jsonConfig oxrsLib Board.OXRS_ESP32 (configDoc [cfgBadRole2, cfgRelay4])
        (setup oxrsLib Board.OXRS_ESP32 (powerOn oxrsLib))).map
      (fun st => (st.gpioTypes 0, st.gpioTypes 1, st.pinLevels 4)) =
      some (GPIO_INPUT, GPIO_OUTPUT, oxrsLib.RELAY_OFF) :=
  ⟨Or.inr (Or.inr ⟨_, rfl⟩),
   (skipped_entry_does_not_abort oxrsLib Board.OXRS_ESP32 cfgBadRole2
     (Or.inr (Or.inr ⟨_, rfl⟩))).2.2.1 [] [cfgRelay4] _,
   rfl⟩

/-- An entry that takes an early return is a bad entry. -/
theorem badEntry_of_skipped (L : Lib) (b : Board) (json : Json)
    (h : SkippedEntry L b json) : BadEntry L b json := by
  rcases h with h | h | ⟨diag, h⟩
  · exact Or.inl h
  · exact Or.inr (Or.inl h)
  · refine Or.inr (Or.inr ?_)
    rw [h]
    simp [INVALID_GPIO_TYPE, GPIO_INPUT, GPIO_OUTPUT]

/-- A bad entry whose `type` member is absent or a string takes an early
return. -/
theorem skipped_of_badEntry_readable (L : Lib) (b : Board) (json : Json)
    (h : BadEntry L b json) (hread : TypeReadable json) : SkippedEntry L b json := by
  rcases h with h | h | ⟨h1, h2⟩
  · exact Or.inl h
  · exact Or.inr (Or.inl h)
  · obtain ⟨⟨t, diag⟩, hc⟩ := configGpioType_isSome json hread
    rcases configGpioType_cases json t diag hc with ht | ht | ht
    · subst ht; rw [hc] at h1; exact absurd rfl h1
    · subst ht; rw [hc] at h2; exact absurd rfl h2
    · subst ht; exact Or.inr (Or.inr ⟨diag, hc⟩)

/-- C12 (failing input): the entry `gpio: 2, type: 5` is bad, no role can be
determined for it: its `type` member is no string, so `parseGpioType` is handed
a null pointer and `jsonGpioConfig` has no defined outcome. The batch of this
entry followed by the valid entry for pin 4 has no outcome either, whereas the
batch of the valid entry alone returns with pin 4 (index 1) an output driven
OFF: the two batches do not have the same outcome. -/
theorem bad_entry_with_number_type_aborts :
    BadEntry oxrsLib Board.OXRS_ESP32 cfgTypeNumber2 ∧
    configGpioType cfgTypeNumber2 = none ∧
    jsonGpioConfig oxrsLib Board.OXRS_ESP32 cfgTypeNumber2
      (setup oxrsLib Board.OXRS_ESP32 (powerOn oxrsLib)) = none ∧
    jsonConfig oxrsLib Board.OXRS_ESP32 (configDoc ([] ++ [cfgTypeNumber2] ++ [cfgRelay4]))
      (setup oxrsLib Board.OXRS_ESP32 (powerOn oxrsLib)) = none ∧
    (jsonConfig oxrsLib Board.OXRS_ESP32 (configDoc ([] ++ [cfgRelay4]))
        (setup oxrsLib Board.OXRS_ESP32 (powerOn oxrsLib))).map
      (fun st => (st.gpioTypes 1, st.pinLevels 4)) =
      some (GPIO_OUTPUT, oxrsLib.RELAY_OFF) ∧
    ¬ SameOutcome
      (jsonConfig oxrsLib Board.OXRS_ESP32 (configDoc ([] ++ [cfgTypeNumber2] ++ [cfgRelay4]))
        (setup oxrsLib Board.OXRS_ESP32 (powerOn oxrsLib)))
      (jsonConfig oxrsLib Board.OXRS_ESP32 (configDoc ([] ++ [cfgRelay4]))
        (setup oxrsLib Board.OXRS_ESP32 (powerOn oxrsLib))) := by
  have hbatch : jsonConfig oxrsLib Board.OXRS_ESP32
      (configDoc ([] ++ [cfgTypeNumber2] ++ [cfgRelay4]))
      (setup oxrsLib Board.OXRS_ESP32 (powerOn oxrsLib)) = none := rfl
  have halone : (jsonConfig oxrsLib Board.OXRS_ESP32 (configDoc ([] ++ [cfgRelay4]))
        (setup oxrsLib Board.OXRS_ESP32 (powerOn oxrsLib))).map
      (fun st => (st.gpioTypes 1, st.pinLevels 4)) =
      some (GPIO_OUTPUT, oxrsLib.RELAY_OFF) := rfl
  refine ⟨Or.inr (Or.inr ⟨by decide, by decide⟩), rfl, rfl, hbatch, halone, ?_⟩
  intro h
  rcases h with ⟨-, h2⟩ | ⟨st, st', h1, -, -⟩
  · rw [h2] at halone
    cases halone
  · rw [hbatch] at h1
    cases h1

/-! ### Start-up, reachable states and the output event -/

theorem setup_loop (L : Lib) (b : Board) (st : State) :
    ∀ n i, i < n →
      ((List.range n).foldl (fun st index => setGpioType L b index GPIO_INPUT st) st).gpioTypes i
        = GPIO_INPUT ∧
      ((List.range n).foldl (fun st index => setGpioType L b index GPIO_INPUT st) st).pinModes
        (gpioPin b i) = some PinMode.INPUT_PULLUP := by
  intro n
  induction n with
  | zero => intro i hi; omega
  | succ n ih =>
    intro i hi
    rw [List.range_succ, List.foldl_append]
    simp only [List.foldl_cons, List.foldl_nil]
    by_cases hin : i = n
    · subst hin
      simp [setGpioType, GPIO_INPUT, pinMode]
    · have h := ih i (by omega)
      constructor
      · simp only [setGpioType, GPIO_INPUT, if_true, pinMode]
        rw [Function.update_noteq hin]
        exact h.1
      · simp only [setGpioType, GPIO_INPUT, if_true, pinMode]
        by_cases hp : gpioPin b i = gpioPin b n
        · rw [hp]; simp
        · rw [Function.update_noteq hp]
          exact h.2

/-- C16: role default. After the initialisation loop of `setup`, from whatever
state it starts, every index below `GPIO_COUNT` has role `GPIO_INPUT` and its
pin is in pulled-up input mode. -/
theorem setup_defaults_to_input (L : Lib) (b : Board) (st : State) :
    ∀ i, i < GPIO_COUNT b →
      (setup L b st).gpioTypes i = GPIO_INPUT ∧
      (setup L b st).pinModes (gpioPin b i) = some PinMode.INPUT_PULLUP := by
  intro i hi
  exact setup_loop L b st (GPIO_COUNT b) i hi

/-- A configuration entry keeps every interlock target at its own index or at
a valid table index. -/
theorem jsonGpioConfig_interlocks (L : Lib) (b : Board) (json : Json) (st st1 : State)
    (h : jsonGpioConfig L b json st = some st1)
    (hinv : ∀ k, st.output.interlocks k = k ∨ st.output.interlocks k < GPIO_COUNT b) :
    ∀ k, st1.output.interlocks k = k ∨ st1.output.interlocks k < GPIO_COUNT b := by
  by_cases hk : json.containsKey "gpio" = true
  · by_cases hi : getIndexFromGpio b ((json.get "gpio").asUInt8 L) = INVALID_GPIO_PIN
    · rw [jsonGpioConfig_unknown_gpio L b json st hk hi] at h
      cases h; exact hinv
    · have hT : Targets L b json (getIndexFromGpio b ((json.get "gpio").asUInt8 L)) := by
        refine ⟨hk, rfl, ?_⟩
        rcases getIndexFromGpio_range b ((json.get "gpio").asUInt8 L) with h | h
        · exact h
        · exact absurd h hi
      generalize getIndexFromGpio b ((json.get "gpio").asUInt8 L) = i at hT
      cases hc : configGpioType json with
      | none => rw [jsonGpioConfig_unreadable L b json st i hT hc] at h; cases h
      | some r =>
        obtain ⟨t, diag⟩ := r
        rcases configGpioType_cases json t diag hc with ht | ht | ht
        · subst ht
          have hrole : (configGpioType json).map Prod.fst = some GPIO_INPUT := by rw [hc]; rfl
          rw [(jsonGpioConfig_input_result L b json st st1 i hT hrole h).2.1]
          exact hinv
        · subst ht
          have hrole : (configGpioType json).map Prod.fst = some GPIO_OUTPUT := by
            rw [hc]; rfl
          have hl := (jsonGpioConfig_output_result L b json st st1 i hT hrole h).2.1
          intro k
          rw [hl]
          unfold outputInterlockWrites
          split_ifs with c1 c2 c3
          · by_cases hki : k = i
            · subst hki; simp [Writes.nothing, setAt]
            · simp [Writes.nothing, setAt, Function.update_noteq hki]; exact hinv k
          · simpa [Writes.nothing, setAt] using hinv k
          · by_cases hki : k = i
            · subst hki
              right
              simp only [Writes.nothing, setAt, Function.update_same]
              rcases getIndexFromGpio_range b
                (((json.get "output").get "interlockGpio").asUInt8 L) with h' | h'
              · exact h'
              · exact absurd h' c3
            · simp [Writes.nothing, setAt, Function.update_noteq hki]; exact hinv k
          · simpa [Writes.nothing, setAt] using hinv k
        · subst ht
          rw [jsonGpioConfig_no_role L b json st i diag hT hc] at h
          cases h; exact hinv
  · rw [jsonGpioConfig_missing_gpio L b json st (by simpa using hk)] at h
    cases h; exact hinv

theorem foldlM_jsonGpioConfig_interlocks (L : Lib) (b : Board) :
    ∀ (items : List Json) (st st1 : State),
      items.foldlM (fun st gpio => jsonGpioConfig L b gpio st) st = some st1 →
      (∀ k, st.output.interlocks k = k ∨ st.output.interlocks k < GPIO_COUNT b) →
      ∀ k, st1.output.interlocks k = k ∨ st1.output.interlocks k < GPIO_COUNT b := by
  intro items
  induction items with
  | nil => intro st st1 h hinv; cases h; exact hinv
  | cons item rest ih =>
    intro st st1 h hinv
    rw [List.foldlM_cons] at h
    cases hs : jsonGpioConfig L b item st with
    | none => rw [hs] at h; cases h
    | some s =>
      rw [hs] at h
      exact ih s st1 h (jsonGpioConfig_interlocks L b item st s hs hinv)

theorem jsonConfig_interlocks (L : Lib) (b : Board) (doc : Json) (st st1 : State)
    (h : jsonConfig L b doc st = some st1)
    (hinv : ∀ k, st.output.interlocks k = k ∨ st.output.interlocks k < GPIO_COUNT b) :
    ∀ k, st1.output.interlocks k = k ∨ st1.output.interlocks k < GPIO_COUNT b := by
  unfold jsonConfig at h
  split_ifs at h
  · exact foldlM_jsonGpioConfig_interlocks L b _ st st1 h hinv
  · cases h; exact hinv

theorem foldlM_jsonConfig_interlocks (L : Lib) (b : Board) :
    ∀ (docs : List Json) (st st1 : State),
      docs.foldlM (fun st doc => jsonConfig L b doc st) st = some st1 →
      (∀ k, st.output.interlocks k = k ∨ st.output.interlocks k < GPIO_COUNT b) →
      ∀ k, st1.output.interlocks k = k ∨ st1.output.interlocks k < GPIO_COUNT b := by
  intro docs
  induction docs with
  | nil => intro st st1 h hinv; cases h; exact hinv
  | cons doc rest ih =>
    intro st st1 h hinv
    rw [List.foldlM_cons] at h
    cases hs : jsonConfig L b doc st with
    | none => rw [hs] at h; cases h
    | some s =>
      rw [hs] at h
      exact ih s st1 h (jsonConfig_interlocks L b doc st s hs hinv)

/-- C18 (amended): in every state reachable from start-up by configuration
batches, an interlock target that differs from its own index is a valid table
index (below `GPIO_COUNT`). -/
theorem reachable_interlock_target_valid (L : Lib) (b : Board) (st : State)
    (hreach : Reachable L b st) :
    ∀ i, st.output.interlocks i ≠ i → st.output.interlocks i < GPIO_COUNT b := by
  obtain ⟨st0, docs, h⟩ := hreach
  have hinit : ∀ k, (setup L b st0).output.interlocks k = k ∨
      (setup L b st0).output.interlocks k < GPIO_COUNT b := fun k => Or.inl rfl
  intro i hne
  rcases foldlM_jsonConfig_interlocks L b docs _ st h hinit i with h' | h'
  · exact absurd h' hne
  · exact h'

/-- Witness of C18 (amended): after start-up and the batch with
`interlockGpio: 5` for pin 4, the interlock target of index 1 is index 2, a
valid index. -/
theorem reachable_interlock_target_valid_witness :
    Reachable oxrsLib Board.OXRS_ESP32 afterInterlock5 ∧
    afterInterlock5.output.interlocks 1 = 2 ∧
    afterInterlock5.output.interlocks 1 < GPIO_COUNT Board.OXRS_ESP32 :=
  ⟨⟨powerOn oxrsLib, [configDoc [cfgInterlock5]], rfl⟩, by decide,
   reachable_interlock_target_valid oxrsLib Board.OXRS_ESP32 afterInterlock5
     ⟨powerOn oxrsLib, [configDoc [cfgInterlock5]], rfl⟩ 1 (by decide)⟩

/-- C18 (counterexample): after start-up the one batch `gpio: 4, type:
"output", output: (interlockGpio: 5)` is applied. The interlock target of index
1 is then index 2, which differs from 1, and index 2 (pin 5) is configured as
an input, not as an output. -/
theorem interlock_target_may_be_input :
    ([configDoc [cfgInterlock5]].foldlM
        (fun st doc => jsonConfig oxrsLib Board.OXRS_ESP32 doc st)
        (setup oxrsLib Board.OXRS_ESP32 (powerOn oxrsLib))).map
      (fun st => (st.output.interlocks 1, st.gpioTypes 2)) = some (2, GPIO_INPUT) ∧
    GPIO_INPUT ≠ GPIO_OUTPUT := by
  constructor
  · rfl
  · decide

/-- C19: the output event handler. For every index `i`, type `t` and state
`state` handed over by the output handler, `outputEvent` writes `state` to pin
`GPIO_PINS[i]` and makes exactly one publish attempt, with the record of the pin
id, the name of `t` and the event name of `state`; nothing else of the state
changes, and when the attempt is not delivered only the failover prints follow
(no second attempt, nothing retained). With distinct `RELAY_ON` and `RELAY_OFF`
the event name is "on" for `RELAY_ON` and "off" for `RELAY_OFF`, whatever the
type. -/
theorem outputEvent_drives_and_publishes (L : Lib) (b : Board) (net : Nat → Bool)
    (id i t state : Nat) (st : State) (hL : L.RELAY_ON ≠ L.RELAY_OFF) :
    (∃ tail, outputEvent L b net id i t state st =
        { st with
          pinLevels := Function.update st.pinLevels (gpioPin b i) state
          log := st.log ++ Effect.digitalWrite (gpioPin b i) state ::
            Effect.publishStatus
              { gpio := gpioPin b i, type := getOutputType L t,
                event := getOutputEventType L t state }
              (net (publishAttempts st.log)) :: tail } ∧
      publishedRecords tail = [] ∧ tail.filter Effect.isPinOp = [] ∧
      tail.filter Effect.isOutputCall = [] ∧
      (net (publishAttempts st.log) = true → tail = [])) ∧
    (∀ t', getOutputEventType L t' L.RELAY_ON = "on") ∧
    (∀ t', getOutputEventType L t' L.RELAY_OFF = "off") ∧
    (∀ t', getOutputEventType L t' state = getOutputEventType L t state) := by
  refine ⟨?_, ?_, ?_, ?_⟩
  · unfold outputEvent publishOutputEvent
    have hcount : publishAttempts (st.log ++ [Effect.digitalWrite (gpioPin b i) state]) =
        publishAttempts st.log := by
      have : ∀ (l : List Effect) (e : Effect), e.isPinOp = true →
          publishAttempts (l ++ [e]) = publishAttempts l := by
        intro l e he
        induction l with
        | nil => cases e <;> simp_all [publishAttempts, Effect.isPinOp]
        | cons x rest ih => cases x <;> simp [publishAttempts, ih]
      exact this _ _ rfl
    cases hd : net (publishAttempts st.log) with
    | true =>
      refine ⟨[], ?_, rfl, rfl, rfl, fun _ => rfl⟩
      simp [hcount, hd, digitalWrite, State.emit]
    | false =>
      refine ⟨[Effect.print "[digio] [failover] ",
        Effect.serializeJson (outputRecord L b i t state), Effect.println ""],
        ?_, rfl, rfl, rfl, fun h => by cases h⟩
      simp [hcount, hd, digitalWrite, State.emit, outputRecord]
  · intro t'
    simp [getOutputEventType]
  · intro t'
    simp [getOutputEventType, Ne.symm hL]
  · intro t'
    rfl

/-- Witness of C19 (scenario A): after start-up, the configuration `gpio: 4,
type: "output", output: (type: "relay")` and the command `gpio: 4, command:
"on"`, the one call on the output handler is `handleCommand(0, 1, RELAY_ON)`.
The event the handler then raises for index 1, type relay, state `RELAY_ON`
drives pin 4 to `RELAY_ON` and publishes `gpio: 4, type: "relay", event: "on"`. -/
theorem outputEvent_drives_and_publishes_witness :
    afterScenarioA.log.filter Effect.isOutputCall =
      [Effect.outputSetType 1 oxrsLib.RELAY,
       Effect.outputHandleCommand 0 1 oxrsLib.RELAY_ON] ∧
    afterScenarioA.output.types 1 = oxrsLib.RELAY ∧
    (outputEvent oxrsLib Board.OXRS_ESP32 netUp 0 1 oxrsLib.RELAY oxrsLib.RELAY_ON
      afterScenarioA).pinLevels 4 = oxrsLib.RELAY_ON ∧
    ∃ tail, outputEvent oxrsLib Board.OXRS_ESP32 netUp 0 1 oxrsLib.RELAY oxrsLib.RELAY_ON
        afterScenarioA =
        { afterScenarioA with
          pinLevels := Function.update afterScenarioA.pinLevels 4 oxrsLib.RELAY_ON
          log := afterScenarioA.log ++ Effect.digitalWrite 4 oxrsLib.RELAY_ON ::
            Effect.publishStatus { gpio := 4, type := "relay", event := "on" }
              (netUp (publishAttempts afterScenarioA.log)) :: tail } ∧
      publishedRecords tail = [] ∧ tail.filter Effect.isPinOp = [] ∧
      tail.filter Effect.isOutputCall = [] ∧
      (netUp (publishAttempts afterScenarioA.log) = true → tail = []) :=
  ⟨by decide, by decide, by decide,
   (outputEvent_drives_and_publishes oxrsLib Board.OXRS_ESP32 netUp 0 1 oxrsLib.RELAY
     oxrsLib.RELAY_ON afterScenarioA (by decide)).1⟩

/-- On the OXRS_ESP32 board every pin of the table lies inside the 32-bit input
register. -/
theorem esp32_pins_in_register :
    ∀ i, i < GPIO_COUNT Board.OXRS_ESP32 → gpioPin Board.OXRS_ESP32 i < 32 := by
  decide

/-- C20 (failing input): in the OXRS_LILYGO pin table the pins at indices 6 to
11 are 32, 33, 34, 35, 36 and 39, none of them below 32, and `bitRead` on the
32-bit register value at pin 32 has no defined result. -/
theorem lilygo_pins_beyond_register :
    (List.range (GPIO_COUNT Board.OXRS_LILYGO)).filter
      (fun i => decide (32 ≤ gpioPin Board.OXRS_LILYGO i)) = [6, 7, 8, 9, 10, 11] ∧
    (GPIO_PINS Board.OXRS_LILYGO).filter (fun g => decide (32 ≤ g)) =
      [32, 33, 34, 35, 36, 39] ∧
    bitRead 0xFFFFFFFF (gpioPin Board.OXRS_LILYGO 6) = none := by
  decide

/-- Witness of C16: `setup` run on the OXRS_ESP32 build from a state in which
pin 4 (index 1) is an output driven ON leaves index 1 an input with pin 4 in
pulled-up input mode. -/
theorem setup_defaults_to_input_witness :
    1 < GPIO_COUNT Board.OXRS_ESP32 ∧
    pin4RelayOn.gpioTypes 1 = GPIO_OUTPUT ∧
    (setup oxrsLib Board.OXRS_ESP32 pin4RelayOn).gpioTypes 1 = GPIO_INPUT ∧
    (setup oxrsLib Board.OXRS_ESP32 pin4RelayOn).pinModes
      (gpioPin Board.OXRS_ESP32 1) = some PinMode.INPUT_PULLUP :=
  ⟨by decide, by decide,
   setup_defaults_to_input oxrsLib Board.OXRS_ESP32 pin4RelayOn 1 (by decide)⟩

/-! ### Name lengths -/

theorem getInputType_length (L : Lib) (type : Nat) : (getInputType L type).length ≤ 8 := by
  unfold getInputType
  split_ifs <;> decide

theorem getOutputType_length (L : Lib) (type : Nat) : (getOutputType L type).length ≤ 5 := by
  unfold getOutputType
  split_ifs <;> decide

theorem getOutputEventType_length (L : Lib) (type state : Nat) :
    (getOutputEventType L type state).length ≤ 5 := by
  unfold getOutputEventType
  split_ifs <;> decide

theorem getInputEventType_length (L : Lib) (type state : Nat) :
    (getInputEventType L type state).length ≤ 6 := by
  unfold getInputEventType
  by_cases c1 : type = L.BUTTON
  · rw [if_pos c1]; split_ifs <;> decide
  rw [if_neg c1]
  by_cases c2 : type = L.CONTACT
  · rw [if_pos c2]; split_ifs <;> decide
  rw [if_neg c2]
  by_cases c3 : type = L.PRESS
  · rw [if_pos c3]; decide
  rw [if_neg c3]
  by_cases c4 : type = L.ROTARY
  · rw [if_pos c4]; split_ifs <;> decide
  rw [if_neg c4]
  by_cases c5 : type = L.SECURITY
  · rw [if_pos c5]; split_ifs <;> decide
  rw [if_neg c5]
  by_cases c6 : type = L.SWITCH
  · rw [if_pos c6]; split_ifs <;> decide
  rw [if_neg c6]
  split_ifs <;> decide

/-- C21: every name the classifier writes fits the buffer the publishers
allocate for it, terminating NUL included. For every library constant set, type
and state: the name from `getInputType` has at most 8 characters (buffer of 9),
the name from `getOutputType` at most 7 (buffer of 8), the event names from
`getInputEventType` and `getOutputEventType` at most 6 (buffer of 7); the
placeholder "error", which each function writes first, fits them all. -/
theorem names_fit_buffers (L : Lib) (type state : Nat) :
    ((getInputType L type).length ≤ 8 ∧
      (getInputType L type).length + 1 ≤ inputTypeBuffer) ∧
    ((getOutputType L type).length ≤ 7 ∧
      (getOutputType L type).length + 1 ≤ outputTypeBuffer) ∧
    ((getInputEventType L type state).length ≤ 6 ∧
      (getInputEventType L type state).length + 1 ≤ eventTypeBuffer) ∧
    ((getOutputEventType L type state).length ≤ 6 ∧
      (getOutputEventType L type state).length + 1 ≤ eventTypeBuffer) ∧
    ("error".length + 1 ≤ inputTypeBuffer ∧ "error".length + 1 ≤ outputTypeBuffer ∧
      "error".length + 1 ≤ eventTypeBuffer) := by
  have h1 := getInputType_length L type
  have h2 := getOutputType_length L type
  have h3 := getInputEventType_length L type state
  have h4 := getOutputEventType_length L type state
  unfold inputTypeBuffer outputTypeBuffer eventTypeBuffer
  refine ⟨⟨h1, by omega⟩, ⟨by omega, by omega⟩, ⟨h3, by omega⟩, ⟨by omega, by omega⟩, ?_⟩
  decide

end DigitalIO
